import Mathlib

/-!
# PN5180 driver and ISO 15693 protocol layer

A shallow embedding of `PN5180.cpp` / `PN5180ISO15693.cpp`.

* Machine integers are `Nat` reduced modulo `2^w` wherever the C code can
  wrap (`uint8_t` counters, `uint8_t` sums, `uint16_t` counters).
* `ISO15693ErrorCode` is a C enum: its values are plain integers, and a cast
  can produce a value that is none of the enumerators. It is an `Int` here.
* The pins and the SPI peripheral are an environment: the level of the BUSY
  line at the k-th sample and the byte clocked in at the k-th SPI exchange
  are given by two streams; every bus action is appended to a trace.
* A loop whose termination is not evident from its text takes `fuel`; running
  out of fuel is `none`.
* `wait_ms` delays and `tr_debug` logging have no effect on the state; the
  code is taken with `DEBUG_PN5180` equal to 0, the default of
  `pn5180_trace.h`.
-/

namespace PN5180

/-! ## Registers, IRQ bits, direct commands (PN5180.h, PN5180.cpp) -/

def SYSTEM_CONFIG : Nat := 0x00
def IRQ_ENABLE : Nat := 0x01
def IRQ_STATUS : Nat := 0x02
def IRQ_CLEAR : Nat := 0x03
def RX_STATUS : Nat := 0x13
def RF_STATUS : Nat := 0x1d

def RX_IRQ_STAT : Nat := 1 <<< 0
def TX_IRQ_STAT : Nat := 1 <<< 1
def IDLE_IRQ_STAT : Nat := 1 <<< 2
def TX_RFOFF_IRQ_STAT : Nat := 1 <<< 8
def TX_RFON_IRQ_STAT : Nat := 1 <<< 9
def RX_SOF_DET_IRQ_STAT : Nat := 1 <<< 14

def PN5180_WRITE_REGISTER : Nat := 0x00
def PN5180_WRITE_REGISTER_OR_MASK : Nat := 0x01
def PN5180_WRITE_REGISTER_AND_MASK : Nat := 0x02
def PN5180_READ_REGISTER : Nat := 0x04
def PN5180_READ_EEPROM : Nat := 0x07
def PN5180_SEND_DATA : Nat := 0x09
def PN5180_READ_DATA : Nat := 0x0A
def PN5180_LOAD_RF_CONFIG : Nat := 0x11
def PN5180_RF_ON : Nat := 0x16
def PN5180_RF_OFF : Nat := 0x17

def LOW : Bool := false
def HIGH : Bool := true

/-- Values of `enum PN5180TransceiveStat`; `PN5180TransceiveStat(state)` is the
number `state`. -/
def PN5180_TS_Idle : Nat := 0
def PN5180_TS_WaitTransmit : Nat := 1
def PN5180_TS_Transmitting : Nat := 2
def PN5180_TS_WaitReceive : Nat := 3
def PN5180_TS_WaitForData : Nat := 4
def PN5180_TS_Receiving : Nat := 5
def PN5180_TS_LoopBack : Nat := 6
def PN5180_TS_RESERVED : Nat := 7

/-! ## The environment -/

/-- One action on the pins or on the SPI peripheral. -/
inductive Event where
  | busyRead (level : Bool)
  | csWrite (level : Bool)
  | resetWrite (level : Bool)
  | spi (mosi miso : Nat)
  deriving DecidableEq, Repr

/-- The members of `class PN5180` together with the environment they talk to.

* `busyLine k` is the level of `_busy` at its k-th sample, `busyReads` the
  number of samples taken so far;
* `spiReply k` is the byte returned by the k-th `_spi.write`, `spiWrites` the
  number of exchanges so far;
* `cs`, `rst` are the levels last written to `_cs` and `_reset`;
* `readBuffer` is the member `uint8_t readBuffer[508]`;
* `garbage k` is the indeterminate content of the k-th uninitialised
  `uint32_t` local that is declared, `locals` the number declared so far;
* `fatal` records that mbed `error()` was called;
* `heapOverflow` records a store outside a `malloc`ed block;
* `commands` is a ghost log: the frame and `recvBufferLen` of every
  `transceiveCommand` whose first chip-select window was opened;
* `trace` lists every pin and SPI action in order. -/
structure State where
  busyLine : Nat → Bool
  busyReads : Nat
  spiReply : Nat → Nat
  spiWrites : Nat
  cs : Bool
  rst : Bool
  readBuffer : List Nat
  garbage : Nat → Nat
  locals : Nat
  fatal : Bool
  heapOverflow : Bool
  commands : List (List Nat × Nat)
  trace : List Event

/-- Sampling `_busy`. -/
def readBusy (hw : State) : Bool × State :=
  let level := hw.busyLine hw.busyReads
  (level, { hw with busyReads := hw.busyReads + 1, trace := hw.trace ++ [Event.busyRead level] })

/-- Assigning `_cs`. -/
def writeCs (level : Bool) (hw : State) : State :=
  { hw with cs := level, trace := hw.trace ++ [Event.csWrite level] }

/-- Assigning `_reset`. -/
def writeReset (level : Bool) (hw : State) : State :=
  { hw with rst := level, trace := hw.trace ++ [Event.resetWrite level] }

/-- The call `_spi.write(b)`: one full-duplex byte exchange. -/
def spiWrite (b : Nat) (hw : State) : Nat × State :=
  let reply := hw.spiReply hw.spiWrites % 256
  (reply, { hw with spiWrites := hw.spiWrites + 1, trace := hw.trace ++ [Event.spi b reply] })

/-- Declaring an uninitialised `uint32_t` local. -/
def declareLocal32 (hw : State) : Nat × State :=
  (hw.garbage hw.locals % 2 ^ 32, { hw with locals := hw.locals + 1 })

/-- The four bytes of a `uint32_t` as seen through `(uint8_t*)&value`
(little endian target). -/
def bytesOfU32 (v : Nat) : List Nat :=
  [v % 256, (v >>> 8) % 256, (v >>> 16) % 256, (v >>> 24) % 256]

/-- The `uint32_t` stored in four bytes, least significant byte first. -/
def u32OfBytes (bs : List Nat) : Nat :=
  bs.getD 0 0 % 256 + ((bs.getD 1 0 % 256) <<< 8) + ((bs.getD 2 0 % 256) <<< 16)
    + ((bs.getD 3 0 % 256) <<< 24)

/-- Reading element `i` of a `uint8_t` array. -/
def rd8 (buf : List Nat) (i : Nat) : Nat :=
  buf.getD i 0 % 256

/-- The array `dst` after the first `n` rounds of
`for (int i=0; i<n; i++) dst[off+i] = f(i);`. -/
def storeLoop : (n : Nat) → (dst : List Nat) → (off : Nat) → (f : Nat → Nat) → List Nat
  | 0, dst, _, _ => dst
  | n + 1, dst, off, f => (storeLoop n dst off f).set (off + n) (f n)

/-! ## Transport layer (PN5180.cpp) -/

/-- The loop of `waitForBusyState`, entered with counter `ctr` (`uint16_t`). -/
def waitForBusyStateLoop : (fuel : Nat) → (stateToWaitFor : Bool) → (ctr : Nat) → State →
    Option (Bool × State)
  | 0, _, _, _ => none
  | fuel + 1, stateToWaitFor, ctr, hw =>
    let (level, hw1) := readBusy hw
    if level != stateToWaitFor then
      let ctr1 := (ctr + 1) % 65536
      if ctr1 > 2000 then some (false, hw1)
      else waitForBusyStateLoop fuel stateToWaitFor ctr1 hw1
    else some (true, hw1)

def waitForBusyState (fuel : Nat) (stateToWaitFor : Bool) (hw : State) : Option (Bool × State) :=
  waitForBusyStateLoop fuel stateToWaitFor 0 hw

/-- The send loop of `transceiveCommand`:
`for (uint8_t i=0; i<sendBufferLen; i++) _spi.write(sendBuffer[i]);`
entered with counter `i`. -/
def sendLoop : (fuel : Nat) → (sendBuffer : List Nat) → (sendBufferLen : Nat) → (i : Nat) →
    State → Option State
  | 0, _, _, _, _ => none
  | fuel + 1, sendBuffer, sendBufferLen, i, hw =>
    if i < sendBufferLen then
      sendLoop fuel sendBuffer sendBufferLen ((i + 1) % 256) (spiWrite (rd8 sendBuffer i) hw).2
    else some hw

/-- The receive loop of `transceiveCommand`:
`for (uint8_t i=0; i<recvBufferLen; i++) recvBuffer[i] = _spi.write(0xff);`
entered with counter `i`. -/
def recvLoop : (fuel : Nat) → (recvBuffer : List Nat) → (recvBufferLen : Nat) → (i : Nat) →
    State → Option (List Nat × State)
  | 0, _, _, _, _ => none
  | fuel + 1, recvBuffer, recvBufferLen, i, hw =>
    if i < recvBufferLen then
      let (reply, hw1) := spiWrite 0xff hw
      recvLoop fuel (recvBuffer.set i reply) recvBufferLen ((i + 1) % 256) hw1
    else some (recvBuffer, hw)

/-- The function `transceiveCommand(sendBuffer, sendBufferLen, recvBuffer, recvBufferLen)`.
`recvBuffer = none` is the null pointer; otherwise it is the content of the
receiving array before the call. The result carries the content after the
call (empty for the null pointer). -/
def transceiveCommand (fuel : Nat) (sendBuffer : List Nat) (sendBufferLen : Nat)
    (recvBuffer : Option (List Nat)) (recvBufferLen : Nat) (hw : State) :
    Option (Bool × List Nat × State) :=
  let buf0 := recvBuffer.getD []
  -- Wait until busy is low
  match waitForBusyState fuel LOW hw with
  | none => none
  | some (false, hw1) => some (false, buf0, hw1)
  | some (true, hw1) =>
    -- 1. Assert NSS to Low
    let hw2 := writeCs false
      { hw1 with commands := hw1.commands ++ [(sendBuffer.take sendBufferLen, recvBufferLen)] }
    -- 2. Perform Data Exchange
    match sendLoop fuel sendBuffer sendBufferLen 0 hw2 with
    | none => none
    | some hw3 =>
      -- 3. Wait until BUSY is high
      match waitForBusyState fuel HIGH hw3 with
      | none => none
      | some (false, hw4) => some (false, buf0, hw4)
      | some (true, hw4) =>
        -- 4. Deassert NSS
        let hw5 := writeCs true hw4
        -- 5. Wait until BUSY is low
        match waitForBusyState fuel LOW hw5 with
        | none => none
        | some (false, hw6) => some (false, buf0, hw6)
        | some (true, hw6) =>
          -- stop here if we only want to send data
          if recvBuffer.isNone || recvBufferLen == 0 then some (true, buf0, hw6)
          else
            let hw7 := writeCs false hw6
            match recvLoop fuel buf0 recvBufferLen 0 hw7 with
            | none => none
            | some (buf1, hw8) =>
              match waitForBusyState fuel HIGH hw8 with
              | none => none
              | some (false, hw9) => some (false, buf1, hw9)
              | some (true, hw9) =>
                let hw10 := writeCs true hw9
                match waitForBusyState fuel LOW hw10 with
                | none => none
                | some (false, hw11) => some (false, buf1, hw11)
                | some (true, hw11) => some (true, buf1, hw11)

/-! ## Register and buffer access (PN5180.cpp) -/

def writeRegister (fuel : Nat) (reg value : Nat) (hw : State) : Option (Bool × State) :=
  let p := bytesOfU32 value
  let buf := [PN5180_WRITE_REGISTER, reg, p.getD 0 0, p.getD 1 0, p.getD 2 0, p.getD 3 0]
  match transceiveCommand fuel buf 6 none 0 hw with
  | none => none
  | some (success, _, hw1) => some (success, hw1)

def writeRegisterWithOrMask (fuel : Nat) (reg mask : Nat) (hw : State) : Option (Bool × State) :=
  let p := bytesOfU32 mask
  let buf := [PN5180_WRITE_REGISTER_OR_MASK, reg, p.getD 0 0, p.getD 1 0, p.getD 2 0, p.getD 3 0]
  match transceiveCommand fuel buf 6 none 0 hw with
  | none => none
  | some (success, _, hw1) => some (success, hw1)

def writeRegisterWithAndMask (fuel : Nat) (reg mask : Nat) (hw : State) : Option (Bool × State) :=
  let p := bytesOfU32 mask
  let buf := [PN5180_WRITE_REGISTER_AND_MASK, reg, p.getD 0 0, p.getD 1 0, p.getD 2 0, p.getD 3 0]
  match transceiveCommand fuel buf 6 none 0 hw with
  | none => none
  | some (success, _, hw1) => some (success, hw1)

/-- The function `readRegister(reg, value)`; `value` is the content of `*value`
before the call, the result carries its content after the call. -/
def readRegister (fuel : Nat) (reg value : Nat) (hw : State) : Option (Bool × Nat × State) :=
  let cmd := [PN5180_READ_REGISTER, reg]
  match transceiveCommand fuel cmd 2 (some (bytesOfU32 value)) 4 hw with
  | none => none
  | some (success, buf, hw1) => some (success, u32OfBytes buf, hw1)

/-- The function `readEEprom(addr, buffer, len)`; `buffer` is the content of the
caller's array before the call, the result carries its content after. The sum
`addr+len` is an `int` sum of two `uint8_t` and does not wrap. -/
def readEEprom (fuel : Nat) (addr : Nat) (buffer : List Nat) (len : Nat) (hw : State) :
    Option (Bool × List Nat × State) :=
  if addr > 254 || (addr + len) > 254 then some (false, buffer, hw)
  else
    let cmd := [PN5180_READ_EEPROM, addr, len]
    transceiveCommand fuel cmd 3 (some buffer) len hw

def getIRQStatus (fuel : Nat) (hw : State) : Option (Nat × State) :=
  let (irqStatus, hw1) := declareLocal32 hw
  match readRegister fuel IRQ_STATUS irqStatus hw1 with
  | none => none
  | some (_, irqStatus1, hw2) => some (irqStatus1, hw2)

def clearIRQStatus (fuel : Nat) (irqMask : Nat) (hw : State) : Option (Bool × State) :=
  writeRegister fuel IRQ_CLEAR irqMask hw

def getTransceiveState (fuel : Nat) (hw : State) : Option (Nat × State) :=
  let (rfStatus, hw1) := declareLocal32 hw
  match readRegister fuel RF_STATUS rfStatus hw1 with
  | none => none
  | some (false, _, hw2) => some (0, hw2)
  | some (true, rfStatus1, hw2) =>
    let state := ((rfStatus1 >>> 24) &&& 0x07) % 256
    some (state, hw2)

/-- The function `sendData(data, len, validBits)`, `len` a `uint8_t`. -/
def sendData (fuel : Nat) (data : List Nat) (len : Nat) (validBits : Nat) (hw : State) :
    Option (Bool × State) :=
  let buffer := [PN5180_SEND_DATA, validBits] ++ (List.range len).map (fun i => rd8 data i)
  match writeRegisterWithAndMask fuel SYSTEM_CONFIG 0xfffffff8 hw with
  | none => none
  | some (_, hw1) =>
    match writeRegisterWithOrMask fuel SYSTEM_CONFIG 0x00000003 hw1 with
    | none => none
    | some (_, hw2) =>
      match getTransceiveState fuel hw2 with
      | none => none
      | some (transceiveState, hw3) =>
        if PN5180_TS_WaitTransmit != transceiveState then some (false, hw3)
        else
          match transceiveCommand fuel buffer (len + 2) none 0 hw3 with
          | none => none
          | some (success, _, hw4) => some (success, hw4)

/-- What a `uint8_t*` handed around by the driver can point to. -/
inductive BufPtr where
  | indeterminate
  | null
  | toReadBuffer
  deriving DecidableEq, Repr

/-- Reading `p[i]`. -/
def BufPtr.deref (p : BufPtr) (hw : State) (i : Nat) : Nat :=
  match p with
  | BufPtr.toReadBuffer => rd8 hw.readBuffer i
  | _ => 0

/-- The function `readData(len)`, `len` a `uint16_t`. mbed `error()` is recorded
in `fatal`; the statement after it is `return 0L`. -/
def readData (fuel : Nat) (len : Nat) (hw : State) : Option (BufPtr × State) :=
  if len > 508 then some (BufPtr.null, { hw with fatal := true })
  else
    let cmd := [PN5180_READ_DATA, 0x00]
    match transceiveCommand fuel cmd 2 (some hw.readBuffer) len hw with
    | none => none
    | some (success, buf, hw1) =>
      let hw2 := { hw1 with readBuffer := buf }
      if !success then some (BufPtr.null, hw2)
      else some (BufPtr.toReadBuffer, hw2)

/-- The functions `powerUp()` and `powerDown()`; the SPI clock and frame format
are not part of the state. -/
def powerUp (hw : State) : State :=
  writeReset true hw

def powerDown (hw : State) : State :=
  writeReset false (writeCs true hw)

def loadRFConfig (fuel : Nat) (txConf rxConf : Nat) (hw : State) : Option (Bool × State) :=
  let cmd := [PN5180_LOAD_RF_CONFIG, txConf, rxConf]
  match transceiveCommand fuel cmd 3 none 0 hw with
  | none => none
  | some (success, _, hw1) => some (success, hw1)

/-- The loop `while (0 == (flag & getIRQStatus()));`, the calls inside it
running with fuel `inner`. -/
def irqWaitLoop (inner : Nat) : (fuel : Nat) → (flag : Nat) → State → Option State
  | 0, _, _ => none
  | fuel + 1, flag, hw =>
    match getIRQStatus inner hw with
    | none => none
    | some (irqStatus, hw1) =>
      if 0 == (flag &&& irqStatus) then irqWaitLoop inner fuel flag hw1
      else some hw1

def setRF_on (fuel : Nat) (hw : State) : Option (Bool × State) :=
  let cmd := [PN5180_RF_ON, 0x00]
  match transceiveCommand fuel cmd 2 none 0 hw with
  | none => none
  | some (success, _, hw1) =>
    match irqWaitLoop fuel fuel TX_RFON_IRQ_STAT hw1 with
    | none => none
    | some hw2 =>
      match clearIRQStatus fuel TX_RFON_IRQ_STAT hw2 with
      | none => none
      | some (_, hw3) => some (success, hw3)

def setRF_off (fuel : Nat) (hw : State) : Option (Bool × State) :=
  let cmd := [PN5180_RF_OFF, 0x00]
  match transceiveCommand fuel cmd 2 none 0 hw with
  | none => none
  | some (success, _, hw1) =>
    match irqWaitLoop fuel fuel TX_RFOFF_IRQ_STAT hw1 with
    | none => none
    | some hw2 =>
      match clearIRQStatus fuel TX_RFOFF_IRQ_STAT hw2 with
      | none => none
      | some (_, hw3) => some (success, hw3)

def reset (fuel : Nat) (hw : State) : Option State :=
  let hw1 := writeReset false hw
  let hw2 := writeReset true hw1
  match irqWaitLoop fuel fuel IDLE_IRQ_STAT hw2 with
  | none => none
  | some hw3 =>
    match clearIRQStatus fuel 0xffffffff hw3 with
    | none => none
    | some (_, hw4) => some hw4

/-- A relation `R` between an earlier and a later driver state that holds
across each primitive action of the transport, the ghost log being extended
only by entries satisfying `P`. -/
structure StepInv (P : List Nat × Nat → Prop) (R : State → State → Prop) : Prop where
  refl : ∀ hw, R hw hw
  trans : ∀ a b c, R a b → R b c → R a c
  busy : ∀ hw, R hw (readBusy hw).2
  cs : ∀ level hw, R hw (writeCs level hw)
  spi : ∀ b hw, R hw (spiWrite b hw).2
  log : ∀ (hw : State) c, P c → R hw { hw with commands := hw.commands ++ [c] }
  decl : ∀ hw, R hw (declareLocal32 hw).2

end PN5180

namespace PN5180ISO15693

open PN5180

/-! ## ISO 15693 layer (PN5180ISO15693.h, PN5180ISO15693.cpp) -/

/-- A value of `enum ISO15693ErrorCode`: a C enum is an integer, and the cast
`(ISO15693ErrorCode)errorCode` yields the integer `errorCode` whether or not
it is one of the enumerators. -/
abbrev ISO15693ErrorCode := Int

def EC_NO_CARD : ISO15693ErrorCode := -1
def ISO15693_EC_OK : ISO15693ErrorCode := 0
def ISO15693_EC_NOT_SUPPORTED : ISO15693ErrorCode := 0x01
def ISO15693_EC_NOT_RECOGNIZED : ISO15693ErrorCode := 0x02
def ISO15693_EC_OPTION_NOT_SUPPORTED : ISO15693ErrorCode := 0x03
def ISO15693_EC_UNKNOWN_ERROR : ISO15693ErrorCode := 0x0f
def ISO15693_EC_BLOCK_NOT_AVAILABLE : ISO15693ErrorCode := 0x10
def ISO15693_EC_BLOCK_ALREADY_LOCKED : ISO15693ErrorCode := 0x11
def ISO15693_EC_BLOCK_IS_LOCKED : ISO15693ErrorCode := 0x12
def ISO15693_EC_BLOCK_NOT_PROGRAMMED : ISO15693ErrorCode := 0x13
def ISO15693_EC_BLOCK_NOT_LOCKED : ISO15693ErrorCode := 0x14
def ISO15693_EC_CUSTOM_CMD_ERROR : ISO15693ErrorCode := 0xA0

/-- The enumerators declared by `enum ISO15693ErrorCode`. -/
def declaredErrorCodes : List ISO15693ErrorCode :=
  [EC_NO_CARD, ISO15693_EC_OK, ISO15693_EC_NOT_SUPPORTED, ISO15693_EC_NOT_RECOGNIZED,
   ISO15693_EC_OPTION_NOT_SUPPORTED, ISO15693_EC_UNKNOWN_ERROR, ISO15693_EC_BLOCK_NOT_AVAILABLE,
   ISO15693_EC_BLOCK_ALREADY_LOCKED, ISO15693_EC_BLOCK_IS_LOCKED,
   ISO15693_EC_BLOCK_NOT_PROGRAMMED, ISO15693_EC_BLOCK_NOT_LOCKED, ISO15693_EC_CUSTOM_CMD_ERROR]

/-- The function `issueISO15693Command(cmd, cmdLen, resultPtr)`. The second
component of the result is `*resultPtr` after the call; the callers pass the
address of an uninitialised pointer, which the first return leaves as it is. -/
def issueISO15693Command (fuel : Nat) (cmd : List Nat) (cmdLen : Nat) (hw : State) :
    Option (ISO15693ErrorCode × BufPtr × State) :=
  match sendData fuel cmd cmdLen 0 hw with
  | none => none
  | some (_, hw1) =>
    match getIRQStatus fuel hw1 with
    | none => none
    | some (irq, hw2) =>
      if 0 == (irq &&& RX_SOF_DET_IRQ_STAT) then some (EC_NO_CARD, BufPtr.indeterminate, hw2)
      else
        let (rxStatus, hw3) := declareLocal32 hw2
        match readRegister fuel RX_STATUS rxStatus hw3 with
        | none => none
        | some (_, rxStatus1, hw4) =>
          let len := (rxStatus1 &&& 0x000001ff) % 65536
          match readData fuel len hw4 with
          | none => none
          | some (resultPtr, hw5) =>
            if resultPtr == BufPtr.null then some (ISO15693_EC_UNKNOWN_ERROR, resultPtr, hw5)
            else
              match getIRQStatus fuel hw5 with
              | none => none
              | some (irqStatus, hw6) =>
                if 0 == (RX_SOF_DET_IRQ_STAT &&& irqStatus) then
                  match clearIRQStatus fuel (TX_IRQ_STAT ||| IDLE_IRQ_STAT) hw6 with
                  | none => none
                  | some (_, hw7) => some (EC_NO_CARD, resultPtr, hw7)
                else
                  let responseFlags := resultPtr.deref hw6 0
                  if responseFlags &&& (1 <<< 0) != 0 then
                    let errorCode := resultPtr.deref hw6 1
                    if errorCode ≥ 0xA0 then some (ISO15693_EC_CUSTOM_CMD_ERROR, resultPtr, hw6)
                    else some ((errorCode : Int), resultPtr, hw6)
                  else
                    let irqMask :=
                      RX_SOF_DET_IRQ_STAT ||| IDLE_IRQ_STAT ||| TX_IRQ_STAT ||| RX_IRQ_STAT
                    match clearIRQStatus fuel irqMask hw6 with
                    | none => none
                    | some (_, hw7) => some (ISO15693_EC_OK, resultPtr, hw7)

/-- The function `getInventory(uid)`; `uid` is the caller's array before the
call, the result carries it after the call. -/
def getInventory (fuel : Nat) (uid : List Nat) (hw : State) :
    Option (ISO15693ErrorCode × List Nat × State) :=
  let inventory := [0x26, 0x01, 0x00]
  let uid1 := storeLoop 8 uid 0 (fun _ => 0)
  match issueISO15693Command fuel inventory 3 hw with
  | none => none
  | some (rc, readBufferPtr, hw1) =>
    if ISO15693_EC_OK != rc then some (rc, uid1, hw1)
    else
      let uid2 := storeLoop 8 uid1 0 (fun i => readBufferPtr.deref hw1 (2 + i))
      some (ISO15693_EC_OK, uid2, hw1)

/-- The local array `readSingleBlock[]` of `readSingleBlock` once the UID has
been copied in. -/
def readSingleBlockFrame (uid : List Nat) (blockNo : Nat) : List Nat :=
  storeLoop 8 [0x22, 0x20, 1, 2, 3, 4, 5, 6, 7, 8, blockNo] 2 (fun i => rd8 uid i)

/-- The function `readSingleBlock(uid, blockNo, blockData, blockSize)`;
`blockData` is the caller's array before the call, the result carries it after
the call. -/
def readSingleBlock (fuel : Nat) (uid : List Nat) (blockNo : Nat) (blockData : List Nat)
    (blockSize : Nat) (hw : State) : Option (ISO15693ErrorCode × List Nat × State) :=
  match issueISO15693Command fuel (readSingleBlockFrame uid blockNo) 11 hw with
  | none => none
  | some (rc, resultPtr, hw1) =>
    if ISO15693_EC_OK != rc then some (rc, blockData, hw1)
    else
      let blockData1 := storeLoop blockSize blockData 0 (fun i => resultPtr.deref hw1 (2 + i))
      some (ISO15693_EC_OK, blockData1, hw1)

/-- One store `writeCmd[pos++] = v` into a `malloc`ed block, `pos` a `uint8_t`.
The triple is the block, `pos`, and whether a store fell outside the block. -/
def heapStore (st : List Nat × Nat × Bool) (v : Nat) : List Nat × Nat × Bool :=
  let (block, pos, over) := st
  (block.set pos v, (pos + 1) % 256, over || decide (block.length ≤ pos))

/-- The `uint8_t writeCmdSize` of `writeSingleBlock`. -/
def writeCmdSize (blockSize : Nat) : Nat :=
  (11 + blockSize) % 256

/-- The block `writeCmd` of `writeSingleBlock` once it has been filled, the
final `pos`, and whether a store fell outside the block. The `malloc`ed block
starts out as zeros. -/
def writeCmdFrame (uid : List Nat) (blockNo : Nat) (blockData : List Nat) (blockSize : Nat) :
    List Nat × Nat × Bool :=
  let writeSingleBlock0 := [0x22, 0x21, 1, 2, 3, 4, 5, 6, 7, 8, blockNo]
  let writeCmd0 : List Nat × Nat × Bool := (List.replicate (writeCmdSize blockSize) 0, 0, false)
  let writeCmd1 :=
    heapStore (heapStore writeCmd0 (rd8 writeSingleBlock0 0)) (rd8 writeSingleBlock0 1)
  let writeCmd2 := ((List.range 8).map (fun i => rd8 uid i)).foldl heapStore writeCmd1
  let writeCmd3 := heapStore writeCmd2 blockNo
  ((List.range blockSize).map (fun i => rd8 blockData i)).foldl heapStore writeCmd3

/-- The function `writeSingleBlock(uid, blockNo, blockData, blockSize)`. -/
def writeSingleBlock (fuel : Nat) (uid : List Nat) (blockNo : Nat) (blockData : List Nat)
    (blockSize : Nat) (hw : State) : Option (ISO15693ErrorCode × State) :=
  let writeCmd := writeCmdFrame uid blockNo blockData blockSize
  let hw0 := { hw with heapOverflow := hw.heapOverflow || writeCmd.2.2 }
  match issueISO15693Command fuel writeCmd.1 (writeCmdSize blockSize) hw0 with
  | none => none
  | some (rc, _, hw1) =>
    if ISO15693_EC_OK != rc then some (rc, hw1)
    else some (ISO15693_EC_OK, hw1)

/-- The outputs of `getSystemInfo`: the return value, the arrays and cells the
pointer arguments refer to after the call, and the local `viccMemSize` when it
was computed. -/
structure SystemInfo where
  rc : ISO15693ErrorCode
  uid : List Nat
  blockSize : Nat
  numBlocks : Nat
  viccMemSize : Option Nat
  hw : State

/-- The local array `sysInfo[]` of `getSystemInfo` once the UID has been
copied in. -/
def sysInfoFrame (uid : List Nat) : List Nat :=
  storeLoop 8 [0x22, 0x2b, 1, 2, 3, 4, 5, 6, 7, 8] 2 (fun i => rd8 uid i)

/-- The function `getSystemInfo(uid, blockSize, numBlocks)`; `uid`, `blockSize`,
`numBlocks` are what the three pointers refer to before the call. -/
def getSystemInfo (fuel : Nat) (uid : List Nat) (blockSize numBlocks : Nat) (hw : State) :
    Option SystemInfo :=
  match issueISO15693Command fuel (sysInfoFrame uid) 10 hw with
  | none => none
  | some (rc, readBufferPtr, hw1) =>
    if ISO15693_EC_OK != rc then some ⟨rc, uid, blockSize, numBlocks, none, hw1⟩
    else
      let uid1 := storeLoop 8 uid 0 (fun i => readBufferPtr.deref hw1 (2 + i))
      let p0 := 10
      let infoFlags := readBufferPtr.deref hw1 1
      let p1 := if infoFlags &&& 0x01 != 0 then p0 + 1 else p0
      let p2 := if infoFlags &&& 0x02 != 0 then p1 + 1 else p1
      -- the IC reference byte (infoFlags bit 3) is only logged
      if infoFlags &&& 0x04 != 0 then
        let numBlocks1 := readBufferPtr.deref hw1 p2
        let blockSize1 := readBufferPtr.deref hw1 (p2 + 1)
        let blockSize2 := blockSize1 &&& 0x1f
        let blockSize3 := (blockSize2 + 1) % 256
        let numBlocks2 := (numBlocks1 + 1) % 256
        let viccMemSize := (blockSize3 * numBlocks2) % 65536
        some ⟨ISO15693_EC_OK, uid1, blockSize3, numBlocks2, some viccMemSize, hw1⟩
      else
        some ⟨ISO15693_EC_OK, uid1, blockSize, numBlocks, none, hw1⟩

def setupRF (fuel : Nat) (hw : State) : Option (Bool × State) :=
  match loadRFConfig fuel 0x0d 0x8d hw with
  | none => none
  | some (false, hw1) => some (false, hw1)
  | some (true, hw1) =>
    match setRF_on fuel hw1 with
    | none => none
    | some (false, hw2) => some (false, hw2)
    | some (true, hw2) =>
      match writeRegisterWithAndMask fuel SYSTEM_CONFIG 0xfffffff8 hw2 with
      | none => none
      | some (_, hw3) =>
        match writeRegisterWithOrMask fuel SYSTEM_CONFIG 0x00000003 hw3 with
        | none => none
        | some (_, hw4) => some (true, hw4)

/-! ## Vocabulary for the statements -/

/-- How lines 445 to 462 of `issueISO15693Command` turn the first two bytes of
the response into the return value. -/
def responseCode (flags errorCode : Nat) : ISO15693ErrorCode :=
  if flags &&& 1 != 0 then
    if errorCode ≥ 0xA0 then ISO15693_EC_CUSTOM_CMD_ERROR else (errorCode : Int)
  else ISO15693_EC_OK

/-- The enumerator that `enum ISO15693ErrorCode` declares with value `e`, for
the tag error codes 0x01 to 0x14. -/
def namedError (e : Nat) : Option ISO15693ErrorCode :=
  match e with
  | 0x01 => some ISO15693_EC_NOT_SUPPORTED
  | 0x02 => some ISO15693_EC_NOT_RECOGNIZED
  | 0x03 => some ISO15693_EC_OPTION_NOT_SUPPORTED
  | 0x0f => some ISO15693_EC_UNKNOWN_ERROR
  | 0x10 => some ISO15693_EC_BLOCK_NOT_AVAILABLE
  | 0x11 => some ISO15693_EC_BLOCK_ALREADY_LOCKED
  | 0x12 => some ISO15693_EC_BLOCK_IS_LOCKED
  | 0x13 => some ISO15693_EC_BLOCK_NOT_PROGRAMMED
  | 0x14 => some ISO15693_EC_BLOCK_NOT_LOCKED
  | _ => none

/-- What a caller of `issueISO15693Command` gets to see: the return value,
`*resultPtr`, and the content of `readBuffer`. -/
def issueOutcome (fuel : Nat) (cmd : List Nat) (cmdLen : Nat) (hw : State) :
    Option (ISO15693ErrorCode × BufPtr × List Nat) :=
  (issueISO15693Command fuel cmd cmdLen hw).map (fun x => (x.1, x.2.1, x.2.2.readBuffer))

/-- A call of one of the four public tag operations, with its arguments. -/
inductive TagCommand where
  | inventory (uid : List Nat)
  | readBlock (uid : List Nat) (blockNo : Nat) (blockData : List Nat) (blockSize : Nat)
  | writeBlock (uid : List Nat) (blockNo : Nat) (blockData : List Nat) (blockSize : Nat)
  | systemInfo (uid : List Nat) (blockSize numBlocks : Nat)

/-- The return value of the call. -/
def TagCommand.returnValue (c : TagCommand) (fuel : Nat) (hw : State) :
    Option ISO15693ErrorCode :=
  match c with
  | TagCommand.inventory uid => (getInventory fuel uid hw).map (fun x => x.1)
  | TagCommand.readBlock uid blockNo blockData blockSize =>
    (readSingleBlock fuel uid blockNo blockData blockSize hw).map (fun x => x.1)
  | TagCommand.writeBlock uid blockNo blockData blockSize =>
    (writeSingleBlock fuel uid blockNo blockData blockSize hw).map (fun x => x.1)
  | TagCommand.systemInfo uid blockSize numBlocks =>
    (getSystemInfo fuel uid blockSize numBlocks hw).map (fun x => x.rc)

/-- The frame and length the call hands to `issueISO15693Command`. -/
def TagCommand.frame (c : TagCommand) : List Nat × Nat :=
  match c with
  | TagCommand.inventory _ => ([0x26, 0x01, 0x00], 3)
  | TagCommand.readBlock uid blockNo _ _ => (readSingleBlockFrame uid blockNo, 11)
  | TagCommand.writeBlock uid blockNo blockData blockSize =>
    ((writeCmdFrame uid blockNo blockData blockSize).1, writeCmdSize blockSize)
  | TagCommand.systemInfo uid _ _ => (sysInfoFrame uid, 10)

/-- The driver state in which the call reaches `issueISO15693Command`. -/
def TagCommand.entry (c : TagCommand) (hw : State) : State :=
  match c with
  | TagCommand.writeBlock uid blockNo blockData blockSize =>
    { hw with heapOverflow :=
        hw.heapOverflow || (writeCmdFrame uid blockNo blockData blockSize).2.2 }
  | _ => hw

/-! ## A cooperating chip, for concrete runs -/

/-- The bytes a chip clocks out during one `issueISO15693Command` with a
command of `cmdLen` bytes when the transceiver reports `WaitTransmit`,
start-of-frame is flagged before and after the read, and the tag answers
`response`. -/
def tagReplies (cmdLen : Nat) (response : List Nat) : List Nat :=
  List.replicate 12 0 ++ [0, 0] ++ [0, 0, 0, 1] ++ List.replicate (cmdLen + 2) 0
    ++ [0, 0] ++ [0, 0x40, 0, 0]
    ++ [0, 0] ++ [response.length % 256, response.length / 256, 0, 0]
    ++ [0, 0] ++ response
    ++ [0, 0] ++ [0, 0x40, 0, 0]

/-- A driver at rest: BUSY toggles at every sample, the chip clocks out
`replies` and then zeros, and `readBuffer` holds `stale`. -/
def chipAtRest (replies : List Nat) (stale : List Nat) : State where
  busyLine := fun k => k % 2 == 1
  busyReads := 0
  spiReply := fun k => replies.getD k 0
  spiWrites := 0
  cs := true
  rst := true
  readBuffer := stale
  garbage := fun _ => 0
  locals := 0
  fatal := false
  heapOverflow := false
  commands := []
  trace := []

end PN5180ISO15693

namespace PN5180

/-! ## What the loops of the transport amount to -/

/-- The driver state after `n` samples of `_busy`. -/
def polled : (n : Nat) → State → State
  | 0, hw => hw
  | n + 1, hw => polled n (readBusy hw).2

/-- The trace of `n` samples of a BUSY line `line`, the first being sample `k`. -/
def pollEvents (line : Nat → Bool) : (n : Nat) → (k : Nat) → List Event
  | 0, _ => []
  | n + 1, k => Event.busyRead (line k) :: pollEvents line n (k + 1)

/-- The driver state after `n` rounds of `_spi.write(sendBuffer[i])`, the
first for index `i`, the counter not wrapping. -/
def sent (sendBuffer : List Nat) : (n : Nat) → (i : Nat) → State → State
  | 0, _, hw => hw
  | n + 1, i, hw => sent sendBuffer n (i + 1) (spiWrite (rd8 sendBuffer i) hw).2

/-- The trace of the exchanges of `sent`, the first reply being reply `k`. -/
def sendEvents (sendBuffer : List Nat) (reply : Nat → Nat) : (n : Nat) → (i : Nat) → (k : Nat) →
    List Event
  | 0, _, _ => []
  | n + 1, i, k =>
    Event.spi (rd8 sendBuffer i) (reply k % 256) :: sendEvents sendBuffer reply n (i + 1) (k + 1)

/-- The receive buffer and driver state after `n` rounds of
`recvBuffer[i] = _spi.write(0xff)`, the first for index `i`, the counter not
wrapping. -/
def received : (n : Nat) → (i : Nat) → List Nat → State → List Nat × State
  | 0, _, recvBuffer, hw => (recvBuffer, hw)
  | n + 1, i, recvBuffer, hw =>
    received n (i + 1) (recvBuffer.set i (spiWrite 0xff hw).1) (spiWrite 0xff hw).2

/-- The trace of the exchanges of `received`, the first reply being reply `k`. -/
def recvEvents (reply : Nat → Nat) : (n : Nat) → (k : Nat) → List Event
  | 0, _ => []
  | n + 1, k => Event.spi 0xff (reply k % 256) :: recvEvents reply n (k + 1)

/-- The receive buffer after `n` replies were stored from index `i` on, the
first being reply `k`. -/
def recvStores (reply : Nat → Nat) : (n : Nat) → (i : Nat) → (k : Nat) → List Nat → List Nat
  | 0, _, _, recvBuffer => recvBuffer
  | n + 1, i, k, recvBuffer => recvStores reply n (i + 1) (k + 1) (recvBuffer.set i (reply k % 256))

end PN5180
namespace PN5180

/-- The driver state after the command frame of a host command went through:
`n1` samples until BUSY was low, chip-select low, the `sl` bytes of the frame,
`n2` samples until BUSY was high, chip-select high, `n3` samples until BUSY
was low again. -/
def afterCommandFrame (sb : List Nat) (sl rl : Nat) (n1 n2 n3 : Nat) (hw : State) : State :=
  polled n3 (writeCs true (polled n2 (sent sb sl 0 (writeCs false
    { polled n1 hw with commands := (polled n1 hw).commands ++ [(sb.take sl, rl)] }))))

/-- The receive buffer and driver state after the response frame of a host
command went through: chip-select low, `rl` filler bytes with the replies
stored from index 0 on, `n4` samples until BUSY was high, chip-select high,
`n5` samples until BUSY was low again. -/
def afterResponseFrame (rl : Nat) (rb : List Nat) (n4 n5 : Nat) (hw : State) :
    List Nat × State :=
  ((received rl 0 rb (writeCs false hw)).1,
    polled n5 (writeCs true (polled n4 (received rl 0 rb (writeCs false hw)).2)))

end PN5180
namespace PN5180ISO15693

open PN5180

/-- A chip whose BUSY line stays high for ever. -/
def stuckBusy : State :=
  { chipAtRest [] [] with busyLine := fun _ => true }

/-- A chip whose BUSY line is high for 2000 samples and low from then on. -/
def lateBusy : State :=
  { chipAtRest [] [] with busyLine := fun k => decide (k < 2000) }

end PN5180ISO15693

namespace PN5180

/-- The eight values of `enum PN5180TransceiveStat`. -/
def transceiveStates : List Nat :=
  [PN5180_TS_Idle, PN5180_TS_WaitTransmit, PN5180_TS_Transmitting, PN5180_TS_WaitReceive,
   PN5180_TS_WaitForData, PN5180_TS_Receiving, PN5180_TS_LoopBack, PN5180_TS_RESERVED]

/-- The chip model of the IRQ clear register: a Write-Register frame addressed
to `IRQ_CLEAR` turns the 32-bit IRQ status `s` into `s AND NOT m`, where `m`
is the value its four value bytes encode; any other frame leaves `s` alone. -/
def irqStatusAfter (s : Nat) (frame : List Nat) : Nat :=
  if frame.take 2 = [PN5180_WRITE_REGISTER, IRQ_CLEAR] then
    s &&& (0xFFFFFFFF ^^^ u32OfBytes (frame.drop 2))
  else s

end PN5180

namespace PN5180

/-- The steps of `sendData` that come before the Send-Data frame: the AND-mask
write, the OR-mask write and the read of the transceive state. The result is
that state and the driver state it was read in. -/
def sendDataPrelude (fuel : Nat) (hw : State) : Option (Nat × State) :=
  (writeRegisterWithAndMask fuel SYSTEM_CONFIG 0xfffffff8 hw).bind (fun a =>
    (writeRegisterWithOrMask fuel SYSTEM_CONFIG 0x00000003 a.2).bind (fun o =>
      getTransceiveState fuel o.2))

end PN5180

namespace PN5180ISO15693

open PN5180

/-- A chip that reports `WaitTransmit` and then an IRQ status of zero: nothing
answers the command. -/
def silentTag : State :=
  chipAtRest (List.replicate 17 0 ++ [1]) (List.replicate 508 0)

/-- The bytes a chip clocks out when the transceiver reports `Idle`, so that
`sendData` gives up, while the IRQ status still shows start of frame before
and after the read and `RX_STATUS` announces two bytes, `0x00 0x00`. -/
def staleFrameReplies : List Nat :=
  List.replicate 18 0 ++ [0, 0] ++ [0, 0x40, 0, 0] ++ [0, 0] ++ [2, 0, 0, 0]
    ++ [0, 0] ++ [0x00, 0x00] ++ [0, 0] ++ [0, 0x40, 0, 0]

end PN5180ISO15693

namespace PN5180

/-- The driver state right after the IRQ poll that first reports `flag`, when
that is poll number `misses + 1` of a row of `getIRQStatus` calls; `none` when
an earlier poll reports it, when that poll does not, or when a poll runs out
of fuel. -/
def irqFlagAfter (inner flag : Nat) : (misses : Nat) → State → Option State
  | 0, hw =>
    match getIRQStatus inner hw with
    | none => none
    | some (irqStatus, hw1) => if 0 == (flag &&& irqStatus) then none else some hw1
  | misses + 1, hw =>
    match getIRQStatus inner hw with
    | none => none
    | some (irqStatus, hw1) =>
      if 0 == (flag &&& irqStatus) then irqFlagAfter inner flag misses hw1 else none

end PN5180

namespace PN5180ISO15693

open PN5180

/-- The bytes a chip clocks out when the transceiver reports `WaitTransmit`,
the first read of `IRQ_STATUS` never reaches the bus, `RX_STATUS` announces two
bytes, `0x00 0x00`, and the second read of `IRQ_STATUS` shows start of frame. -/
def lostPollReplies : List Nat :=
  List.replicate 17 0 ++ [1] ++ List.replicate 5 0 ++ [0, 0] ++ [2, 0, 0, 0]
    ++ [0, 0] ++ [0x00, 0x00] ++ [0, 0] ++ [0, 0x40, 0, 0]

/-- A chip whose BUSY line stays high from sample 17 to sample 2017, which is
the whole wait of the first read of `IRQ_STATUS`, and toggles otherwise; every
uninitialised `uint32_t` holds `0x4000`. -/
def lostPollChip : State :=
  { chipAtRest lostPollReplies (List.replicate 508 0) with
    busyLine := fun k => if 17 ≤ k ∧ k ≤ 2017 then true else k % 2 == 1
    garbage := fun _ => 0x4000 }

end PN5180ISO15693

namespace PN5180ISO15693

open PN5180

/-- The driver state after the transmit step of an inventory on
`lostPollChip`. -/
def lostPollSent : State :=
  ((sendData 2001 [0x26, 0x01, 0x00] 3 0 lostPollChip).getD (false, lostPollChip)).2

end PN5180ISO15693

namespace PN5180ISO15693

open PN5180

/-- A `readBuffer` left behind by an earlier inventory: flags 0x00, DSFID 0x00
and the UID `A1 … A8`. -/
def staleInventory : List Nat :=
  [0x00, 0x00, 0xA1, 0xA2, 0xA3, 0xA4, 0xA5, 0xA6, 0xA7, 0xA8] ++ List.replicate 498 0

/-- A `readBuffer` left behind by an earlier error response: flags 0x01, error
code 0x0F. -/
def staleError : List Nat :=
  [0x01, 0x0F] ++ List.replicate 506 0

/-- A chip at rest that answers an inventory with start of frame and a
response of length 0, `readBuffer` holding `stale`. -/
def emptyResponse (stale : List Nat) : State :=
  chipAtRest (tagReplies 3 []) stale

end PN5180ISO15693

namespace PN5180ISO15693

open PN5180

/-- A chip at rest whose BUSY line stays low for ever: it never acknowledges a
frame. -/
def quietBusy : State :=
  { chipAtRest [] [] with busyLine := fun _ => false }

end PN5180ISO15693

namespace PN5180ISO15693

open PN5180

/-- A chip at rest that answers an inventory with start of frame and the one
byte `0x08`, `readBuffer` still holding an earlier inventory response. -/
def shortResponse : State :=
  chipAtRest (tagReplies 3 [0x08]) staleInventory

/-- The driver state after the transmit step of an inventory on
`shortResponse`. -/
def shortSent : State :=
  ((sendData 300 [0x26, 0x01, 0x00] 3 0 shortResponse).getD (false, shortResponse)).2

/-- The driver state after the first read of `IRQ_STATUS` of that inventory. -/
def shortPolled : State :=
  ((getIRQStatus 300 shortSent).getD (0, shortResponse)).2

/-- The driver state after the read of `RX_STATUS` of that inventory. -/
def shortMeasured : State :=
  ((readRegister 300 RX_STATUS (declareLocal32 shortPolled).1 (declareLocal32 shortPolled).2).getD
    (false, 0, shortResponse)).2.2

/-- The driver state at the return of that inventory. -/
def shortDone : State :=
  ((issueISO15693Command 300 [0x26, 0x01, 0x00] 3 shortResponse).getD
    (0, BufPtr.null, shortResponse)).2.2

/-- A `readBuffer` left behind by an earlier system-info response: info flags
0x0F, the UID `B1 … B8`, DSFID, AFI, block count 0x07 and block size 0x03. -/
def staleSystemInfo : List Nat :=
  [0x00, 0x0F, 0xB1, 0xB2, 0xB3, 0xB4, 0xB5, 0xB6, 0xB7, 0xB8, 0x07, 0x03, 0x07, 0x03]
    ++ List.replicate 494 0

/-- A chip at rest that answers a system-info request with start of frame and
the two bytes `0x00 0x04`, `readBuffer` still holding `staleSystemInfo`. -/
def shortSystemInfo : State :=
  chipAtRest (tagReplies 10 [0x00, 0x04]) staleSystemInfo

/-- The outputs of `getSystemInfo` on `shortSystemInfo`, called for the UID
`1 … 8` with `*blockSize = 0` and `*numBlocks = 0`. -/
def shortSystemInfoDone : SystemInfo :=
  (getSystemInfo 300 [1, 2, 3, 4, 5, 6, 7, 8] 0 0 shortSystemInfo).getD
    ⟨0, [], 0, 0, none, shortSystemInfo⟩

/-- The result of `getInventory` on `emptyResponse staleInventory`, called with
a `uid` array of zeros. -/
def emptyInventoryDone : ISO15693ErrorCode × List Nat × State :=
  (getInventory 300 (List.replicate 8 0) (emptyResponse staleInventory)).getD
    (0, [], emptyResponse staleInventory)

end PN5180ISO15693

/-! ## Relations kept by every bus action -/

namespace PN5180

theorem waitForBusyStateLoop_inv {P : List Nat × Nat → Prop}
    {R : State → State → Prop} (hR : StepInv P R) (fuel : Nat) :
    ∀ (target : Bool) (ctr : Nat) (hw : State) (b : Bool) (hw' : State),
      waitForBusyStateLoop fuel target ctr hw = some (b, hw') → R hw hw' := by
  induction fuel with
  | zero => intro target ctr hw b hw' h; simp [waitForBusyStateLoop] at h
  | succ n ih =>
    intro target ctr hw b hw' h
    simp only [waitForBusyStateLoop] at h
    split at h
    · split at h
      · simp only [Option.some.injEq, Prod.mk.injEq] at h
        rw [← h.2]; exact hR.busy hw
      · exact hR.trans _ _ _ (hR.busy hw) (ih _ _ _ _ _ h)
    · simp only [Option.some.injEq, Prod.mk.injEq] at h
      rw [← h.2]; exact hR.busy hw

theorem waitForBusyState_inv {P : List Nat × Nat → Prop}
    {R : State → State → Prop} (hR : StepInv P R) {fuel : Nat}
    {target : Bool} {hw : State} {b : Bool} {hw' : State}
    (h : waitForBusyState fuel target hw = some (b, hw')) : R hw hw' :=
  waitForBusyStateLoop_inv hR fuel target 0 hw b hw' h

theorem sendLoop_inv {P : List Nat × Nat → Prop}
    {R : State → State → Prop} (hR : StepInv P R) (fuel : Nat) :
    ∀ (sb : List Nat) (len i : Nat) (hw hw' : State),
      sendLoop fuel sb len i hw = some hw' → R hw hw' := by
  induction fuel with
  | zero => intro sb len i hw hw' h; simp [sendLoop] at h
  | succ n ih =>
    intro sb len i hw hw' h
    simp only [sendLoop] at h
    split at h
    · exact hR.trans _ _ _ (hR.spi _ hw) (ih _ _ _ _ _ h)
    · simp only [Option.some.injEq] at h
      rw [← h]; exact hR.refl hw

theorem recvLoop_inv {P : List Nat × Nat → Prop}
    {R : State → State → Prop} (hR : StepInv P R) (fuel : Nat) :
    ∀ (rb : List Nat) (len i : Nat) (hw : State) (rb' : List Nat) (hw' : State),
      recvLoop fuel rb len i hw = some (rb', hw') → R hw hw' := by
  induction fuel with
  | zero => intro rb len i hw rb' hw' h; simp [recvLoop] at h
  | succ n ih =>
    intro rb len i hw rb' hw' h
    simp only [recvLoop] at h
    split at h
    · exact hR.trans _ _ _ (hR.spi _ hw) (ih _ _ _ _ _ _ h)
    · simp only [Option.some.injEq, Prod.mk.injEq] at h
      rw [← h.2]; exact hR.refl hw

theorem transceiveCommand_inv {P : List Nat × Nat → Prop}
    {R : State → State → Prop} (hR : StepInv P R) {fuel : Nat}
    {sb : List Nat} {sl : Nat} {rb : Option (List Nat)} {rl : Nat} {hw : State} {b : Bool}
    {buf : List Nat} {hw' : State} (hP : P (sb.take sl, rl))
    (h : transceiveCommand fuel sb sl rb rl hw = some (b, buf, hw')) : R hw hw' := by
  unfold transceiveCommand at h
  simp only at h
  split at h
  · cases h
  · rename_i hw1 h1
    cases h
    exact waitForBusyState_inv hR h1
  · rename_i hw1 h1
    have e1 := waitForBusyState_inv hR h1
    have e2 := hR.trans _ _ _ (hR.trans _ _ _ e1 (hR.log hw1 (sb.take sl, rl) hP)) (hR.cs false _)
    split at h
    · cases h
    · rename_i hw3 h3
      have e3 := hR.trans _ _ _ e2 (sendLoop_inv hR _ _ _ _ _ _ h3)
      split at h
      · cases h
      · rename_i hw4 h4
        cases h
        exact hR.trans _ _ _ e3 (waitForBusyState_inv hR h4)
      · rename_i hw4 h4
        have e5 := hR.trans _ _ _ (hR.trans _ _ _ e3 (waitForBusyState_inv hR h4)) (hR.cs true _)
        split at h
        · cases h
        · rename_i hw6 h6
          cases h
          exact hR.trans _ _ _ e5 (waitForBusyState_inv hR h6)
        · rename_i hw6 h6
          have e6 := hR.trans _ _ _ e5 (waitForBusyState_inv hR h6)
          split at h
          · cases h
            exact e6
          · have e7 := hR.trans _ _ _ e6 (hR.cs false _)
            split at h
            · cases h
            · rename_i buf1 hw8 h8
              have e8 := hR.trans _ _ _ e7 (recvLoop_inv hR _ _ _ _ _ _ _ h8)
              split at h
              · cases h
              · rename_i hw9 h9
                cases h
                exact hR.trans _ _ _ e8 (waitForBusyState_inv hR h9)
              · rename_i hw9 h9
                have e10 := hR.trans _ _ _ (hR.trans _ _ _ e8 (waitForBusyState_inv hR h9))
                  (hR.cs true _)
                split at h
                · cases h
                · rename_i hw11 h11
                  cases h
                  exact hR.trans _ _ _ e10 (waitForBusyState_inv hR h11)
                · rename_i hw11 h11
                  cases h
                  exact hR.trans _ _ _ e10 (waitForBusyState_inv hR h11)

theorem writeRegister_inv {P : List Nat × Nat → Prop}
    {R : State → State → Prop} (hR : StepInv P R) {fuel reg value : Nat}
    {hw : State} {b : Bool} {hw' : State}
    (hP : P ([PN5180_WRITE_REGISTER, reg, value % 256, (value >>> 8) % 256,
      (value >>> 16) % 256, (value >>> 24) % 256], 0))
    (h : writeRegister fuel reg value hw = some (b, hw')) : R hw hw' := by
  unfold writeRegister at h
  simp only at h
  split at h
  · cases h
  · rename_i h1
    cases h
    refine transceiveCommand_inv hR ?_ h1
    simpa [bytesOfU32] using hP

theorem writeRegisterWithOrMask_inv {P : List Nat × Nat → Prop}
    {R : State → State → Prop} (hR : StepInv P R)
    {fuel reg mask : Nat} {hw : State} {b : Bool} {hw' : State}
    (hP : P ([PN5180_WRITE_REGISTER_OR_MASK, reg, mask % 256, (mask >>> 8) % 256,
      (mask >>> 16) % 256, (mask >>> 24) % 256], 0))
    (h : writeRegisterWithOrMask fuel reg mask hw = some (b, hw')) : R hw hw' := by
  unfold writeRegisterWithOrMask at h
  simp only at h
  split at h
  · cases h
  · rename_i h1
    cases h
    refine transceiveCommand_inv hR ?_ h1
    simpa [bytesOfU32] using hP

theorem writeRegisterWithAndMask_inv {P : List Nat × Nat → Prop}
    {R : State → State → Prop} (hR : StepInv P R)
    {fuel reg mask : Nat} {hw : State} {b : Bool} {hw' : State}
    (hP : P ([PN5180_WRITE_REGISTER_AND_MASK, reg, mask % 256, (mask >>> 8) % 256,
      (mask >>> 16) % 256, (mask >>> 24) % 256], 0))
    (h : writeRegisterWithAndMask fuel reg mask hw = some (b, hw')) : R hw hw' := by
  unfold writeRegisterWithAndMask at h
  simp only at h
  split at h
  · cases h
  · rename_i h1
    cases h
    refine transceiveCommand_inv hR ?_ h1
    simpa [bytesOfU32] using hP

theorem readRegister_inv {P : List Nat × Nat → Prop}
    {R : State → State → Prop} (hR : StepInv P R) {fuel reg value : Nat}
    {hw : State} {b : Bool} {v : Nat} {hw' : State} (hP : P ([PN5180_READ_REGISTER, reg], 4))
    (h : readRegister fuel reg value hw = some (b, v, hw')) : R hw hw' := by
  unfold readRegister at h
  simp only at h
  split at h
  · cases h
  · rename_i h1
    simp only [Option.some.injEq, Prod.mk.injEq] at h
    obtain ⟨-, -, rfl⟩ := h
    refine transceiveCommand_inv hR ?_ h1
    simpa using hP

theorem clearIRQStatus_inv {P : List Nat × Nat → Prop}
    {R : State → State → Prop} (hR : StepInv P R) {fuel irqMask : Nat}
    {hw : State} {b : Bool} {hw' : State}
    (hP : P ([PN5180_WRITE_REGISTER, IRQ_CLEAR, irqMask % 256, (irqMask >>> 8) % 256,
      (irqMask >>> 16) % 256, (irqMask >>> 24) % 256], 0))
    (h : clearIRQStatus fuel irqMask hw = some (b, hw')) : R hw hw' :=
  writeRegister_inv hR hP h

theorem getIRQStatus_inv {P : List Nat × Nat → Prop}
    {R : State → State → Prop} (hR : StepInv P R) {fuel : Nat}
    {hw : State} {v : Nat} {hw' : State} (hP : P ([PN5180_READ_REGISTER, IRQ_STATUS], 4))
    (h : getIRQStatus fuel hw = some (v, hw')) : R hw hw' := by
  unfold getIRQStatus at h
  simp only at h
  split at h
  · cases h
  · rename_i h1
    cases h
    exact hR.trans _ _ _ (hR.decl hw) (readRegister_inv hR hP h1)

theorem getTransceiveState_inv {P : List Nat × Nat → Prop}
    {R : State → State → Prop} (hR : StepInv P R) {fuel : Nat}
    {hw : State} {v : Nat} {hw' : State} (hP : P ([PN5180_READ_REGISTER, RF_STATUS], 4))
    (h : getTransceiveState fuel hw = some (v, hw')) : R hw hw' := by
  unfold getTransceiveState at h
  simp only at h
  split at h
  · cases h
  · rename_i h1
    simp only [Option.some.injEq, Prod.mk.injEq] at h
    obtain ⟨-, rfl⟩ := h
    exact hR.trans _ _ _ (hR.decl hw) (readRegister_inv hR hP h1)
  · rename_i h1
    simp only [Option.some.injEq, Prod.mk.injEq] at h
    obtain ⟨-, rfl⟩ := h
    exact hR.trans _ _ _ (hR.decl hw) (readRegister_inv hR hP h1)

/-- No bus action changes the member `readBuffer`. -/
theorem keepsReadBuffer : StepInv (fun _ => True) (fun a b => b.readBuffer = a.readBuffer) where
  refl := fun _ => rfl
  trans := fun _ _ _ h1 h2 => h2.trans h1
  busy := fun _ => rfl
  cs := fun _ _ => rfl
  spi := fun _ _ => rfl
  log := fun _ _ _ => rfl
  decl := fun _ => rfl

/-- Between two states the ghost log only grows, by entries satisfying `P`. -/
theorem logsOnly (P : List Nat × Nat → Prop) :
    StepInv P
      (fun a b => ∃ extra, b.commands = a.commands ++ extra ∧ ∀ c ∈ extra, P c) where
  refl := fun _ => ⟨[], by simp, by simp⟩
  trans := by
    rintro a b c ⟨e1, h1, p1⟩ ⟨e2, h2, p2⟩
    refine ⟨e1 ++ e2, by rw [h2, h1, List.append_assoc], ?_⟩
    intro x hx
    rcases List.mem_append.mp hx with hx | hx
    · exact p1 x hx
    · exact p2 x hx
  busy := fun _ => ⟨[], by simp [readBusy], by simp⟩
  cs := fun _ _ => ⟨[], by simp [writeCs], by simp⟩
  spi := fun _ _ => ⟨[], by simp [spiWrite], by simp⟩
  log := fun _ c hc => ⟨[c], rfl, by simpa using hc⟩
  decl := fun _ => ⟨[], by simp [declareLocal32], by simp⟩

/-- The pointer returned by `readData` is null or the address of `readBuffer`. -/
theorem readData_ptr {fuel len : Nat} {hw : State} {p : BufPtr} {hw' : State}
    (h : readData fuel len hw = some (p, hw')) : p = BufPtr.null ∨ p = BufPtr.toReadBuffer := by
  unfold readData at h
  split at h
  · cases h; exact Or.inl rfl
  · simp only at h
    split at h
    · cases h
    · split at h
      · cases h; exact Or.inl rfl
      · cases h; exact Or.inr rfl

end PN5180

namespace PN5180ISO15693

open PN5180

/-- Every way `issueISO15693Command` can return: no card, a failed `readData`,
or the response in `readBuffer` decoded by `responseCode`. -/
theorem issueISO15693Command_cases {fuel : Nat} {cmd : List Nat} {cmdLen : Nat} {hw : State}
    {rc : ISO15693ErrorCode} {p : BufPtr} {hw' : State}
    (h : issueISO15693Command fuel cmd cmdLen hw = some (rc, p, hw')) :
    rc = EC_NO_CARD ∨ (rc = ISO15693_EC_UNKNOWN_ERROR ∧ p = BufPtr.null) ∨
      (p = BufPtr.toReadBuffer ∧
        rc = responseCode (rd8 hw'.readBuffer 0) (rd8 hw'.readBuffer 1)) := by
  unfold issueISO15693Command at h
  split at h
  · cases h
  · split at h
    · cases h
    · split at h
      · cases h; exact Or.inl rfl
      · simp only at h
        split at h
        · cases h
        · split at h
          · cases h
          · rename_i resultPtr hw5 h5
            split at h
            · rename_i hnull
              cases h
              exact Or.inr (Or.inl ⟨rfl, by simpa using hnull⟩)
            · rename_i hnull
              have hp : resultPtr = BufPtr.toReadBuffer := by
                rcases readData_ptr h5 with hp | hp
                · exact absurd (by simp [hp]) hnull
                · exact hp
              subst hp
              split at h
              · cases h
              · rename_i irqStatus hw6 h6
                split at h
                · split at h
                  · cases h
                  · cases h; exact Or.inl rfl
                · simp only [BufPtr.deref] at h
                  split at h
                  · rename_i hflag
                    split at h
                    · rename_i he
                      cases h
                      refine Or.inr (Or.inr ⟨rfl, ?_⟩)
                      simp only [responseCode]
                      rw [if_pos (by simpa using hflag), if_pos he]
                    · rename_i he
                      cases h
                      refine Or.inr (Or.inr ⟨rfl, ?_⟩)
                      simp only [responseCode]
                      rw [if_pos (by simpa using hflag), if_neg he]
                  · rename_i hflag
                    split at h
                    · cases h
                    · rename_i hw7 h7
                      cases h
                      refine Or.inr (Or.inr ⟨rfl, ?_⟩)
                      have e := clearIRQStatus_inv keepsReadBuffer trivial h7
                      simp only at e
                      rw [e]
                      simp only [responseCode]
                      rw [if_neg (by simpa using hflag)]

end PN5180ISO15693

/-! ## Termination of the transport with enough fuel -/

namespace PN5180

theorem waitForBusyStateLoop_terminates (fuel : Nat) :
    ∀ (target : Bool) (ctr : Nat) (hw : State), ctr ≤ 2000 → 2001 - ctr ≤ fuel →
      ∃ b hw', waitForBusyStateLoop fuel target ctr hw = some (b, hw') := by
  induction fuel with
  | zero => intro target ctr hw h1 h2; omega
  | succ n ih =>
    intro target ctr hw h1 h2
    simp only [waitForBusyStateLoop]
    split
    · have hc : (ctr + 1) % 65536 = ctr + 1 := Nat.mod_eq_of_lt (by omega)
      rw [hc]
      split
      · exact ⟨_, _, rfl⟩
      · exact ih _ _ _ (by omega) (by omega)
    · exact ⟨_, _, rfl⟩

theorem waitForBusyState_terminates {fuel : Nat} (hfuel : 2001 ≤ fuel) (target : Bool)
    (hw : State) : ∃ b hw', waitForBusyState fuel target hw = some (b, hw') :=
  waitForBusyStateLoop_terminates fuel target 0 hw (by omega) (by omega)

theorem sendLoop_terminates (fuel : Nat) :
    ∀ (sb : List Nat) (len i : Nat) (hw : State), len ≤ 255 → i ≤ len → len - i < fuel →
      ∃ hw', sendLoop fuel sb len i hw = some hw' := by
  induction fuel with
  | zero => intro sb len i hw h1 h2 h3; omega
  | succ n ih =>
    intro sb len i hw h1 h2 h3
    simp only [sendLoop]
    split
    · have hc : (i + 1) % 256 = i + 1 := Nat.mod_eq_of_lt (by omega)
      rw [hc]
      exact ih _ _ _ _ h1 (by omega) (by omega)
    · exact ⟨_, rfl⟩

theorem recvLoop_terminates (fuel : Nat) :
    ∀ (rb : List Nat) (len i : Nat) (hw : State), len ≤ 255 → i ≤ len → len - i < fuel →
      ∃ rb' hw', recvLoop fuel rb len i hw = some (rb', hw') := by
  induction fuel with
  | zero => intro rb len i hw h1 h2 h3; omega
  | succ n ih =>
    intro rb len i hw h1 h2 h3
    simp only [recvLoop]
    split
    · have hc : (i + 1) % 256 = i + 1 := Nat.mod_eq_of_lt (by omega)
      rw [hc]
      exact ih _ _ _ _ h1 (by omega) (by omega)
    · exact ⟨_, _, rfl⟩

theorem transceiveCommand_terminates {fuel : Nat} (hfuel : 2001 ≤ fuel) (sb : List Nat)
    {sl : Nat} (hsl : sl ≤ 255) (rb : Option (List Nat)) {rl : Nat} (hrl : rl ≤ 255)
    (hw : State) : ∃ b buf hw', transceiveCommand fuel sb sl rb rl hw = some (b, buf, hw') := by
  unfold transceiveCommand
  simp only
  obtain ⟨b1, hw1, h1⟩ := waitForBusyState_terminates hfuel LOW hw
  rw [h1]
  cases b1
  · exact ⟨_, _, _, rfl⟩
  · simp only
    obtain ⟨hw3, h3⟩ := sendLoop_terminates fuel sb sl 0
      (writeCs false { hw1 with commands := hw1.commands ++ [(sb.take sl, rl)] })
      hsl (by omega) (by omega)
    rw [h3]
    simp only
    obtain ⟨b4, hw4, h4⟩ := waitForBusyState_terminates hfuel HIGH hw3
    rw [h4]
    cases b4
    · exact ⟨_, _, _, rfl⟩
    · simp only
      obtain ⟨b6, hw6, h6⟩ := waitForBusyState_terminates hfuel LOW (writeCs true hw4)
      rw [h6]
      cases b6
      · exact ⟨_, _, _, rfl⟩
      · simp only
        split
        · exact ⟨_, _, _, rfl⟩
        · obtain ⟨buf1, hw8, h8⟩ := recvLoop_terminates fuel (rb.getD []) rl 0
            (writeCs false hw6) hrl (by omega) (by omega)
          rw [h8]
          simp only
          obtain ⟨b9, hw9, h9⟩ := waitForBusyState_terminates hfuel HIGH hw8
          rw [h9]
          cases b9
          · exact ⟨_, _, _, rfl⟩
          · simp only
            obtain ⟨b11, hw11, h11⟩ := waitForBusyState_terminates hfuel LOW (writeCs true hw9)
            rw [h11]
            cases b11
            · exact ⟨_, _, _, rfl⟩
            · exact ⟨_, _, _, rfl⟩

end PN5180

/-! ## What the callers of `issueISO15693Command` return -/

namespace PN5180ISO15693

open PN5180

theorem issueOutcome_cases {fuel : Nat} {cmd : List Nat} {cmdLen : Nat} {hw : State}
    {rc : ISO15693ErrorCode} {p : BufPtr} {r : List Nat}
    (h : issueOutcome fuel cmd cmdLen hw = some (rc, p, r)) :
    rc = EC_NO_CARD ∨ (rc = ISO15693_EC_UNKNOWN_ERROR ∧ p = BufPtr.null) ∨
      (p = BufPtr.toReadBuffer ∧ rc = responseCode (rd8 r 0) (rd8 r 1)) := by
  unfold issueOutcome at h
  cases hi : issueISO15693Command fuel cmd cmdLen hw with
  | none => rw [hi] at h; simp at h
  | some x =>
    obtain ⟨rc1, p1, hw1⟩ := x
    rw [hi] at h
    simp only [Option.map_some', Option.some.injEq, Prod.mk.injEq] at h
    obtain ⟨rfl, rfl, rfl⟩ := h
    exact issueISO15693Command_cases hi

/-- Each of the four public operations returns what `issueISO15693Command`
returned to it. -/
theorem TagCommand.returnValue_eq (c : TagCommand) (fuel : Nat) (hw : State) :
    c.returnValue fuel hw =
      (issueISO15693Command fuel c.frame.1 c.frame.2 (c.entry hw)).map (fun x => x.1) := by
  cases c with
  | inventory uid =>
    simp only [TagCommand.returnValue, TagCommand.frame, TagCommand.entry, getInventory]
    cases issueISO15693Command fuel [0x26, 0x01, 0x00] 3 hw with
    | none => rfl
    | some x =>
      obtain ⟨rc, p, hw1⟩ := x
      simp only [Option.map_some']
      split
      · rfl
      · rename_i hne
        simp only [bne_iff_ne, ne_eq, Decidable.not_not] at hne
        simp [hne]
  | readBlock uid blockNo blockData blockSize =>
    simp only [TagCommand.returnValue, TagCommand.frame, TagCommand.entry, readSingleBlock]
    cases issueISO15693Command fuel (readSingleBlockFrame uid blockNo) 11 hw with
    | none => rfl
    | some x =>
      obtain ⟨rc, p, hw1⟩ := x
      simp only [Option.map_some']
      split
      · rfl
      · rename_i hne
        simp only [bne_iff_ne, ne_eq, Decidable.not_not] at hne
        simp [hne]
  | writeBlock uid blockNo blockData blockSize =>
    simp only [TagCommand.returnValue, TagCommand.frame, TagCommand.entry, writeSingleBlock]
    cases issueISO15693Command fuel (writeCmdFrame uid blockNo blockData blockSize).1
        (writeCmdSize blockSize)
        { hw with heapOverflow :=
            hw.heapOverflow || (writeCmdFrame uid blockNo blockData blockSize).2.2 } with
    | none => rfl
    | some x =>
      obtain ⟨rc, p, hw1⟩ := x
      simp only [Option.map_some']
      split
      · rfl
      · rename_i hne
        simp only [bne_iff_ne, ne_eq, Decidable.not_not] at hne
        simp [hne]
  | systemInfo uid blockSize numBlocks =>
    simp only [TagCommand.returnValue, TagCommand.frame, TagCommand.entry, getSystemInfo]
    cases issueISO15693Command fuel (sysInfoFrame uid) 10 hw with
    | none => rfl
    | some x =>
      obtain ⟨rc, p, hw1⟩ := x
      simp only [Option.map_some']
      split
      · rfl
      · rename_i hne
        simp only [bne_iff_ne, ne_eq, Decidable.not_not] at hne
        split <;> simp [hne]

end PN5180ISO15693

/-! ## Error mapping of `issueISO15693Command` -/

namespace PN5180ISO15693

open PN5180

theorem issueOutcome_returnValue {fuel : Nat} {cmd : List Nat} {cmdLen : Nat} {hw : State}
    {rc : ISO15693ErrorCode} {p : BufPtr} {r : List Nat}
    (h : issueOutcome fuel cmd cmdLen hw = some (rc, p, r)) :
    (issueISO15693Command fuel cmd cmdLen hw).map (fun x => x.1) = some rc := by
  unfold issueOutcome at h
  cases hi : issueISO15693Command fuel cmd cmdLen hw with
  | none => rw [hi] at h; simp at h
  | some x =>
    rw [hi] at h
    simp only [Option.map_some', Option.some.injEq, Prod.mk.injEq] at h
    simp [h.1]

/-- The return value of a call whose response was inspected is `responseCode`
of the first two response bytes. -/
theorem issueOutcome_inspected {fuel : Nat} {cmd : List Nat} {cmdLen : Nat} {hw : State}
    {rc : ISO15693ErrorCode} {r : List Nat}
    (h : issueOutcome fuel cmd cmdLen hw = some (rc, BufPtr.toReadBuffer, r))
    (hcard : rc ≠ EC_NO_CARD) : rc = responseCode (rd8 r 0) (rd8 r 1) := by
  rcases issueOutcome_cases h with h1 | ⟨-, h2⟩ | ⟨-, h3⟩
  · exact absurd h1 hcard
  · cases h2
  · exact h3

/-- What `issueISO15693Command` returns is what every public operation that
called it returns. -/
theorem TagCommand.returnValue_of_outcome {fuel : Nat} {cmd : List Nat} {cmdLen : Nat}
    {hw : State} {rc : ISO15693ErrorCode} {p : BufPtr} {r : List Nat}
    (h : issueOutcome fuel cmd cmdLen hw = some (rc, p, r)) (c : TagCommand) (hw0 : State)
    (hframe : c.frame = (cmd, cmdLen)) (hentry : c.entry hw0 = hw) :
    c.returnValue fuel hw0 = some rc := by
  rw [TagCommand.returnValue_eq, hframe, hentry]
  exact issueOutcome_returnValue h

/-- C1 (amended): when a response was read and inspected (start of frame seen,
so the result is not no-card), its flags byte has the error bit set and its
error byte is at least 0xA0, then `issueISO15693Command`, and with it each of
the four public operations, returns `ISO15693_EC_CUSTOM_CMD_ERROR` (0xA0)
whatever the error byte was. -/
theorem custom_error_code_collapses (fuel : Nat) (cmd : List Nat) (cmdLen : Nat) (hw : State)
    (rc : ISO15693ErrorCode) (r : List Nat)
    (h : issueOutcome fuel cmd cmdLen hw = some (rc, BufPtr.toReadBuffer, r))
    (hcard : rc ≠ EC_NO_CARD) (hflag : rd8 r 0 &&& 1 = 1) (he : 0xA0 ≤ rd8 r 1) :
    (issueISO15693Command fuel cmd cmdLen hw).map (fun x => x.1)
        = some ISO15693_EC_CUSTOM_CMD_ERROR ∧
      ISO15693_EC_CUSTOM_CMD_ERROR = 0xA0 ∧
      ∀ (c : TagCommand) (hw0 : State), c.frame = (cmd, cmdLen) → c.entry hw0 = hw →
        c.returnValue fuel hw0 = some ISO15693_EC_CUSTOM_CMD_ERROR := by
  have hrc : rc = ISO15693_EC_CUSTOM_CMD_ERROR := by
    rw [issueOutcome_inspected h hcard]
    simp [responseCode, hflag, he]
  subst hrc
  exact ⟨issueOutcome_returnValue h, rfl,
    fun c hw0 hf hen => TagCommand.returnValue_of_outcome h c hw0 hf hen⟩

/-- C1 witness: an inventory answered with flags 0x01 and error byte 0xB5. -/
theorem custom_error_code_collapses_witness :
    (issueISO15693Command 300 [0x26, 0x01, 0x00] 3
        (chipAtRest (tagReplies 3 [0x01, 0xB5]) (List.replicate 508 0))).map (fun x => x.1)
        = some ISO15693_EC_CUSTOM_CMD_ERROR ∧
      ISO15693_EC_CUSTOM_CMD_ERROR = 0xA0 ∧
      ∀ (c : TagCommand) (hw0 : State), c.frame = ([0x26, 0x01, 0x00], 3) →
        c.entry hw0 = chipAtRest (tagReplies 3 [0x01, 0xB5]) (List.replicate 508 0) →
        c.returnValue 300 hw0 = some ISO15693_EC_CUSTOM_CMD_ERROR :=
  custom_error_code_collapses 300 [0x26, 0x01, 0x00] 3
    (chipAtRest (tagReplies 3 [0x01, 0xB5]) (List.replicate 508 0)) 0xA0
    ([0x01, 0xB5] ++ List.replicate 506 0) (by rfl) (by decide) (by decide) (by decide)

/-- C1 (as stated) fails: the error bytes 0xB5 and 0xA1 give the same return
value 0xA0, so the result does not carry the raw code. -/
theorem custom_error_code_not_preserved :
    (issueISO15693Command 300 [0x26, 0x01, 0x00] 3
        (chipAtRest (tagReplies 3 [0x01, 0xB5]) (List.replicate 508 0))).map
        (fun x => (x.1, rd8 x.2.2.readBuffer 0, rd8 x.2.2.readBuffer 1))
        = some (0xA0, 0x01, 0xB5) ∧
      (issueISO15693Command 300 [0x26, 0x01, 0x00] 3
        (chipAtRest (tagReplies 3 [0x01, 0xA1]) (List.replicate 508 0))).map
        (fun x => (x.1, rd8 x.2.2.readBuffer 0, rd8 x.2.2.readBuffer 1))
        = some (0xA0, 0x01, 0xA1) ∧
      (0xA0 : ISO15693ErrorCode) ≠ 0xB5 := by
  decide

/-- For an error byte from 1 to 0x9F the cast value is the enumerator of that
value when there is one and an undeclared value otherwise. -/
theorem namedError_cast (e : Nat) (hlo : 1 ≤ e) (hhi : e < 0xA0) :
    (∀ v, namedError e = some v → (e : ISO15693ErrorCode) = v) ∧
      (namedError e = none →
        (e : ISO15693ErrorCode) ∉ declaredErrorCodes ∧
          (e : ISO15693ErrorCode) ≠ ISO15693_EC_UNKNOWN_ERROR) := by
  interval_cases e <;> decide

/-- C2 (amended): when a response was read and inspected, its flags byte has the
error bit set and its error byte e satisfies 1 ≤ e < 0xA0, then
`issueISO15693Command`, and with it each public operation, returns the integer
e: the named enumerator when e is one of 0x01, 0x02, 0x03, 0x0F, 0x10 to 0x14
(0x10 gives `ISO15693_EC_BLOCK_NOT_AVAILABLE`), and otherwise the value e
itself, which is no declared enumerator and is not `ISO15693_EC_UNKNOWN_ERROR`. -/
theorem error_code_passed_through (fuel : Nat) (cmd : List Nat) (cmdLen : Nat) (hw : State)
    (rc : ISO15693ErrorCode) (r : List Nat)
    (h : issueOutcome fuel cmd cmdLen hw = some (rc, BufPtr.toReadBuffer, r))
    (hcard : rc ≠ EC_NO_CARD) (hflag : rd8 r 0 &&& 1 = 1)
    (hlo : 1 ≤ rd8 r 1) (hhi : rd8 r 1 < 0xA0) :
    (issueISO15693Command fuel cmd cmdLen hw).map (fun x => x.1)
        = some ((rd8 r 1 : Nat) : ISO15693ErrorCode) ∧
      (∀ v, namedError (rd8 r 1) = some v → rc = v) ∧
      (rd8 r 1 = 0x10 → rc = ISO15693_EC_BLOCK_NOT_AVAILABLE) ∧
      (namedError (rd8 r 1) = none →
        rc ∉ declaredErrorCodes ∧ rc ≠ ISO15693_EC_UNKNOWN_ERROR) ∧
      ∀ (c : TagCommand) (hw0 : State), c.frame = (cmd, cmdLen) → c.entry hw0 = hw →
        c.returnValue fuel hw0 = some ((rd8 r 1 : Nat) : ISO15693ErrorCode) := by
  have hrc : rc = ((rd8 r 1 : Nat) : ISO15693ErrorCode) := by
    rw [issueOutcome_inspected h hcard]
    have : ¬ (160 ≤ rd8 r 1) := by omega
    simp [responseCode, hflag, this]
  subst hrc
  have hn := namedError_cast (rd8 r 1) hlo hhi
  refine ⟨issueOutcome_returnValue h, hn.1, ?_, hn.2,
    fun c hw0 hf hen => TagCommand.returnValue_of_outcome h c hw0 hf hen⟩
  intro h10
  exact hn.1 _ (by rw [h10]; rfl)

/-- C2 witness: an inventory answered with flags 0x01 and error byte 0x04. -/
theorem error_code_passed_through_witness :
    (issueISO15693Command 300 [0x26, 0x01, 0x00] 3
        (chipAtRest (tagReplies 3 [0x01, 0x04]) (List.replicate 508 0))).map (fun x => x.1)
        = some ((rd8 ([0x01, 0x04] ++ List.replicate 506 0) 1 : Nat) : ISO15693ErrorCode) ∧
      (∀ v, namedError (rd8 ([0x01, 0x04] ++ List.replicate 506 0) 1) = some v →
        (0x04 : ISO15693ErrorCode) = v) ∧
      (rd8 ([0x01, 0x04] ++ List.replicate 506 0) 1 = 0x10 →
        (0x04 : ISO15693ErrorCode) = ISO15693_EC_BLOCK_NOT_AVAILABLE) ∧
      (namedError (rd8 ([0x01, 0x04] ++ List.replicate 506 0) 1) = none →
        (0x04 : ISO15693ErrorCode) ∉ declaredErrorCodes ∧
          (0x04 : ISO15693ErrorCode) ≠ ISO15693_EC_UNKNOWN_ERROR) ∧
      ∀ (c : TagCommand) (hw0 : State), c.frame = ([0x26, 0x01, 0x00], 3) →
        c.entry hw0 = chipAtRest (tagReplies 3 [0x01, 0x04]) (List.replicate 508 0) →
        c.returnValue 300 hw0
          = some ((rd8 ([0x01, 0x04] ++ List.replicate 506 0) 1 : Nat) : ISO15693ErrorCode) :=
  error_code_passed_through 300 [0x26, 0x01, 0x00] 3
    (chipAtRest (tagReplies 3 [0x01, 0x04]) (List.replicate 508 0)) 0x04
    ([0x01, 0x04] ++ List.replicate 506 0) (by rfl) (by decide) (by decide) (by decide)
    (by decide)

/-- C2 (as stated) fails: the error byte 0x04, which is no named code, is
returned as the value 4, which is neither `ISO15693_EC_UNKNOWN_ERROR` nor any
declared enumerator. -/
theorem unnamed_error_code_not_unknown :
    (issueISO15693Command 300 [0x26, 0x01, 0x00] 3
        (chipAtRest (tagReplies 3 [0x01, 0x04]) (List.replicate 508 0))).map
        (fun x => (x.1, rd8 x.2.2.readBuffer 0, rd8 x.2.2.readBuffer 1))
        = some (0x04, 0x01, 0x04) ∧
      (0x04 : ISO15693ErrorCode) ≠ ISO15693_EC_UNKNOWN_ERROR ∧
      (0x04 : ISO15693ErrorCode) ∉ declaredErrorCodes := by
  decide

/-- C3 (code at the failing input): a write-single-block answered with the
error bit set (flags 0x01) and error byte 0x00 returns `ISO15693_EC_OK`. -/
theorem writeSingleBlock_error_flag_zero_code :
    (writeSingleBlock 300 [1, 2, 3, 4, 5, 6, 7, 8] 5 [0xDE, 0xAD, 0xBE, 0xEF] 4
        (chipAtRest (tagReplies 15 [0x01, 0x00]) (List.replicate 508 0xEE))).map
        (fun x => (x.1, rd8 x.2.readBuffer 0, rd8 x.2.readBuffer 1))
      = some (ISO15693_EC_OK, 0x01, 0x00) := by
  decide

/-- C4 (code at the failing input): a read-single-block of 4 bytes answered
with `[0x00, 0x11, 0x22, 0x33, 0x44]` stores `0x22, 0x33, 0x44` and the stale
byte that follows the response in `readBuffer`: the copy starts two bytes into
the response, not one. -/
theorem readSingleBlock_copies_from_offset_two :
    (readSingleBlock 300 [1, 2, 3, 4, 5, 6, 7, 8] 5 [0, 0, 0, 0] 4
        (chipAtRest (tagReplies 11 [0x00, 0x11, 0x22, 0x33, 0x44])
          (List.replicate 508 0xEE))).map (fun x => (x.1, x.2.1))
      = some (ISO15693_EC_OK, [0x22, 0x33, 0x44, 0xEE]) := by
  decide

/-! ## Parsing of the responses -/

theorem issueOutcome_some {fuel : Nat} {cmd : List Nat} {cmdLen : Nat} {hw : State}
    {rc : ISO15693ErrorCode} {p : BufPtr} {r : List Nat}
    (h : issueOutcome fuel cmd cmdLen hw = some (rc, p, r)) :
    ∃ hw1, issueISO15693Command fuel cmd cmdLen hw = some (rc, p, hw1) ∧
      hw1.readBuffer = r := by
  unfold issueOutcome at h
  cases hi : issueISO15693Command fuel cmd cmdLen hw with
  | none => rw [hi] at h; simp at h
  | some x =>
    obtain ⟨rc1, p1, hw1⟩ := x
    rw [hi] at h
    simp only [Option.map_some', Option.some.injEq, Prod.mk.injEq] at h
    obtain ⟨rfl, rfl, rfl⟩ := h
    exact ⟨hw1, rfl, rfl⟩

theorem and_bit_ne_zero (f k : Nat) : (f &&& 2 ^ k != 0) = decide (f / 2 ^ k % 2 = 1) := by
  rw [Nat.and_two_pow, Nat.testBit_to_div_mod]
  by_cases h : f / 2 ^ k % 2 = 1
  · simp [h]
  · simp [h]

theorem and_one_ne_zero (f : Nat) : (f &&& 1 != 0) = decide (f % 2 = 1) := by
  simpa using and_bit_ne_zero f 0

theorem and_two_ne_zero (f : Nat) : (f &&& 2 != 0) = decide (f / 2 % 2 = 1) := by
  simpa using and_bit_ne_zero f 1

theorem and_four_ne_zero (f : Nat) : (f &&& 4 != 0) = decide (f / 4 % 2 = 1) := by
  simpa using and_bit_ne_zero f 2

/-- Where the memory-size field starts: one further for each of the DSFID and
AFI flags that is set. -/
theorem memory_size_offset (f : Nat) :
    (if f &&& 2 != 0 then (if f &&& 1 != 0 then 10 + 1 else 10) + 1
      else (if f &&& 1 != 0 then 10 + 1 else 10)) = 10 + f % 2 + f / 2 % 2 := by
  rw [and_one_ne_zero, and_two_ne_zero]
  have h1 : f % 2 = 0 ∨ f % 2 = 1 := by omega
  have h2 : f / 2 % 2 = 0 ∨ f / 2 % 2 = 1 := by omega
  rcases h1 with h1 | h1 <;> rcases h2 with h2 | h2 <;> simp [h1, h2]

/-- C5: for a successful get-system-info response `r` whose info flags
(`r[1]`) have bit 2 set, `getSystemInfo` takes the raw block count from index
`10 + bit0 + bit1` of `r` and the raw block size from the index after it, and
stores count + 1 and (size and 0x1F) + 1 as 8-bit values. -/
theorem getSystemInfo_memory_size_fields (fuel : Nat) (uid : List Nat)
    (blockSize numBlocks : Nat) (hw : State) (r : List Nat)
    (h : issueOutcome fuel (sysInfoFrame uid) 10 hw
      = some (ISO15693_EC_OK, BufPtr.toReadBuffer, r))
    (hmem : rd8 r 1 / 4 % 2 = 1) :
    (getSystemInfo fuel uid blockSize numBlocks hw).map
        (fun s => (s.rc, s.numBlocks, s.blockSize, s.viccMemSize))
      = some (ISO15693_EC_OK,
          (rd8 r (10 + rd8 r 1 % 2 + rd8 r 1 / 2 % 2) + 1) % 256,
          ((rd8 r (10 + rd8 r 1 % 2 + rd8 r 1 / 2 % 2 + 1) &&& 0x1f) + 1) % 256,
          some ((((rd8 r (10 + rd8 r 1 % 2 + rd8 r 1 / 2 % 2 + 1) &&& 0x1f) + 1) % 256
            * ((rd8 r (10 + rd8 r 1 % 2 + rd8 r 1 / 2 % 2) + 1) % 256)) % 65536)) := by
  obtain ⟨hw1, hi, rfl⟩ := issueOutcome_some h
  have h4 : (rd8 hw1.readBuffer 1 &&& 4 != 0) = true := by
    rw [and_four_ne_zero]; simpa using hmem
  have hoff := memory_size_offset (rd8 hw1.readBuffer 1)
  simp only [getSystemInfo, hi, BufPtr.deref, Option.map_some']
  rw [if_neg (by simp)]
  simp only [h4, if_true, hoff]
  rfl

/-- C5 witness: info flags 0x07 followed by the UID and by DSFID 0x01, AFI
0x00, raw block count 0x07, raw block size 0x03 give 8 blocks of 4 bytes, 32
bytes in all. -/
theorem getSystemInfo_memory_size_fields_witness :
    (getSystemInfo 300 [1, 2, 3, 4, 5, 6, 7, 8] 0 0
        (chipAtRest (tagReplies 10 [0x00, 0x07, 1, 2, 3, 4, 5, 6, 7, 8, 0x01, 0x00, 0x07, 0x03])
          (List.replicate 508 0))).map
        (fun s => (s.rc, s.numBlocks, s.blockSize, s.viccMemSize))
      = some (ISO15693_EC_OK, 8, 4, some 32) :=
  (getSystemInfo_memory_size_fields 300 [1, 2, 3, 4, 5, 6, 7, 8] 0 0
    (chipAtRest (tagReplies 10 [0x00, 0x07, 1, 2, 3, 4, 5, 6, 7, 8, 0x01, 0x00, 0x07, 0x03])
      (List.replicate 508 0))
    ([0x00, 0x07, 1, 2, 3, 4, 5, 6, 7, 8, 0x01, 0x00, 0x07, 0x03] ++ List.replicate 494 0)
    (by rfl) (by decide)).trans (by decide)

/-- C6 (code at the failing input): a system-info response with only the
memory-size flag set, raw block count 0xFF and raw block size 0x03 stores
`numBlocks = 0` (not 256) and computes a memory size of 0. -/
theorem getSystemInfo_block_count_wraps :
    (getSystemInfo 300 [1, 2, 3, 4, 5, 6, 7, 8] 0 0
        (chipAtRest (tagReplies 10 [0x00, 0x04, 1, 2, 3, 4, 5, 6, 7, 8, 0xFF, 0x03])
          (List.replicate 508 0))).map
        (fun s => (s.rc, s.numBlocks, s.blockSize, s.viccMemSize))
      = some (ISO15693_EC_OK, 0, 4, some 0) := by
  decide

theorem storeLoop_eight (uid : List Nat) (f : Nat → Nat) (h : uid.length = 8) :
    storeLoop 8 uid 0 f = (List.range 8).map f := by
  rcases uid with
    _ | ⟨a, _ | ⟨b, _ | ⟨c, _ | ⟨d, _ | ⟨e, _ | ⟨x, _ | ⟨y, _ | ⟨z, _ | ⟨w, t⟩⟩⟩⟩⟩⟩⟩⟩⟩ <;>
    simp at h
  rfl

theorem storeLoop_length (n : Nat) (dst : List Nat) (off : Nat) (f : Nat → Nat) :
    (storeLoop n dst off f).length = dst.length := by
  induction n with
  | zero => rfl
  | succ k ih => simp [storeLoop, ih]

/-- C7: for a successful inventory response `r`, `getInventory` returns OK and
an 8-byte `uid` holding `r[2], …, r[9]` in that order; when `r` is
`flags, dsfid, u0, …, u7` followed by anything, that is `u0, …, u7`. -/
theorem getInventory_uid_verbatim (fuel : Nat) (uid : List Nat) (hw : State) (r : List Nat)
    (h : issueOutcome fuel [0x26, 0x01, 0x00] 3 hw
      = some (ISO15693_EC_OK, BufPtr.toReadBuffer, r))
    (huid : uid.length = 8) :
    (getInventory fuel uid hw).map (fun x => (x.1, x.2.1))
        = some (ISO15693_EC_OK, (List.range 8).map (fun i => rd8 r (2 + i))) ∧
      ∀ (flags dsfid : Nat) (u rest : List Nat), r = flags :: dsfid :: (u ++ rest) →
        u.length = 8 → (∀ x ∈ u, x < 256) →
        (getInventory fuel uid hw).map (fun x => (x.1, x.2.1)) = some (ISO15693_EC_OK, u) := by
  obtain ⟨hw1, hi, rfl⟩ := issueOutcome_some h
  have hmain : (getInventory fuel uid hw).map (fun x => (x.1, x.2.1))
      = some (ISO15693_EC_OK, (List.range 8).map (fun i => rd8 hw1.readBuffer (2 + i))) := by
    simp only [getInventory, hi, BufPtr.deref, Option.map_some']
    rw [if_neg (by simp)]
    rw [storeLoop_eight _ _ (by rw [storeLoop_length]; exact huid)]
    rfl
  refine ⟨hmain, ?_⟩
  intro flags dsfid u rest hr hu hbytes
  rw [hmain, hr]
  rcases u with
    _ | ⟨a, _ | ⟨b, _ | ⟨c, _ | ⟨d, _ | ⟨e, _ | ⟨x, _ | ⟨y, _ | ⟨z, _ | ⟨w, t⟩⟩⟩⟩⟩⟩⟩⟩⟩ <;>
    simp at hu
  simp only [List.mem_cons, List.mem_singleton, forall_eq_or_imp, forall_eq] at hbytes
  have e : (List.range 8).map (fun i => rd8 (flags :: dsfid :: ([a, b, c, d, e, x, y, z] ++ rest))
      (2 + i)) = [a % 256, b % 256, c % 256, d % 256, e % 256, x % 256, y % 256, z % 256] := rfl
  rw [e]
  simp [Nat.mod_eq_of_lt, hbytes]

/-- C7 witness: an inventory answered with flags 0x00, DSFID 0x09 and the UID
bytes 0xE0, 0x04, 0x01, 0x50, 0x12, 0x34, 0x56, 0x78. -/
theorem getInventory_uid_verbatim_witness :
    (getInventory 300 [7, 7, 7, 7, 7, 7, 7, 7]
        (chipAtRest (tagReplies 3 [0x00, 0x09, 0xE0, 0x04, 0x01, 0x50, 0x12, 0x34, 0x56, 0x78])
          (List.replicate 508 0))).map (fun x => (x.1, x.2.1))
      = some (ISO15693_EC_OK, [0xE0, 0x04, 0x01, 0x50, 0x12, 0x34, 0x56, 0x78]) :=
  (getInventory_uid_verbatim 300 [7, 7, 7, 7, 7, 7, 7, 7]
    (chipAtRest (tagReplies 3 [0x00, 0x09, 0xE0, 0x04, 0x01, 0x50, 0x12, 0x34, 0x56, 0x78])
      (List.replicate 508 0))
    ([0x00, 0x09, 0xE0, 0x04, 0x01, 0x50, 0x12, 0x34, 0x56, 0x78] ++ List.replicate 498 0)
    (by rfl) (by decide)).2 0x00 0x09 [0xE0, 0x04, 0x01, 0x50, 0x12, 0x34, 0x56, 0x78]
    (List.replicate 498 0) (by rfl) (by decide) (by decide)

end PN5180ISO15693

/-! ## Preconditions of the buffer commands -/

namespace PN5180

theorem transceiveCommand_ne_none {fuel : Nat} (hfuel : 2001 ≤ fuel) {sb : List Nat}
    {sl : Nat} (hsl : sl ≤ 255) {rb : Option (List Nat)} {rl : Nat} (hrl : rl ≤ 255)
    {hw : State} : transceiveCommand fuel sb sl rb rl hw ≠ none := by
  obtain ⟨b, buf, hw', h⟩ := transceiveCommand_terminates hfuel sb hsl rb hrl hw
  rw [h]
  simp

theorem writeRegisterWithAndMask_terminates {fuel : Nat} (hfuel : 2001 ≤ fuel)
    (reg mask : Nat) (hw : State) :
    ∃ b hw', writeRegisterWithAndMask fuel reg mask hw = some (b, hw') := by
  unfold writeRegisterWithAndMask
  simp only
  split
  · rename_i hnone
    exact absurd hnone (transceiveCommand_ne_none hfuel (by decide) (by decide))
  · exact ⟨_, _, rfl⟩

theorem writeRegisterWithOrMask_terminates {fuel : Nat} (hfuel : 2001 ≤ fuel)
    (reg mask : Nat) (hw : State) :
    ∃ b hw', writeRegisterWithOrMask fuel reg mask hw = some (b, hw') := by
  unfold writeRegisterWithOrMask
  simp only
  split
  · rename_i hnone
    exact absurd hnone (transceiveCommand_ne_none hfuel (by decide) (by decide))
  · exact ⟨_, _, rfl⟩

theorem readRegister_ne_none {fuel : Nat} (hfuel : 2001 ≤ fuel) {reg value : Nat}
    {hw : State} : readRegister fuel reg value hw ≠ none := by
  unfold readRegister
  simp only
  split
  · rename_i hnone
    exact absurd hnone (transceiveCommand_ne_none hfuel (by decide) (by decide))
  · simp

theorem getTransceiveState_terminates {fuel : Nat} (hfuel : 2001 ≤ fuel) (hw : State) :
    ∃ s hw', getTransceiveState fuel hw = some (s, hw') := by
  unfold getTransceiveState
  simp only
  split
  · rename_i hnone
    exact absurd hnone (readRegister_ne_none hfuel)
  · exact ⟨_, _, rfl⟩
  · exact ⟨_, _, rfl⟩

/-- C8: `readEEprom` with `addr > 254` or `addr + len > 254` (the sum taken
without wrap-around) returns `false`, and `readData` with `len > 508` returns
the null pointer; in both cases no pin is touched and no byte is exchanged:
the trace, the chip-select level, the sample and exchange counts and the
command log are what they were. -/
theorem out_of_range_rejected_before_bus_access (fuel : Nat) (addr : Nat) (buffer : List Nat)
    (len : Nat) (len16 : Nat) (hw : State)
    (hrange : addr > 254 ∨ addr + len > 254) (hlen : 508 < len16) :
    readEEprom fuel addr buffer len hw = some (false, buffer, hw) ∧
      ∃ hw', readData fuel len16 hw = some (BufPtr.null, hw') ∧
        hw'.trace = hw.trace ∧ hw'.cs = hw.cs ∧ hw'.busyReads = hw.busyReads ∧
        hw'.spiWrites = hw.spiWrites ∧ hw'.commands = hw.commands ∧
        hw'.readBuffer = hw.readBuffer := by
  constructor
  · unfold readEEprom
    rw [if_pos]
    rcases hrange with h | h
    · simp [h]
    · simp [h]
  · refine ⟨{ hw with fatal := true }, ?_, rfl, rfl, rfl, rfl, rfl, rfl⟩
    unfold readData
    rw [if_pos hlen]

/-- C8 witness: address 200 with length 100 (300 as an `int`, 44 if it wrapped
to 8 bits) and a read of 509 bytes. -/
theorem out_of_range_rejected_before_bus_access_witness :
    readEEprom 300 200 [0, 0, 0] 100 (PN5180ISO15693.chipAtRest [] (List.replicate 508 0))
        = some (false, [0, 0, 0], PN5180ISO15693.chipAtRest [] (List.replicate 508 0)) ∧
      ∃ hw', readData 300 509 (PN5180ISO15693.chipAtRest [] (List.replicate 508 0))
          = some (BufPtr.null, hw') ∧
        hw'.trace = (PN5180ISO15693.chipAtRest [] (List.replicate 508 0)).trace ∧
        hw'.cs = (PN5180ISO15693.chipAtRest [] (List.replicate 508 0)).cs ∧
        hw'.busyReads = (PN5180ISO15693.chipAtRest [] (List.replicate 508 0)).busyReads ∧
        hw'.spiWrites = (PN5180ISO15693.chipAtRest [] (List.replicate 508 0)).spiWrites ∧
        hw'.commands = (PN5180ISO15693.chipAtRest [] (List.replicate 508 0)).commands ∧
        hw'.readBuffer = (PN5180ISO15693.chipAtRest [] (List.replicate 508 0)).readBuffer :=
  out_of_range_rejected_before_bus_access 300 200 [0, 0, 0] 100 509
    (PN5180ISO15693.chipAtRest [] (List.replicate 508 0)) (by decide) (by decide)

/-- C9 (code at the failing input): reading the one byte at address 254 is
rejected without any bus access, since 254 + 1 > 254. -/
theorem readEEprom_rejects_address_254 (fuel : Nat) (buffer : List Nat) (hw : State) :
    readEEprom fuel 254 buffer 1 hw = some (false, buffer, hw) := by
  unfold readEEprom
  rw [if_pos (by decide)]

/-- C10 (amended): with fuel for the bounded waits, `sendData` first performs
the AND-mask write, the OR-mask write and the read of the transceive state;
when that state is not `WaitTransmit` it returns `false` in exactly the state
those three steps left, so nothing further is put on the bus. The only
commands logged during the call are the two `SYSTEM_CONFIG` mask writes and
the `RF_STATUS` read; there is no Send-Data frame among them. -/
theorem sendData_not_ready (fuel : Nat) (data : List Nat) (len validBits : Nat) (hw : State)
    (hfuel : 2001 ≤ fuel) :
    ∃ b1 hw1 b2 hw2 s hw3,
      writeRegisterWithAndMask fuel SYSTEM_CONFIG 0xfffffff8 hw = some (b1, hw1) ∧
      writeRegisterWithOrMask fuel SYSTEM_CONFIG 0x00000003 hw1 = some (b2, hw2) ∧
      getTransceiveState fuel hw2 = some (s, hw3) ∧
      (s ≠ PN5180_TS_WaitTransmit →
        sendData fuel data len validBits hw = some (false, hw3) ∧
        ∃ extra, hw3.commands = hw.commands ++ extra ∧
          ∀ c ∈ extra, c = ([0x02, 0x00, 0xF8, 0xFF, 0xFF, 0xFF], 0) ∨
            c = ([0x01, 0x00, 0x03, 0x00, 0x00, 0x00], 0) ∨ c = ([0x04, 0x1D], 4)) := by
  obtain ⟨b1, hw1, hA⟩ := writeRegisterWithAndMask_terminates hfuel SYSTEM_CONFIG 0xfffffff8 hw
  obtain ⟨b2, hw2, hO⟩ := writeRegisterWithOrMask_terminates hfuel SYSTEM_CONFIG 0x00000003 hw1
  obtain ⟨s, hw3, hS⟩ := getTransceiveState_terminates hfuel hw2
  refine ⟨b1, hw1, b2, hw2, s, hw3, hA, hO, hS, ?_⟩
  intro hs
  constructor
  · simp only [sendData, hA, hO, hS]
    rw [if_pos (by simpa using Ne.symm hs)]
  · have inv := logsOnly (fun c => c = ([0x02, 0x00, 0xF8, 0xFF, 0xFF, 0xFF], 0) ∨
      c = ([0x01, 0x00, 0x03, 0x00, 0x00, 0x00], 0) ∨ c = ([0x04, 0x1D], 4))
    refine inv.trans hw hw2 hw3 (inv.trans hw hw1 hw2 ?_ ?_) ?_
    · refine writeRegisterWithAndMask_inv inv ?_ hA
      exact Or.inl (by decide)
    · refine writeRegisterWithOrMask_inv inv ?_ hO
      exact Or.inr (Or.inl (by decide))
    · refine getTransceiveState_inv inv ?_ hS
      exact Or.inr (Or.inr (by decide))

/-- C10 witness: a three-byte payload sent to a chip at rest. -/
theorem sendData_not_ready_witness :
    ∃ b1 hw1 b2 hw2 s hw3,
      writeRegisterWithAndMask 2001 SYSTEM_CONFIG 0xfffffff8
        (PN5180ISO15693.chipAtRest [] (List.replicate 508 0)) = some (b1, hw1) ∧
      writeRegisterWithOrMask 2001 SYSTEM_CONFIG 0x00000003 hw1 = some (b2, hw2) ∧
      getTransceiveState 2001 hw2 = some (s, hw3) ∧
      (s ≠ PN5180_TS_WaitTransmit →
        sendData 2001 [0x26, 0x01, 0x00] 3 0
          (PN5180ISO15693.chipAtRest [] (List.replicate 508 0)) = some (false, hw3) ∧
        ∃ extra, hw3.commands
            = (PN5180ISO15693.chipAtRest [] (List.replicate 508 0)).commands ++ extra ∧
          ∀ c ∈ extra, c = ([0x02, 0x00, 0xF8, 0xFF, 0xFF, 0xFF], 0) ∨
            c = ([0x01, 0x00, 0x03, 0x00, 0x00, 0x00], 0) ∨ c = ([0x04, 0x1D], 4)) :=
  sendData_not_ready 2001 [0x26, 0x01, 0x00] 3 0
    (PN5180ISO15693.chipAtRest [] (List.replicate 508 0)) (by decide)

/-- C10 (as stated) fails: against a chip whose `RF_STATUS` reads as 0, so
that the transceive state is `Idle`, `sendData` returns `false` and yet two
write-only commands (the AND-mask and the OR-mask write, both with
`recvBufferLen = 0`) went over the bus. -/
theorem sendData_not_ready_still_writes :
    ((writeRegisterWithAndMask 300 SYSTEM_CONFIG 0xfffffff8
        (PN5180ISO15693.chipAtRest [] (List.replicate 508 0))).bind (fun a =>
      (writeRegisterWithOrMask 300 SYSTEM_CONFIG 0x00000003 a.2).bind (fun b =>
        (getTransceiveState 300 b.2).map (fun c => c.1)))) = some PN5180_TS_Idle ∧
      (sendData 300 [0x26, 0x01, 0x00] 3 0
          (PN5180ISO15693.chipAtRest [] (List.replicate 508 0))).map
          (fun x => (x.1, x.2.commands.filter (fun c => c.2 == 0)))
        = some (false, [([0x02, 0x00, 0xF8, 0xFF, 0xFF, 0xFF], 0),
            ([0x01, 0x00, 0x03, 0x00, 0x00, 0x00], 0)]) ∧
      (sendData 300 [0x26, 0x01, 0x00] 3 0
          (PN5180ISO15693.chipAtRest [] (List.replicate 508 0))).map
          (fun x => x.2.trace.take 11)
        = some [Event.busyRead false, Event.csWrite false, Event.spi 0x02 0, Event.spi 0x00 0,
            Event.spi 0xF8 0, Event.spi 0xFF 0, Event.spi 0xFF 0, Event.spi 0xFF 0,
            Event.busyRead true, Event.csWrite true, Event.busyRead false] := by
  decide

end PN5180

namespace PN5180

/-! ## Busy waits, sample by sample -/

theorem polled_succ (n : Nat) (hw : State) : polled (n + 1) hw = polled n (readBusy hw).2 := rfl

theorem polled_busyReads (n : Nat) : ∀ hw : State, (polled n hw).busyReads = hw.busyReads + n := by
  induction n with
  | zero => intro hw; rfl
  | succ k ih =>
    intro hw
    rw [polled_succ, ih]
    simp only [readBusy]
    omega

theorem polled_trace (n : Nat) :
    ∀ hw : State, (polled n hw).trace = hw.trace ++ pollEvents hw.busyLine n hw.busyReads := by
  induction n with
  | zero => intro hw; simp [polled, pollEvents]
  | succ k ih =>
    intro hw
    rw [polled_succ, ih]
    simp [readBusy, pollEvents]

/-- Sampling BUSY changes nothing but the sample count and the trace. -/
theorem polled_fields (n : Nat) :
    ∀ hw : State, (polled n hw).busyLine = hw.busyLine ∧ (polled n hw).spiReply = hw.spiReply ∧
      (polled n hw).spiWrites = hw.spiWrites ∧ (polled n hw).cs = hw.cs ∧
      (polled n hw).rst = hw.rst ∧ (polled n hw).readBuffer = hw.readBuffer ∧
      (polled n hw).garbage = hw.garbage ∧ (polled n hw).locals = hw.locals ∧
      (polled n hw).fatal = hw.fatal ∧ (polled n hw).heapOverflow = hw.heapOverflow ∧
      (polled n hw).commands = hw.commands := by
  induction n with
  | zero => intro hw; simp [polled]
  | succ k ih =>
    intro hw
    rw [polled_succ]
    have h := ih (readBusy hw).2
    simpa [readBusy] using h

/-- Every return of the wait loop: `n` samples were taken, all but the last
off target, the last on target exactly when the result is `true`, and `false`
only when the counter has reached 2001. -/
theorem waitForBusyStateLoop_polled (fuel : Nat) :
    ∀ (target : Bool) (ctr : Nat) (hw : State) (b : Bool) (hw' : State), ctr ≤ 2000 →
      waitForBusyStateLoop fuel target ctr hw = some (b, hw') →
      ∃ n, 1 ≤ n ∧ ctr + n ≤ 2001 ∧ hw' = polled n hw ∧
        (∀ j, j < n - 1 → hw.busyLine (hw.busyReads + j) ≠ target) ∧
        (b = true ↔ hw.busyLine (hw.busyReads + (n - 1)) = target) ∧
        (b = false → ctr + n = 2001) := by
  induction fuel with
  | zero => intro target ctr hw b hw' _ h; simp [waitForBusyStateLoop] at h
  | succ m ih =>
    intro target ctr hw b hw' hctr h
    simp only [waitForBusyStateLoop] at h
    have hc : (ctr + 1) % 65536 = ctr + 1 := Nat.mod_eq_of_lt (by omega)
    rw [hc] at h
    split at h
    · rename_i hne
      have hne' : hw.busyLine hw.busyReads ≠ target := by simpa [readBusy] using hne
      split at h
      · rename_i hgt
        simp only [Option.some.injEq, Prod.mk.injEq] at h
        obtain ⟨rfl, rfl⟩ := h
        refine ⟨1, le_refl 1, by omega, rfl, ?_, ?_, ?_⟩
        · intro j hj; omega
        · simpa using hne'
        · intro _; omega
      · rename_i hle
        obtain ⟨n, hn1, hn2, hpol, hmiss, hlast, hfail⟩ :=
          ih target (ctr + 1) (readBusy hw).2 b hw' (by omega) h
        refine ⟨n + 1, by omega, by omega, hpol, ?_, ?_, ?_⟩
        · intro j hj
          cases j with
          | zero => simpa using hne'
          | succ i =>
            have := hmiss i (by omega)
            simp only [readBusy] at this
            rw [show hw.busyReads + (i + 1) = hw.busyReads + 1 + i by omega]
            exact this
        · rw [hlast]
          simp only [readBusy]
          rw [show hw.busyReads + 1 + (n - 1) = hw.busyReads + (n + 1 - 1) by omega]
        · intro hb; have := hfail hb; omega
    · rename_i heq
      have heq' : hw.busyLine hw.busyReads = target := by simpa [readBusy] using heq
      simp only [Option.some.injEq, Prod.mk.injEq] at h
      obtain ⟨rfl, rfl⟩ := h
      refine ⟨1, le_refl 1, by omega, rfl, ?_, ?_, ?_⟩
      · intro j hj; omega
      · simpa using heq'
      · intro hb; cases hb

theorem waitForBusyState_polled {fuel : Nat} {target : Bool} {hw : State} {b : Bool}
    {hw' : State} (h : waitForBusyState fuel target hw = some (b, hw')) :
    ∃ n, 1 ≤ n ∧ n ≤ 2001 ∧ hw' = polled n hw ∧
      (∀ j, j < n - 1 → hw.busyLine (hw.busyReads + j) ≠ target) ∧
      (b = true ↔ hw.busyLine (hw.busyReads + (n - 1)) = target) ∧
      (b = false → n = 2001) := by
  obtain ⟨n, h1, h2, h3, h4, h5, h6⟩ :=
    waitForBusyStateLoop_polled fuel target 0 hw b hw' (by omega) h
  exact ⟨n, h1, by omega, h3, h4, h5, fun hb => by have := h6 hb; omega⟩

end PN5180
namespace PN5180

open PN5180ISO15693

/-- With fuel for 2001 rounds the wait takes exactly `n` samples when the
first `n - 1` are off target and sample `n` is on target or is sample 2001. -/
theorem waitForBusyState_exact {fuel : Nat} (hfuel : 2001 ≤ fuel) (target : Bool) (hw : State)
    (n : Nat) (hn1 : 1 ≤ n) (hn2 : n ≤ 2001)
    (hmiss : ∀ j, j < n - 1 → hw.busyLine (hw.busyReads + j) ≠ target)
    (hlast : hw.busyLine (hw.busyReads + (n - 1)) = target ∨ n = 2001) :
    waitForBusyState fuel target hw
      = some (decide (hw.busyLine (hw.busyReads + (n - 1)) = target), polled n hw) := by
  obtain ⟨b, hw', h⟩ := waitForBusyState_terminates hfuel target hw
  obtain ⟨m, hm1, hm2, hpol, hmiss', hlast', hfail'⟩ := waitForBusyState_polled h
  have hmn : m = n := by
    rcases Nat.lt_trichotomy m n with hlt | heq | hgt
    · have hoff := hmiss (m - 1) (by omega)
      have hb : b = false := by
        cases b with
        | false => rfl
        | true => exact absurd (hlast'.mp rfl) hoff
      have := hfail' hb
      omega
    · exact heq
    · have hoff := hmiss' (n - 1) (by omega)
      rcases hlast with hl | hl
      · exact absurd hl hoff
      · omega
  subst hmn
  rw [h, hpol]
  congr 2
  cases b with
  | false =>
    have : ¬ hw.busyLine (hw.busyReads + (m - 1)) = target := fun hc => by
      have := hlast'.mpr hc
      cases this
    simp [this]
  | true => simp [hlast'.mp rfl]

/-- C15 (amended): with fuel for 2001 rounds `waitForBusyState` returns for
every BUSY line and target. It samples the line `n` times with
`1 ≤ n ≤ 2001`, every sample but the last being off target, so it stops at the
first sample on target; it returns `true` exactly when the last sample is on
target, and `false` only after 2001 samples, all off target. -/
theorem waitForBusyState_bounded (fuel : Nat) (target : Bool) (hw : State)
    (hfuel : 2001 ≤ fuel) :
    ∃ b n, waitForBusyState fuel target hw = some (b, polled n hw) ∧
      (polled n hw).busyReads = hw.busyReads + n ∧ 1 ≤ n ∧ n ≤ 2001 ∧
      (∀ j, j < n - 1 → hw.busyLine (hw.busyReads + j) ≠ target) ∧
      (b = true ↔ hw.busyLine (hw.busyReads + (n - 1)) = target) ∧
      (b = false → n = 2001) := by
  obtain ⟨b, hw', h⟩ := waitForBusyState_terminates hfuel target hw
  obtain ⟨n, hn1, hn2, hpol, hmiss, hlast, hfail⟩ := waitForBusyState_polled h
  subst hpol
  exact ⟨b, n, h, polled_busyReads n hw, hn1, hn2, hmiss, hlast, hfail⟩

/-- C15 witness: waiting for BUSY low on a chip at rest. -/
theorem waitForBusyState_bounded_witness :
    ∃ b n, waitForBusyState 2001 LOW (chipAtRest [] []) = some (b, polled n (chipAtRest [] [])) ∧
      (polled n (chipAtRest [] [])).busyReads = (chipAtRest [] []).busyReads + n ∧
      1 ≤ n ∧ n ≤ 2001 ∧
      (∀ j, j < n - 1 →
        (chipAtRest [] []).busyLine ((chipAtRest [] []).busyReads + j) ≠ LOW) ∧
      (b = true ↔
        (chipAtRest [] []).busyLine ((chipAtRest [] []).busyReads + (n - 1)) = LOW) ∧
      (b = false → n = 2001) :=
  waitForBusyState_bounded 2001 LOW (chipAtRest [] []) (by decide)

/-- C15 (as stated) fails: on a line that never goes low the wait for low
gives up only after 2001 samples, and on a line that goes low at its 2001st
sample the wait succeeds with that sample; both take more than 2000 samples. -/
theorem waitForBusyState_takes_2001_samples :
    (waitForBusyState 2001 LOW stuckBusy).map (fun r => (r.1, r.2.busyReads))
        = some (false, 2001) ∧
      (waitForBusyState 2001 LOW lateBusy).map (fun r => (r.1, r.2.busyReads))
        = some (true, 2001) := by
  constructor
  · rw [waitForBusyState_exact (le_refl 2001) LOW stuckBusy 2001 (by decide) (by decide)
      (fun j _ => by simp [stuckBusy, LOW]) (Or.inr rfl)]
    simp only [Option.map_some', polled_busyReads]
    rfl
  · rw [waitForBusyState_exact (le_refl 2001) LOW lateBusy 2001 (by decide) (by decide)
      (fun j hj => by
        have : j < 2000 := by omega
        simp [lateBusy, LOW, chipAtRest, this]) (Or.inr rfl)]
    simp only [Option.map_some', polled_busyReads]
    rfl

end PN5180
namespace PN5180

/-! ## The byte loops, round by round -/

theorem sendLoop_eq (sb : List Nat) (sl : Nat) (hsl : sl ≤ 255) (fuel : Nat) :
    ∀ (i : Nat) (hw : State), i ≤ sl →
      sendLoop fuel sb sl i hw = if sl - i < fuel then some (sent sb (sl - i) i hw) else none := by
  induction fuel with
  | zero => intro i hw _; simp [sendLoop]
  | succ m ih =>
    intro i hw hi
    simp only [sendLoop]
    split
    · rename_i hlt
      have hc : (i + 1) % 256 = i + 1 := Nat.mod_eq_of_lt (by omega)
      rw [hc, ih (i + 1) _ (by omega)]
      have hk : sl - i = (sl - (i + 1)) + 1 := by omega
      rw [hk]
      simp only [sent]
      by_cases hf : sl - (i + 1) < m
      · rw [if_pos hf, if_pos (by omega)]
      · rw [if_neg hf, if_neg (by omega)]
    · rename_i hge
      have : sl - i = 0 := by omega
      rw [this]
      simp [sent]

/-- A send loop over 256 bytes or more never ends: the 8-bit counter wraps
before it reaches the length. -/
theorem sendLoop_diverges (sb : List Nat) (sl : Nat) (hsl : 256 ≤ sl) (fuel : Nat) :
    ∀ (i : Nat) (hw : State), i < 256 → sendLoop fuel sb sl i hw = none := by
  induction fuel with
  | zero => intro i hw _; simp [sendLoop]
  | succ m ih =>
    intro i hw hi
    simp only [sendLoop]
    rw [if_pos (by omega)]
    exact ih _ _ (Nat.mod_lt _ (by decide))

theorem recvLoop_eq (rl : Nat) (hrl : rl ≤ 255) (fuel : Nat) :
    ∀ (i : Nat) (rb : List Nat) (hw : State), i ≤ rl →
      recvLoop fuel rb rl i hw
        = if rl - i < fuel then some (received (rl - i) i rb hw) else none := by
  induction fuel with
  | zero => intro i rb hw _; simp [recvLoop]
  | succ m ih =>
    intro i rb hw hi
    simp only [recvLoop]
    split
    · rename_i hlt
      have hc : (i + 1) % 256 = i + 1 := Nat.mod_eq_of_lt (by omega)
      rw [hc, ih (i + 1) _ _ (by omega)]
      have hk : rl - i = (rl - (i + 1)) + 1 := by omega
      rw [hk]
      simp only [received]
      by_cases hf : rl - (i + 1) < m
      · rw [if_pos hf, if_pos (by omega)]
      · rw [if_neg hf, if_neg (by omega)]
    · rename_i hge
      have : rl - i = 0 := by omega
      rw [this]
      simp [received]

/-- A receive loop over 256 bytes or more never ends either. -/
theorem recvLoop_diverges (rl : Nat) (hrl : 256 ≤ rl) (fuel : Nat) :
    ∀ (i : Nat) (rb : List Nat) (hw : State), i < 256 → recvLoop fuel rb rl i hw = none := by
  induction fuel with
  | zero => intro i rb hw _; simp [recvLoop]
  | succ m ih =>
    intro i rb hw hi
    simp only [recvLoop]
    rw [if_pos (by omega)]
    exact ih _ _ _ (Nat.mod_lt _ (by decide))

theorem sendLoop_some {fuel : Nat} {sb : List Nat} {sl : Nat} {hw hw' : State}
    (h : sendLoop fuel sb sl 0 hw = some hw') : sl ≤ 255 ∧ hw' = sent sb sl 0 hw := by
  by_cases hsl : sl ≤ 255
  · rw [sendLoop_eq sb sl hsl fuel 0 hw (by omega)] at h
    split at h
    · simp only [Option.some.injEq] at h
      exact ⟨hsl, by rw [← h]; rfl⟩
    · cases h
  · rw [sendLoop_diverges sb sl (by omega) fuel 0 hw (by decide)] at h
    cases h

theorem recvLoop_some {fuel : Nat} {rb : List Nat} {rl : Nat} {hw : State} {rb' : List Nat}
    {hw' : State} (h : recvLoop fuel rb rl 0 hw = some (rb', hw')) :
    rl ≤ 255 ∧ (rb', hw') = received rl 0 rb hw := by
  by_cases hrl : rl ≤ 255
  · rw [recvLoop_eq rl hrl fuel 0 rb hw (by omega)] at h
    split at h
    · simp only [Option.some.injEq] at h
      exact ⟨hrl, by rw [← h]; rfl⟩
    · cases h
  · rw [recvLoop_diverges rl (by omega) fuel 0 rb hw (by decide)] at h
    cases h

theorem sent_fields (sb : List Nat) (n : Nat) :
    ∀ (i : Nat) (hw : State), (sent sb n i hw).spiWrites = hw.spiWrites + n ∧
      (sent sb n i hw).trace = hw.trace ++ sendEvents sb hw.spiReply n i hw.spiWrites ∧
      (sent sb n i hw).busyLine = hw.busyLine ∧ (sent sb n i hw).busyReads = hw.busyReads ∧
      (sent sb n i hw).spiReply = hw.spiReply ∧ (sent sb n i hw).cs = hw.cs ∧
      (sent sb n i hw).rst = hw.rst ∧ (sent sb n i hw).readBuffer = hw.readBuffer ∧
      (sent sb n i hw).garbage = hw.garbage ∧ (sent sb n i hw).locals = hw.locals ∧
      (sent sb n i hw).fatal = hw.fatal ∧ (sent sb n i hw).heapOverflow = hw.heapOverflow ∧
      (sent sb n i hw).commands = hw.commands := by
  induction n with
  | zero => intro i hw; simp [sent, sendEvents]
  | succ k ih =>
    intro i hw
    have h := ih (i + 1) (spiWrite (rd8 sb i) hw).2
    simp only [sent]
    simp only [spiWrite] at h ⊢
    refine ⟨by rw [h.1]; omega, ?_, h.2.2⟩
    rw [h.2.1]
    simp [sendEvents]

theorem received_fields (n : Nat) :
    ∀ (i : Nat) (rb : List Nat) (hw : State),
      (received n i rb hw).1 = recvStores hw.spiReply n i hw.spiWrites rb ∧
      (received n i rb hw).2.spiWrites = hw.spiWrites + n ∧
      (received n i rb hw).2.trace = hw.trace ++ recvEvents hw.spiReply n hw.spiWrites ∧
      (received n i rb hw).2.busyLine = hw.busyLine ∧
      (received n i rb hw).2.busyReads = hw.busyReads ∧
      (received n i rb hw).2.spiReply = hw.spiReply ∧ (received n i rb hw).2.cs = hw.cs ∧
      (received n i rb hw).2.rst = hw.rst ∧
      (received n i rb hw).2.readBuffer = hw.readBuffer ∧
      (received n i rb hw).2.garbage = hw.garbage ∧ (received n i rb hw).2.locals = hw.locals ∧
      (received n i rb hw).2.fatal = hw.fatal ∧
      (received n i rb hw).2.heapOverflow = hw.heapOverflow ∧
      (received n i rb hw).2.commands = hw.commands := by
  induction n with
  | zero => intro i rb hw; simp [received, recvStores, recvEvents]
  | succ k ih =>
    intro i rb hw
    have h := ih (i + 1) (rb.set i (spiWrite 0xff hw).1) (spiWrite 0xff hw).2
    simp only [received]
    simp only [spiWrite] at h ⊢
    refine ⟨by rw [h.1]; rfl, by rw [h.2.1]; omega, ?_, h.2.2.2⟩
    rw [h.2.2.1]
    simp [recvEvents]

end PN5180
namespace PN5180

/-! ## A host command that succeeds -/

/-- Every successful `transceiveCommand`: the frame had at most 255 bytes and
went through as `afterCommandFrame` describes; when a response was asked for,
it had at most 255 bytes and went through as `afterResponseFrame` describes. -/
theorem transceiveCommand_true {fuel : Nat} {sb : List Nat} {sl : Nat}
    {rb : Option (List Nat)} {rl : Nat} {hw : State} {buf : List Nat} {hw' : State}
    (h : transceiveCommand fuel sb sl rb rl hw = some (true, buf, hw')) :
    sl ≤ 255 ∧ ∃ n1 n2 n3, (1 ≤ n1 ∧ n1 ≤ 2001) ∧ (1 ≤ n2 ∧ n2 ≤ 2001) ∧
      (1 ≤ n3 ∧ n3 ≤ 2001) ∧
      ((rb.isNone || rl == 0) = true →
        buf = rb.getD [] ∧ hw' = afterCommandFrame sb sl rl n1 n2 n3 hw) ∧
      ((rb.isNone || rl == 0) = false → rl ≤ 255 ∧ ∃ n4 n5,
        (1 ≤ n4 ∧ n4 ≤ 2001) ∧ (1 ≤ n5 ∧ n5 ≤ 2001) ∧
        (buf, hw') = afterResponseFrame rl (rb.getD []) n4 n5
          (afterCommandFrame sb sl rl n1 n2 n3 hw)) := by
  unfold transceiveCommand at h
  simp only at h
  split at h
  · cases h
  · cases h
  · rename_i hw1 h1
    obtain ⟨n1, a1, b1, e1, -⟩ := waitForBusyState_polled h1
    split at h
    · cases h
    · rename_i hw3 h3
      obtain ⟨hsl, e3⟩ := sendLoop_some h3
      refine ⟨hsl, ?_⟩
      split at h
      · cases h
      · cases h
      · rename_i hw4 h4
        obtain ⟨n2, a2, b2, e4, -⟩ := waitForBusyState_polled h4
        split at h
        · cases h
        · cases h
        · rename_i hw6 h6
          obtain ⟨n3, a3, b3, e6, -⟩ := waitForBusyState_polled h6
          have hframe : hw6 = afterCommandFrame sb sl rl n1 n2 n3 hw := by
            rw [e6, e4, e3, e1]; rfl
          refine ⟨n1, n2, n3, ⟨a1, b1⟩, ⟨a2, b2⟩, ⟨a3, b3⟩, ?_⟩
          split at h
          · rename_i hstop
            simp only [Option.some.injEq, Prod.mk.injEq, true_and] at h
            obtain ⟨rfl, rfl⟩ := h
            exact ⟨fun _ => ⟨rfl, hframe⟩, fun hc => by rw [hstop] at hc; cases hc⟩
          · rename_i hstop
            refine ⟨fun hc => absurd hc hstop, fun _ => ?_⟩
            split at h
            · cases h
            · rename_i buf1 hw8 h8
              obtain ⟨hrl, e8⟩ := recvLoop_some h8
              refine ⟨hrl, ?_⟩
              split at h
              · cases h
              · cases h
              · rename_i hw9 h9
                obtain ⟨n4, a4, b4, e9, -⟩ := waitForBusyState_polled h9
                split at h
                · cases h
                · cases h
                · rename_i hw11 h11
                  obtain ⟨n5, a5, b5, e11, -⟩ := waitForBusyState_polled h11
                  simp only [Option.some.injEq, Prod.mk.injEq, true_and] at h
                  obtain ⟨rfl, rfl⟩ := h
                  refine ⟨n4, n5, ⟨a4, b4⟩, ⟨a5, b5⟩, ?_⟩
                  have e8a : buf1 = (received rl 0 (rb.getD []) (writeCs false hw6)).1 := by
                    rw [← e8]
                  have e8b : hw8 = (received rl 0 (rb.getD []) (writeCs false hw6)).2 := by
                    rw [← e8]
                  rw [e11, e9, e8a, e8b, hframe]
                  rfl

/-- With a frame of 256 bytes or more `transceiveCommand` returns only when
the first wait for BUSY low times out; once chip-select is low it never
returns. -/
theorem transceiveCommand_long_frame (fuel : Nat) (sb : List Nat) (sl : Nat) (hsl : 256 ≤ sl)
    (rb : Option (List Nat)) (rl : Nat) (hw : State) :
    transceiveCommand fuel sb sl rb rl hw
      = (waitForBusyState fuel LOW hw).bind
          (fun r => if r.1 then none else some (false, rb.getD [], r.2)) := by
  unfold transceiveCommand
  simp only
  cases hwait : waitForBusyState fuel LOW hw with
  | none => rfl
  | some r =>
    obtain ⟨b, hw1⟩ := r
    cases b with
    | false => rfl
    | true =>
      simp only [Option.some_bind, if_true]
      rw [sendLoop_diverges sb sl hsl fuel 0 _ (by decide)]

/-- With a response of 256 bytes or more `transceiveCommand` never returns
success. -/
theorem transceiveCommand_long_response {fuel : Nat} {sb : List Nat} {sl : Nat}
    {rb0 : List Nat} {rl : Nat} (hrl : 256 ≤ rl) {hw : State} {b : Bool} {buf : List Nat}
    {hw' : State} (h : transceiveCommand fuel sb sl (some rb0) rl hw = some (b, buf, hw')) :
    b = false := by
  cases b with
  | false => rfl
  | true =>
    obtain ⟨-, n1, n2, n3, -, -, -, -, hrecv⟩ := transceiveCommand_true h
    have hstop : ((some rb0).isNone || rl == 0) = false := by
      have : rl ≠ 0 := by omega
      simp [this]
    have := (hrecv hstop).1
    omega

end PN5180

namespace PN5180

open PN5180ISO15693

/-! ## Registers: state decoding, round trip, IRQ clear -/

theorem transceive_state_bits (v : Nat) : (v >>> 24 &&& 0x07) % 256 = v / 2 ^ 24 % 8 := by
  rw [Nat.shiftRight_eq_div_pow, show (7 : Nat) = 2 ^ 3 - 1 by rfl,
    Nat.and_pow_two_sub_one_eq_mod]
  omega

/-- `getTransceiveState` is one register read followed by the decoding. -/
theorem getTransceiveState_eq (fuel : Nat) (hw : State) :
    getTransceiveState fuel hw
      = (readRegister fuel RF_STATUS (declareLocal32 hw).1 (declareLocal32 hw).2).map
          (fun r => (if r.1 then r.2.1 / 2 ^ 24 % 8 else 0, r.2.2)) := by
  unfold getTransceiveState
  simp only
  cases readRegister fuel RF_STATUS (declareLocal32 hw).1 (declareLocal32 hw).2 with
  | none => rfl
  | some r =>
    obtain ⟨ok, v, hw1⟩ := r
    cases ok with
    | false => rfl
    | true =>
      simp only [Option.map_some', if_true]
      rw [transceive_state_bits]

/-- C12: when the read of `RF_STATUS` inside `getTransceiveState` yields the
32-bit value `v`, the result is the state with code `(v >> 24) & 7`, that is
`v / 2^24 mod 8`: one of the eight enumerators, determined by bits 24 to 26;
0x02000000 gives `PN5180_TS_Transmitting` and 0 gives `PN5180_TS_Idle`. When
the read fails the result is `PN5180_TS_Idle`. No bus action follows the read. -/
theorem getTransceiveState_decodes (fuel : Nat) (hw : State) (ok : Bool) (v : Nat)
    (h : (readRegister fuel RF_STATUS (declareLocal32 hw).1 (declareLocal32 hw).2).map
      (fun r => (r.1, r.2.1)) = some (ok, v)) :
    (getTransceiveState fuel hw).map (fun r => r.1)
        = some (if ok then (v >>> 24) &&& 0x07 else PN5180_TS_Idle) ∧
      (v >>> 24) &&& 0x07 = v / 2 ^ 24 % 8 ∧
      (if ok then (v >>> 24) &&& 0x07 else PN5180_TS_Idle) ∈ transceiveStates ∧
      (ok = true → v = 0x02000000 →
        (getTransceiveState fuel hw).map (fun r => r.1) = some PN5180_TS_Transmitting) ∧
      (ok = true → v = 0x00000000 →
        (getTransceiveState fuel hw).map (fun r => r.1) = some PN5180_TS_Idle) ∧
      (ok = false → (getTransceiveState fuel hw).map (fun r => r.1) = some PN5180_TS_Idle) ∧
      (getTransceiveState fuel hw).map (fun r => r.2)
        = (readRegister fuel RF_STATUS (declareLocal32 hw).1 (declareLocal32 hw).2).map
            (fun r => r.2.2) := by
  have hbits : (v >>> 24) &&& 0x07 = v / 2 ^ 24 % 8 := by
    have h1 := transceive_state_bits v
    have h2 : v / 2 ^ 24 % 8 < 256 := by omega
    have h3 : (v >>> 24 &&& 0x07) ≤ 7 := Nat.and_le_right
    rw [Nat.mod_eq_of_lt (by omega)] at h1
    exact h1
  rw [getTransceiveState_eq]
  cases hr : readRegister fuel RF_STATUS (declareLocal32 hw).1 (declareLocal32 hw).2 with
  | none => rw [hr] at h; simp at h
  | some r =>
    obtain ⟨ok1, v1, hw1⟩ := r
    rw [hr] at h
    simp only [Option.map_some', Option.some.injEq, Prod.mk.injEq] at h
    obtain ⟨rfl, rfl⟩ := h
    simp only [Option.map_some', hbits]
    refine ⟨by cases ok1 <;> rfl, trivial, ?_, ?_, ?_, ?_, trivial⟩
    · cases ok1 with
      | false => simp [transceiveStates]
      | true =>
        simp only [if_true]
        have : v1 / 2 ^ 24 % 8 < 8 := Nat.mod_lt _ (by decide)
        generalize v1 / 2 ^ 24 % 8 = s at this
        interval_cases s <;> decide
    · intro hok hv; subst hok; subst hv; rfl
    · intro hok hv; subst hok; subst hv; rfl
    · intro hok; subst hok; rfl

/-- C12 witness: a chip that answers the read of `RF_STATUS` with the bytes
00 00 00 02, the value 0x02000000. -/
theorem getTransceiveState_decodes_witness :
    (getTransceiveState 300 (chipAtRest [0, 0, 0, 0, 0, 0x02] [])).map (fun r => r.1)
      = some PN5180_TS_Transmitting :=
  (getTransceiveState_decodes 300 (chipAtRest [0, 0, 0, 0, 0, 0x02] []) true 0x02000000
    (by decide)).2.2.2.1 rfl rfl

end PN5180
namespace PN5180

open PN5180ISO15693

theorem afterCommandFrame_fields (sb : List Nat) (sl rl n1 n2 n3 : Nat) (hw : State) :
    (afterCommandFrame sb sl rl n1 n2 n3 hw).spiWrites = hw.spiWrites + sl ∧
      (afterCommandFrame sb sl rl n1 n2 n3 hw).spiReply = hw.spiReply ∧
      (afterCommandFrame sb sl rl n1 n2 n3 hw).commands = hw.commands ++ [(sb.take sl, rl)] ∧
      (afterCommandFrame sb sl rl n1 n2 n3 hw).cs = true ∧
      (afterCommandFrame sb sl rl n1 n2 n3 hw).busyReads = hw.busyReads + n1 + n2 + n3 ∧
      (afterCommandFrame sb sl rl n1 n2 n3 hw).busyLine = hw.busyLine ∧
      (afterCommandFrame sb sl rl n1 n2 n3 hw).readBuffer = hw.readBuffer ∧
      (afterCommandFrame sb sl rl n1 n2 n3 hw).garbage = hw.garbage ∧
      (afterCommandFrame sb sl rl n1 n2 n3 hw).locals = hw.locals ∧
      (afterCommandFrame sb sl rl n1 n2 n3 hw).fatal = hw.fatal ∧
      (afterCommandFrame sb sl rl n1 n2 n3 hw).heapOverflow = hw.heapOverflow ∧
      (afterCommandFrame sb sl rl n1 n2 n3 hw).rst = hw.rst := by
  simp [afterCommandFrame, polled_fields, sent_fields, writeCs, polled_busyReads]

theorem afterCommandFrame_trace (sb : List Nat) (sl rl n1 n2 n3 : Nat) (hw : State) :
    (afterCommandFrame sb sl rl n1 n2 n3 hw).trace
      = hw.trace ++ pollEvents hw.busyLine n1 hw.busyReads ++ [Event.csWrite false]
        ++ sendEvents sb hw.spiReply sl 0 hw.spiWrites
        ++ pollEvents hw.busyLine n2 (hw.busyReads + n1) ++ [Event.csWrite true]
        ++ pollEvents hw.busyLine n3 (hw.busyReads + n1 + n2) := by
  simp [afterCommandFrame, polled_fields, sent_fields, writeCs, polled_busyReads, polled_trace]

theorem afterResponseFrame_fields (rl : Nat) (rb : List Nat) (n4 n5 : Nat) (hw : State) :
    (afterResponseFrame rl rb n4 n5 hw).1 = recvStores hw.spiReply rl 0 hw.spiWrites rb ∧
      (afterResponseFrame rl rb n4 n5 hw).2.spiWrites = hw.spiWrites + rl ∧
      (afterResponseFrame rl rb n4 n5 hw).2.spiReply = hw.spiReply ∧
      (afterResponseFrame rl rb n4 n5 hw).2.commands = hw.commands ∧
      (afterResponseFrame rl rb n4 n5 hw).2.cs = true ∧
      (afterResponseFrame rl rb n4 n5 hw).2.busyReads = hw.busyReads + n4 + n5 ∧
      (afterResponseFrame rl rb n4 n5 hw).2.busyLine = hw.busyLine ∧
      (afterResponseFrame rl rb n4 n5 hw).2.readBuffer = hw.readBuffer ∧
      (afterResponseFrame rl rb n4 n5 hw).2.garbage = hw.garbage ∧
      (afterResponseFrame rl rb n4 n5 hw).2.locals = hw.locals ∧
      (afterResponseFrame rl rb n4 n5 hw).2.fatal = hw.fatal ∧
      (afterResponseFrame rl rb n4 n5 hw).2.heapOverflow = hw.heapOverflow ∧
      (afterResponseFrame rl rb n4 n5 hw).2.rst = hw.rst := by
  simp [afterResponseFrame, polled_fields, received_fields, writeCs, polled_busyReads]

theorem afterResponseFrame_trace (rl : Nat) (rb : List Nat) (n4 n5 : Nat) (hw : State) :
    (afterResponseFrame rl rb n4 n5 hw).2.trace
      = hw.trace ++ [Event.csWrite false] ++ recvEvents hw.spiReply rl hw.spiWrites
        ++ pollEvents hw.busyLine n4 hw.busyReads ++ [Event.csWrite true]
        ++ pollEvents hw.busyLine n5 (hw.busyReads + n4) := by
  simp [afterResponseFrame, polled_fields, received_fields, writeCs, polled_busyReads,
    polled_trace]

theorem u32OfBytes_four (b0 b1 b2 b3 : Nat) (h0 : b0 < 256) (h1 : b1 < 256) (h2 : b2 < 256)
    (h3 : b3 < 256) :
    u32OfBytes [b0, b1, b2, b3] = b0 + b1 * 2 ^ 8 + b2 * 2 ^ 16 + b3 * 2 ^ 24 := by
  simp [u32OfBytes, Nat.shiftLeft_eq, Nat.mod_eq_of_lt, h0, h1, h2, h3]

theorem u32OfBytes_bytesOfU32 (v : Nat) (hv : v < 2 ^ 32) : u32OfBytes (bytesOfU32 v) = v := by
  simp only [u32OfBytes, bytesOfU32, Nat.shiftLeft_eq, Nat.shiftRight_eq_div_pow,
    List.getD_cons_zero, List.getD_cons_succ]
  omega

end PN5180
namespace PN5180

open PN5180ISO15693

/-- A successful `writeRegister` is one command frame and nothing else. -/
theorem writeRegister_true {fuel reg value : Nat} {hw hw' : State}
    (h : writeRegister fuel reg value hw = some (true, hw')) :
    ∃ n1 n2 n3, hw' = afterCommandFrame
      [PN5180_WRITE_REGISTER, reg, value % 256, (value >>> 8) % 256, (value >>> 16) % 256,
        (value >>> 24) % 256] 6 0 n1 n2 n3 hw := by
  unfold writeRegister at h
  simp only at h
  split at h
  · cases h
  · rename_i ok buf hw1 h1
    simp only [Option.some.injEq, Prod.mk.injEq] at h
    obtain ⟨rfl, rfl⟩ := h
    obtain ⟨-, n1, n2, n3, -, -, -, hsend, -⟩ := transceiveCommand_true h1
    exact ⟨n1, n2, n3, by simpa [bytesOfU32] using (hsend rfl).2⟩

/-- A successful `readRegister` is one command frame and one response frame of
four bytes, decoded least significant byte first. -/
theorem readRegister_true {fuel reg value : Nat} {hw : State} {v : Nat} {hw' : State}
    (h : readRegister fuel reg value hw = some (true, v, hw')) :
    ∃ n1 n2 n3 n4 n5,
      v = u32OfBytes [hw.spiReply (hw.spiWrites + 2) % 256, hw.spiReply (hw.spiWrites + 3) % 256,
        hw.spiReply (hw.spiWrites + 4) % 256, hw.spiReply (hw.spiWrites + 5) % 256] ∧
      hw' = (afterResponseFrame 4 (bytesOfU32 value) n4 n5
        (afterCommandFrame [PN5180_READ_REGISTER, reg] 2 4 n1 n2 n3 hw)).2 := by
  unfold readRegister at h
  simp only at h
  split at h
  · cases h
  · rename_i ok buf hw1 h1
    simp only [Option.some.injEq, Prod.mk.injEq] at h
    obtain ⟨rfl, rfl, rfl⟩ := h
    obtain ⟨-, n1, n2, n3, -, -, -, -, hrecv⟩ := transceiveCommand_true h1
    obtain ⟨-, n4, n5, -, -, hpair⟩ := hrecv rfl
    simp only [Option.getD_some] at hpair
    have hbuf := congrArg Prod.fst hpair
    have hst := congrArg Prod.snd hpair
    simp only at hbuf hst
    refine ⟨n1, n2, n3, n4, n5, ?_, hst⟩
    rw [hbuf, (afterResponseFrame_fields _ _ _ _ _).1]
    simp [afterCommandFrame_fields, recvStores, bytesOfU32]

/-- C13: when `writeRegister(reg, v)` and then `readRegister(reg)` both succeed
against a chip that answers the four filler bytes of the read with the four
value bytes of the write frame, the value read is `v`. The write frame is
`[0x00, reg, v as 4 bytes least significant first]`; four response bytes
`b0..b3` decode to `b0 + b1*2^8 + b2*2^16 + b3*2^24`; decoding the encoding of
`v` gives `v`. -/
theorem register_round_trip (fuel reg v value0 : Nat) (hw : State) (hv : v < 2 ^ 32)
    (hrun : (writeRegister fuel reg v hw).bind (fun w =>
      (readRegister fuel reg value0 w.2).map (fun r => (w.1, r.1))) = some (true, true))
    (hchip : ∀ i, i < 4 → hw.spiReply (hw.spiWrites + 8 + i) = (bytesOfU32 v).getD i 0) :
    (writeRegister fuel reg v hw).bind (fun w =>
        (readRegister fuel reg value0 w.2).map (fun r => r.2.1)) = some v ∧
      (writeRegister fuel reg v hw).map (fun w => w.2.commands)
        = some (hw.commands ++ [([PN5180_WRITE_REGISTER, reg, v % 256, v / 2 ^ 8 % 256,
            v / 2 ^ 16 % 256, v / 2 ^ 24 % 256], 0)]) ∧
      (∀ b0 b1 b2 b3, b0 < 256 → b1 < 256 → b2 < 256 → b3 < 256 →
        u32OfBytes [b0, b1, b2, b3] = b0 + b1 * 2 ^ 8 + b2 * 2 ^ 16 + b3 * 2 ^ 24) ∧
      u32OfBytes (bytesOfU32 v) = v := by
  cases hwr : writeRegister fuel reg v hw with
  | none => rw [hwr] at hrun; simp at hrun
  | some w =>
    obtain ⟨ok1, hw1⟩ := w
    rw [hwr] at hrun
    simp only [Option.some_bind] at hrun ⊢
    cases hrd : readRegister fuel reg value0 hw1 with
    | none => rw [hrd] at hrun; simp at hrun
    | some r =>
      obtain ⟨ok2, v2, hw2⟩ := r
      rw [hrd] at hrun
      simp only [Option.map_some', Option.some.injEq, Prod.mk.injEq] at hrun
      obtain ⟨rfl, rfl⟩ := hrun
      obtain ⟨n1, n2, n3, rfl⟩ := writeRegister_true hwr
      obtain ⟨m1, m2, m3, m4, m5, hval, -⟩ := readRegister_true hrd
      refine ⟨?_, ?_, fun b0 b1 b2 b3 => u32OfBytes_four b0 b1 b2 b3,
        u32OfBytes_bytesOfU32 v hv⟩
      · simp only [Option.map_some', Option.some.injEq]
        rw [hval]
        simp only [afterCommandFrame_fields]
        have e0 := hchip 0 (by decide)
        have e1 := hchip 1 (by decide)
        have e2 := hchip 2 (by decide)
        have e3 := hchip 3 (by decide)
        rw [show hw.spiWrites + 6 + 2 = hw.spiWrites + 8 + 0 by omega,
          show hw.spiWrites + 6 + 3 = hw.spiWrites + 8 + 1 by omega,
          show hw.spiWrites + 6 + 4 = hw.spiWrites + 8 + 2 by omega,
          show hw.spiWrites + 6 + 5 = hw.spiWrites + 8 + 3 by omega, e0, e1, e2, e3]
        have := u32OfBytes_bytesOfU32 v hv
        simp only [bytesOfU32, List.getD_cons_zero, List.getD_cons_succ, Nat.mod_mod] at this ⊢
        exact this
      · simp only [Option.map_some', afterCommandFrame_fields, Nat.shiftRight_eq_div_pow]
        rfl

/-- C13 witness: 0x12345678 written to `IRQ_ENABLE` and read back from a chip
that returns the bytes 78 56 34 12. -/
theorem register_round_trip_witness :
    (writeRegister 300 IRQ_ENABLE 0x12345678
        (chipAtRest (List.replicate 8 0 ++ [0x78, 0x56, 0x34, 0x12]) [])).bind (fun w =>
        (readRegister 300 IRQ_ENABLE 0 w.2).map (fun r => r.2.1)) = some 0x12345678 :=
  (register_round_trip 300 IRQ_ENABLE 0x12345678 0
    (chipAtRest (List.replicate 8 0 ++ [0x78, 0x56, 0x34, 0x12]) [])
    (by decide) (by decide) (by decide)).1

/-- The mask is taken back out of the frame `clearIRQStatus` sends. -/
theorem irqStatusAfter_clear_frame (s m : Nat) (hm : m < 2 ^ 32) :
    irqStatusAfter s [PN5180_WRITE_REGISTER, IRQ_CLEAR, m % 256, m / 2 ^ 8 % 256,
      m / 2 ^ 16 % 256, m / 2 ^ 24 % 256] = s &&& (0xFFFFFFFF ^^^ m) := by
  have h := u32OfBytes_bytesOfU32 m hm
  simp only [bytesOfU32, Nat.shiftRight_eq_div_pow] at h
  simp only [irqStatusAfter, List.take, List.drop, if_true, h]

/-- C14: `clearIRQStatus(m)` is exactly one call of the transport, write-only,
with the frame `[0x00, 0x03, m as 4 bytes least significant first]`; when it
succeeds that frame is the one command that went over the bus. A chip that
reacts to this frame by turning its IRQ status `s` into `s AND NOT m` keeps
every bit outside `m` and clears every bit of `m`; with receive-end and idle
both set, clearing idle leaves receive-end alone. -/
theorem clearIRQStatus_single_selective_write (fuel m : Nat) (hw : State) (hm : m < 2 ^ 32) :
    clearIRQStatus fuel m hw
        = (transceiveCommand fuel [PN5180_WRITE_REGISTER, IRQ_CLEAR, m % 256, m / 2 ^ 8 % 256,
            m / 2 ^ 16 % 256, m / 2 ^ 24 % 256] 6 none 0 hw).map (fun r => (r.1, r.2.2)) ∧
      (∀ hw', clearIRQStatus fuel m hw = some (true, hw') →
        hw'.commands = hw.commands ++ [([PN5180_WRITE_REGISTER, IRQ_CLEAR, m % 256,
          m / 2 ^ 8 % 256, m / 2 ^ 16 % 256, m / 2 ^ 24 % 256], 0)] ∧
        hw'.spiWrites = hw.spiWrites + 6) ∧
      (∀ s i, i < 32 →
        (irqStatusAfter s [PN5180_WRITE_REGISTER, IRQ_CLEAR, m % 256, m / 2 ^ 8 % 256,
          m / 2 ^ 16 % 256, m / 2 ^ 24 % 256]).testBit i
          = (s.testBit i && !m.testBit i)) ∧
      (m = IDLE_IRQ_STAT →
        irqStatusAfter (RX_IRQ_STAT ||| IDLE_IRQ_STAT) [PN5180_WRITE_REGISTER, IRQ_CLEAR,
          m % 256, m / 2 ^ 8 % 256, m / 2 ^ 16 % 256, m / 2 ^ 24 % 256] = RX_IRQ_STAT) := by
  refine ⟨?_, ?_, ?_, ?_⟩
  · unfold clearIRQStatus writeRegister
    simp only [bytesOfU32, List.getD_cons_zero, List.getD_cons_succ, Nat.shiftRight_eq_div_pow]
    cases transceiveCommand fuel [PN5180_WRITE_REGISTER, IRQ_CLEAR, m % 256, m / 2 ^ 8 % 256,
      m / 2 ^ 16 % 256, m / 2 ^ 24 % 256] 6 none 0 hw with
    | none => rfl
    | some r => rfl
  · intro hw' h
    obtain ⟨n1, n2, n3, rfl⟩ := writeRegister_true h
    simp only [afterCommandFrame_fields, Nat.shiftRight_eq_div_pow]
    exact ⟨rfl, trivial⟩
  · intro s i hi
    rw [irqStatusAfter_clear_frame s m hm, Nat.testBit_and, Nat.testBit_xor,
      show (0xFFFFFFFF : Nat) = 2 ^ 32 - 1 by rfl, Nat.testBit_two_pow_sub_one]
    simp [hi]
  · intro hmask
    subst hmask
    decide

/-- C14 witness: clearing the idle flag alone. -/
theorem clearIRQStatus_single_selective_write_witness :
    irqStatusAfter (RX_IRQ_STAT ||| IDLE_IRQ_STAT) [PN5180_WRITE_REGISTER, IRQ_CLEAR,
        IDLE_IRQ_STAT % 256, IDLE_IRQ_STAT / 2 ^ 8 % 256, IDLE_IRQ_STAT / 2 ^ 16 % 256,
        IDLE_IRQ_STAT / 2 ^ 24 % 256] = RX_IRQ_STAT ∧
      clearIRQStatus 300 IDLE_IRQ_STAT (chipAtRest [] [])
        = (transceiveCommand 300 [PN5180_WRITE_REGISTER, IRQ_CLEAR, IDLE_IRQ_STAT % 256,
            IDLE_IRQ_STAT / 2 ^ 8 % 256, IDLE_IRQ_STAT / 2 ^ 16 % 256,
            IDLE_IRQ_STAT / 2 ^ 24 % 256] 6 none 0 (chipAtRest [] [])).map
            (fun r => (r.1, r.2.2)) :=
  ⟨(clearIRQStatus_single_selective_write 300 IDLE_IRQ_STAT (chipAtRest [] [])
      (by decide)).2.2.2 rfl,
    (clearIRQStatus_single_selective_write 300 IDLE_IRQ_STAT (chipAtRest [] [])
      (by decide)).1⟩

end PN5180

namespace PN5180

open PN5180ISO15693

/-! ## Reading the receive buffer -/

theorem recvStores_length (reply : Nat → Nat) (n : Nat) :
    ∀ (i k : Nat) (rb : List Nat), (recvStores reply n i k rb).length = rb.length := by
  induction n with
  | zero => intro i k rb; rfl
  | succ m ih => intro i k rb; simp [recvStores, ih]

/-- The replies land at their own index: entry `j` of the buffer is reply
number `k + (j - i)` for the indices written and what it was elsewhere. -/
theorem recvStores_getD (reply : Nat → Nat) (n : Nat) :
    ∀ (i k : Nat) (rb : List Nat) (j : Nat),
      (recvStores reply n i k rb).getD j 0
        = if i ≤ j ∧ j < i + n ∧ j < rb.length then reply (k + (j - i)) % 256
          else rb.getD j 0 := by
  induction n with
  | zero =>
    intro i k rb j
    simp only [recvStores]
    rw [if_neg (by omega)]
  | succ m ih =>
    intro i k rb j
    simp only [recvStores]
    rw [ih]
    simp only [List.length_set]
    by_cases hj : j = i
    · subst hj
      rw [if_neg (by omega)]
      by_cases hlen : j < rb.length
      · rw [if_pos ⟨le_refl j, by omega, hlen⟩]
        simp [List.getD_eq_getElem?_getD, List.getElem?_set, hlen]
      · rw [if_neg (by omega)]
        have hnone : rb[j]? = none := List.getElem?_eq_none (by omega)
        simp [List.getD_eq_getElem?_getD, List.getElem?_set, hlen, hnone]
    · by_cases hc : i + 1 ≤ j ∧ j < i + 1 + m ∧ j < rb.length
      · rw [if_pos hc, if_pos ⟨by omega, by omega, hc.2.2⟩]
        congr 2
        omega
      · rw [if_neg hc, if_neg (by omega)]
        simp only [List.getD_eq_getElem?_getD, List.getElem?_set]
        rw [if_neg (fun h => hj h.symm)]

/-- Every return of `readData` with the address of `readBuffer`: the length
was at most 255, the command `[0x0A, 0x00]` went over the bus asking for `len`
bytes, and the replies were stored in `readBuffer` from index 0 on. -/
theorem readData_buffer {fuel len : Nat} {hw hw' : State}
    (h : readData fuel len hw = some (BufPtr.toReadBuffer, hw')) :
    len ≤ 255 ∧ hw'.commands = hw.commands ++ [([PN5180_READ_DATA, 0x00], len)] ∧
      hw'.spiWrites = hw.spiWrites + 2 + len ∧ hw'.spiReply = hw.spiReply ∧
      hw'.readBuffer = recvStores hw.spiReply len 0 (hw.spiWrites + 2) hw.readBuffer := by
  unfold readData at h
  split at h
  · cases h
  · simp only at h
    split at h
    · cases h
    · rename_i ok buf hw1 h1
      cases ok with
      | false => simp at h
      | true =>
        simp only [Bool.not_true, Bool.false_eq_true, if_false, Option.some.injEq,
          Prod.mk.injEq, true_and] at h
        subst h
        obtain ⟨-, n1, n2, n3, -, -, -, hsend, hrecv⟩ := transceiveCommand_true h1
        by_cases hlen : len = 0
        · subst hlen
          obtain ⟨hbuf, hst⟩ := hsend rfl
          subst hbuf
          subst hst
          simp [afterCommandFrame_fields, recvStores]
        · have hstop : ((some hw.readBuffer).isNone || len == 0) = false := by simp [hlen]
          obtain ⟨hrl, n4, n5, -, -, hpair⟩ := hrecv hstop
          have hbuf := congrArg Prod.fst hpair
          have hst := congrArg Prod.snd hpair
          simp only [Option.getD_some] at hbuf hst
          subst hbuf
          subst hst
          simp [afterResponseFrame_fields, afterCommandFrame_fields]
          omega

end PN5180
namespace PN5180

open PN5180ISO15693

/-! ## The handshake on a cooperating BUSY line -/

theorem pollEvents_one (line : Nat → Bool) (k : Nat) :
    pollEvents line 1 k = [Event.busyRead (line k)] := rfl

/-- A wait whose first sample is on target takes that one sample. -/
theorem waitForBusyState_immediate (fuel : Nat) (target : Bool) (hw : State)
    (h : hw.busyLine hw.busyReads = target) :
    waitForBusyState (fuel + 1) target hw = some (true, polled 1 hw) := by
  unfold waitForBusyState
  simp only [waitForBusyStateLoop]
  have hlevel : ((readBusy hw).1 != target) = false := by simp [readBusy, h]
  rw [if_neg (by simp [hlevel])]
  rfl

/-- On a BUSY line that shows low, high, low at the next three samples a frame
of at most 255 bytes goes through at once: one sample, chip-select low, the
bytes in order, one sample, chip-select high, one sample. -/
theorem transceiveCommand_cooperating_send (fuel : Nat) (sb : List Nat) (sl : Nat)
    (rb : Option (List Nat)) (rl : Nat) (hw : State) (hsl : sl ≤ 255) (hfuel : sl < fuel)
    (h0 : hw.busyLine hw.busyReads = LOW) (h1 : hw.busyLine (hw.busyReads + 1) = HIGH)
    (h2 : hw.busyLine (hw.busyReads + 2) = LOW) (hstop : (rb.isNone || rl == 0) = true) :
    transceiveCommand fuel sb sl rb rl hw
      = some (true, rb.getD [], afterCommandFrame sb sl rl 1 1 1 hw) := by
  obtain ⟨m, rfl⟩ : ∃ m, fuel = m + 1 := ⟨fuel - 1, by omega⟩
  unfold transceiveCommand
  simp only
  rw [waitForBusyState_immediate m LOW hw h0]
  simp only
  rw [sendLoop_eq sb sl hsl (m + 1) 0 _ (by omega), if_pos (by omega)]
  simp only [Nat.sub_zero]
  rw [waitForBusyState_immediate m HIGH _ (by
    simpa [sent_fields, writeCs, polled_fields, polled_busyReads] using h1)]
  simp only
  rw [waitForBusyState_immediate m LOW _ (by
    simpa [sent_fields, writeCs, polled_fields, polled_busyReads] using h2)]
  simp only [hstop, if_true]
  rfl

/-- On a BUSY line that shows low, high, low, high, low at the next five
samples a frame of at most 255 bytes and a response of 1 to 255 bytes go
through at once, the response as a second chip-select window. -/
theorem transceiveCommand_cooperating_recv (fuel : Nat) (sb : List Nat) (sl : Nat)
    (rb : List Nat) (rl : Nat) (hw : State) (hsl : sl ≤ 255) (hfuel : sl < fuel)
    (hrl0 : 1 ≤ rl) (hrl : rl ≤ 255) (hfuel' : rl < fuel)
    (h0 : hw.busyLine hw.busyReads = LOW) (h1 : hw.busyLine (hw.busyReads + 1) = HIGH)
    (h2 : hw.busyLine (hw.busyReads + 2) = LOW) (h3 : hw.busyLine (hw.busyReads + 3) = HIGH)
    (h4 : hw.busyLine (hw.busyReads + 4) = LOW) :
    transceiveCommand fuel sb sl (some rb) rl hw
      = some (true, afterResponseFrame rl rb 1 1 (afterCommandFrame sb sl rl 1 1 1 hw)) := by
  obtain ⟨m, rfl⟩ : ∃ m, fuel = m + 1 := ⟨fuel - 1, by omega⟩
  have hstop : ((some rb).isNone || rl == 0) = false := by
    have : rl ≠ 0 := by omega
    simp [this]
  unfold transceiveCommand
  simp only
  rw [waitForBusyState_immediate m LOW hw h0]
  simp only
  rw [sendLoop_eq sb sl hsl (m + 1) 0 _ (by omega), if_pos (by omega)]
  simp only [Nat.sub_zero]
  rw [waitForBusyState_immediate m HIGH _ (by
    simpa [sent_fields, writeCs, polled_fields, polled_busyReads] using h1)]
  simp only
  rw [waitForBusyState_immediate m LOW _ (by
    simpa [sent_fields, writeCs, polled_fields, polled_busyReads] using h2)]
  simp only [hstop, Bool.false_eq_true, if_false, Option.getD_some]
  rw [recvLoop_eq rl hrl (m + 1) 0 _ _ (by omega), if_pos (by omega)]
  simp only [Nat.sub_zero]
  rw [waitForBusyState_immediate m HIGH _ (by
    simpa [received_fields, sent_fields, writeCs, polled_fields, polled_busyReads] using h3)]
  simp only
  rw [waitForBusyState_immediate m LOW _ (by
    simpa [received_fields, sent_fields, writeCs, polled_fields, polled_busyReads] using h4)]
  rfl

end PN5180
namespace PN5180

/-- The trace of a write-only command of at most 255 bytes on a cooperating
BUSY line: wait, chip-select low, the bytes in order, wait, chip-select high,
wait. -/
theorem transceiveCommand_handshake_send (fuel : Nat) (sb : List Nat) (sl : Nat)
    (rb : Option (List Nat)) (rl : Nat) (hw : State) (hsl : sl ≤ 255) (hfuel : sl < fuel)
    (h0 : hw.busyLine hw.busyReads = LOW) (h1 : hw.busyLine (hw.busyReads + 1) = HIGH)
    (h2 : hw.busyLine (hw.busyReads + 2) = LOW) (hstop : (rb.isNone || rl == 0) = true) :
    ∃ hw', transceiveCommand fuel sb sl rb rl hw = some (true, rb.getD [], hw') ∧
      hw'.trace = hw.trace ++ [Event.busyRead LOW, Event.csWrite false]
        ++ sendEvents sb hw.spiReply sl 0 hw.spiWrites
        ++ [Event.busyRead HIGH, Event.csWrite true, Event.busyRead LOW] := by
  refine ⟨_, transceiveCommand_cooperating_send fuel sb sl rb rl hw hsl hfuel h0 h1 h2 hstop, ?_⟩
  rw [afterCommandFrame_trace]
  simp [pollEvents_one, h0, h1, h2]

/-- The trace and the buffer of a command of at most 255 bytes with a response
of 1 to 255 bytes on a cooperating BUSY line: the write-only trace followed by
one more chip-select window with the filler bytes, reply `i` stored at index
`i`. -/
theorem transceiveCommand_handshake_recv (fuel : Nat) (sb : List Nat) (sl : Nat)
    (rb : List Nat) (rl : Nat) (hw : State) (hsl : sl ≤ 255) (hfuel : sl < fuel)
    (hrl0 : 1 ≤ rl) (hrl : rl ≤ 255) (hfuel' : rl < fuel)
    (h0 : hw.busyLine hw.busyReads = LOW) (h1 : hw.busyLine (hw.busyReads + 1) = HIGH)
    (h2 : hw.busyLine (hw.busyReads + 2) = LOW) (h3 : hw.busyLine (hw.busyReads + 3) = HIGH)
    (h4 : hw.busyLine (hw.busyReads + 4) = LOW) :
    ∃ hw', transceiveCommand fuel sb sl (some rb) rl hw
        = some (true, recvStores hw.spiReply rl 0 (hw.spiWrites + sl) rb, hw') ∧
      hw'.trace = hw.trace ++ [Event.busyRead LOW, Event.csWrite false]
        ++ sendEvents sb hw.spiReply sl 0 hw.spiWrites
        ++ [Event.busyRead HIGH, Event.csWrite true, Event.busyRead LOW]
        ++ [Event.csWrite false] ++ recvEvents hw.spiReply rl (hw.spiWrites + sl)
        ++ [Event.busyRead HIGH, Event.csWrite true, Event.busyRead LOW] := by
  refine ⟨(afterResponseFrame rl rb 1 1 (afterCommandFrame sb sl rl 1 1 1 hw)).2, ?_, ?_⟩
  · rw [transceiveCommand_cooperating_recv fuel sb sl rb rl hw hsl hfuel hrl0 hrl hfuel'
      h0 h1 h2 h3 h4]
    have e := (afterResponseFrame_fields rl rb 1 1 (afterCommandFrame sb sl rl 1 1 1 hw)).1
    rw [(afterCommandFrame_fields sb sl rl 1 1 1 hw).1,
      (afterCommandFrame_fields sb sl rl 1 1 1 hw).2.1] at e
    rw [← e]
  · rw [afterResponseFrame_trace, afterCommandFrame_trace]
    simp [pollEvents_one, afterCommandFrame_fields, h0, h1, h2, h3, h4,
      show hw.busyReads + 1 + 1 + 1 = hw.busyReads + 3 by omega,
      show hw.busyReads + 3 + 1 = hw.busyReads + 4 by omega]

end PN5180
namespace PN5180

open PN5180ISO15693

/-! ## Frames and responses of 256 bytes or more -/

/-- A frame of 256 bytes or more started on a BUSY line that is low never
comes back. -/
theorem transceiveCommand_long_frame_hangs (fuel : Nat) (sb : List Nat) (sl : Nat)
    (hsl : 256 ≤ sl) (rb : Option (List Nat)) (rl : Nat) (hw : State)
    (hbusy : hw.busyLine hw.busyReads = LOW) :
    transceiveCommand fuel sb sl rb rl hw = none := by
  rw [transceiveCommand_long_frame fuel sb sl hsl rb rl hw]
  cases fuel with
  | zero => rfl
  | succ m =>
    rw [waitForBusyState_immediate m LOW hw hbusy]
    rfl

/-- A response of 256 bytes or more asked for on a cooperating BUSY line never
comes back. -/
theorem transceiveCommand_long_response_hangs (fuel : Nat) (sb : List Nat) (sl : Nat)
    (hsl : sl ≤ 255) (rb : List Nat) (rl : Nat) (hrl : 256 ≤ rl) (hw : State)
    (h0 : hw.busyLine hw.busyReads = LOW) (h1 : hw.busyLine (hw.busyReads + 1) = HIGH)
    (h2 : hw.busyLine (hw.busyReads + 2) = LOW) :
    transceiveCommand fuel sb sl (some rb) rl hw = none := by
  have hstop : ((some rb).isNone || rl == 0) = false := by
    have : rl ≠ 0 := by omega
    simp [this]
  cases fuel with
  | zero => rfl
  | succ m =>
    unfold transceiveCommand
    simp only
    rw [waitForBusyState_immediate m LOW hw h0]
    simp only
    rw [sendLoop_eq sb sl hsl (m + 1) 0 _ (by omega)]
    simp only [Nat.sub_zero]
    by_cases hf : sl < m + 1
    · rw [if_pos hf]
      simp only
      rw [waitForBusyState_immediate m HIGH _ (by
        simpa [sent_fields, writeCs, polled_fields, polled_busyReads] using h1)]
      simp only
      rw [waitForBusyState_immediate m LOW _ (by
        simpa [sent_fields, writeCs, polled_fields, polled_busyReads] using h2)]
      simp only [hstop, Bool.false_eq_true, if_false]
      rw [recvLoop_diverges rl hrl (m + 1) 0 _ _ (by decide)]
    · rw [if_neg hf]

/-- How `sendData` continues after its prelude. -/
theorem sendData_eq (fuel : Nat) (data : List Nat) (len validBits : Nat) (hw : State) :
    sendData fuel data len validBits hw
      = (sendDataPrelude fuel hw).bind (fun s =>
          if PN5180_TS_WaitTransmit != s.1 then some (false, s.2)
          else (transceiveCommand fuel
            ([PN5180_SEND_DATA, validBits] ++ (List.range len).map (fun i => rd8 data i))
            (len + 2) none 0 s.2).map (fun r => (r.1, r.2.2))) := by
  unfold sendData sendDataPrelude
  simp only
  cases writeRegisterWithAndMask fuel SYSTEM_CONFIG 0xfffffff8 hw with
  | none => rfl
  | some a =>
    simp only [Option.some_bind]
    cases writeRegisterWithOrMask fuel SYSTEM_CONFIG 0x00000003 a.2 with
    | none => rfl
    | some o =>
      simp only [Option.some_bind]
      cases getTransceiveState fuel o.2 with
      | none => rfl
      | some s =>
        simp only [Option.some_bind]
        split
        · rfl
        · cases transceiveCommand fuel
            ([PN5180_SEND_DATA, validBits] ++ (List.range len).map (fun i => rd8 data i))
            (len + 2) none 0 s.2 with
          | none => rfl
          | some r => rfl

/-- C17 (code at the failing input): a write-only command with a send frame of
256 bytes on a BUSY line that is low at entry never returns, whatever the
fuel: there is no success and no finished trace. -/
theorem transceiveCommand_256_byte_frame_never_returns :
    ∀ fuel, transceiveCommand fuel (List.replicate 256 0xAB) 256 none 0 (chipAtRest [] [])
      = none :=
  fun fuel => transceiveCommand_long_frame_hangs fuel (List.replicate 256 0xAB) 256
    (by decide) none 0 (chipAtRest [] []) (by decide)

/-- C18 (code at the failing input): `sendData` with a payload of 254 or 255
bytes (`len` is a `uint8_t`, so 255 is the longest payload that can be passed)
builds a frame of 256 or 257 bytes. For every chip and every fuel the call
does not return `true`; when the prelude finds the transceiver in
`WaitTransmit` and BUSY goes low for the Send-Data frame, the call never
returns at all. -/
theorem sendData_long_payload_never_returns (fuel : Nat) (data : List Nat)
    (len validBits : Nat) (hw : State) (hlen : 254 ≤ len) (hlen' : len ≤ 255) :
    (∀ hw', sendData fuel data len validBits hw ≠ some (true, hw')) ∧
      ((sendDataPrelude fuel hw).bind (fun s =>
          (waitForBusyState fuel LOW s.2).map (fun w => (s.1, w.1)))
            = some (PN5180_TS_WaitTransmit, true) →
        sendData fuel data len validBits hw = none) := by
  rw [sendData_eq]
  cases hp : sendDataPrelude fuel hw with
  | none => exact ⟨fun hw' h => (by cases h), fun _ => rfl⟩
  | some s =>
    obtain ⟨st, hw3⟩ := s
    simp only [Option.some_bind]
    rw [transceiveCommand_long_frame fuel _ (len + 2) (by omega) none 0 hw3]
    cases hwait : waitForBusyState fuel LOW hw3 with
    | none =>
      refine ⟨fun hw' h => ?_, fun hpre => (by simp at hpre)⟩
      split at h <;> simp at h
    | some w =>
      obtain ⟨b, hw4⟩ := w
      simp only [Option.some_bind, Option.map_some', Option.some.injEq, Prod.mk.injEq]
      refine ⟨fun hw' h => ?_, fun hpre => ?_⟩
      · cases b with
        | false => split at h <;> simp at h
        | true => split at h <;> simp at h
      · obtain ⟨rfl, rfl⟩ := hpre
        rw [if_neg (by decide)]
        rfl

/-- C18 witness: a payload of 254 bytes handed to a chip that reports
`WaitTransmit`. -/
theorem sendData_long_payload_never_returns_witness :
    sendData 300 (List.replicate 254 0x5A) 254 0 (chipAtRest (List.replicate 17 0 ++ [1]) [])
      = none :=
  (sendData_long_payload_never_returns 300 (List.replicate 254 0x5A) 254 0
    (chipAtRest (List.replicate 17 0 ++ [1]) []) (by decide) (by decide)).2 (by decide)

/-- C19 (code at the failing input): `readData(256)` on a cooperating BUSY
line sends `[0x0A, 0x00]`, opens the response window and never returns,
whatever the fuel. -/
theorem readData_256_never_returns :
    ∀ fuel, readData fuel 256 (chipAtRest [] (List.replicate 508 0)) = none := by
  intro fuel
  unfold readData
  rw [if_neg (by decide)]
  simp only
  rw [transceiveCommand_long_response_hangs fuel [PN5180_READ_DATA, 0x00] 2 (by decide)
    _ 256 (by decide) _ (by decide) (by decide) (by decide)]

end PN5180

namespace PN5180ISO15693

open PN5180

/-! ## The no-card outcome and dropped failures -/

theorem option_eq_some_getD {α : Type} (o : Option α) (d : α) (h : o.isSome = true) :
    o = some (o.getD d) := by
  cases o with
  | none => cases h
  | some x => rfl

theorem option_eq_some_pair {α β : Type} (o : Option (α × β)) (a : α) (d : α × β)
    (h : o.map (fun x => x.1) = some a) : o = some (a, (o.getD d).2) := by
  cases o with
  | none => cases h
  | some x =>
    simp only [Option.map_some', Option.some.injEq] at h
    subst h
    rfl

theorem option_eq_some_triple {α β γ : Type} (o : Option (α × β × γ)) (a : α) (b : β)
    (d : α × β × γ) (h : o.map (fun x => (x.1, x.2.1)) = some (a, b)) :
    o = some (a, b, (o.getD d).2.2) := by
  cases o with
  | none => cases h
  | some x =>
    simp only [Option.map_some', Option.some.injEq, Prod.mk.injEq] at h
    obtain ⟨rfl, rfl⟩ := h
    rfl

theorem rx_length_fits (rxStatus : Nat) : (rxStatus &&& 0x000001ff) % 65536 = rxStatus &&& 0x1FF := by
  have : rxStatus &&& 0x1FF ≤ 0x1FF := Nat.and_le_right
  exact Nat.mod_eq_of_lt (by omega)

/-- The command log only grows. -/
theorem extendsLog :
    StepInv (fun _ => True) (fun a b => ∃ rest, b.commands = a.commands ++ rest) where
  refl := fun _ => ⟨[], by simp⟩
  trans := fun _ _ _ h1 h2 => by
    obtain ⟨r1, e1⟩ := h1
    obtain ⟨r2, e2⟩ := h2
    exact ⟨r1 ++ r2, by rw [e2, e1, List.append_assoc]⟩
  busy := fun _ => ⟨[], by simp [readBusy]⟩
  cs := fun _ _ => ⟨[], by simp [writeCs]⟩
  spi := fun _ _ => ⟨[], by simp [spiWrite]⟩
  log := fun _ c _ => ⟨[c], rfl⟩
  decl := fun _ => ⟨[], by simp [declareLocal32]⟩

/-- C20: after the transmit step and the first IRQ poll, `issueISO15693Command`
returns `EC_NO_CARD` in the very state the poll left when bit 14 (start of
frame) is clear, so nothing else goes over the bus. When it is set, the
`RX_STATUS` value `rxStatus` is read and every return of the function goes
through `readData(rxStatus & 0x1FF)`: the pointer handed back is the one that
call returned and the command log continues the log that call left, which
after a successful `readData` ends with the Read-Data command of that length.
When the IRQ status read again after a successful `readData` has bit 14 clear,
the result is `EC_NO_CARD` as well, after the clearing of the TX and idle
flags. -/
theorem no_card_outcome (fuel : Nat) (cmd : List Nat) (cmdLen : Nat) (hw : State) (b : Bool)
    (hw1 : State) (irq : Nat) (hw2 : State)
    (hsend : sendData fuel cmd cmdLen 0 hw = some (b, hw1))
    (hpoll : getIRQStatus fuel hw1 = some (irq, hw2)) :
    (irq &&& RX_SOF_DET_IRQ_STAT = 0 →
        issueISO15693Command fuel cmd cmdLen hw
          = some (EC_NO_CARD, BufPtr.indeterminate, hw2)) ∧
      (irq &&& RX_SOF_DET_IRQ_STAT ≠ 0 → ∀ ok rxStatus hw4,
        readRegister fuel RX_STATUS (declareLocal32 hw2).1 (declareLocal32 hw2).2
          = some (ok, rxStatus, hw4) →
        (∀ rc p hw', issueISO15693Command fuel cmd cmdLen hw = some (rc, p, hw') →
          ∃ hw5, readData fuel (rxStatus &&& 0x1FF) hw4 = some (p, hw5) ∧
            ∃ rest, hw'.commands = hw5.commands ++ rest) ∧
        ∀ p hw5, readData fuel (rxStatus &&& 0x1FF) hw4 = some (p, hw5) →
          (p = BufPtr.toReadBuffer →
            hw5.commands = hw4.commands ++ [([PN5180_READ_DATA, 0x00], rxStatus &&& 0x1FF)]) ∧
          (p = BufPtr.toReadBuffer → ∀ irq2 hw6, getIRQStatus fuel hw5 = some (irq2, hw6) →
            irq2 &&& RX_SOF_DET_IRQ_STAT = 0 →
            ∀ b7 hw7, clearIRQStatus fuel (TX_IRQ_STAT ||| IDLE_IRQ_STAT) hw6 = some (b7, hw7) →
              issueISO15693Command fuel cmd cmdLen hw
                = some (EC_NO_CARD, BufPtr.toReadBuffer, hw7))) := by
  constructor
  · intro hsof
    unfold issueISO15693Command
    simp only [hsend, hpoll, hsof]
    rfl
  · intro hsof ok rxStatus hw4 hrx
    have hne : (0 == (irq &&& RX_SOF_DET_IRQ_STAT)) = false := by
      simp only [beq_eq_false_iff_ne, ne_eq]
      exact fun h => hsof h.symm
    refine ⟨fun rc p hw' h => ?_, fun p hw5 hrd =>
      ⟨fun hp => ?_, fun hp irq2 hw6 hpoll2 hsof2 b7 hw7 hclr => ?_⟩⟩
    · unfold issueISO15693Command at h
      simp only [hsend, hpoll, hne, Bool.false_eq_true, if_false, hrx, rx_length_fits] at h
      cases hrd : readData fuel (rxStatus &&& 0x1FF) hw4 with
      | none => rw [hrd] at h; cases h
      | some d =>
        obtain ⟨q, hw5⟩ := d
        rw [hrd] at h
        simp only at h
        split at h
        · simp only [Option.some.injEq, Prod.mk.injEq] at h
          obtain ⟨-, rfl, rfl⟩ := h
          exact ⟨_, rfl, [], by simp⟩
        · cases hp2 : getIRQStatus fuel hw5 with
          | none => rw [hp2] at h; cases h
          | some g =>
            obtain ⟨irq2, hw6⟩ := g
            have h56 := getIRQStatus_inv extendsLog trivial hp2
            rw [hp2] at h
            simp only at h
            split at h
            · cases hc : clearIRQStatus fuel (TX_IRQ_STAT ||| IDLE_IRQ_STAT) hw6 with
              | none => rw [hc] at h; cases h
              | some c =>
                obtain ⟨b7, hw7⟩ := c
                have h67 := clearIRQStatus_inv extendsLog trivial hc
                rw [hc] at h
                simp only [Option.some.injEq, Prod.mk.injEq] at h
                obtain ⟨-, rfl, rfl⟩ := h
                exact ⟨_, rfl, extendsLog.trans _ _ _ h56 h67⟩
            · split at h
              · split at h
                · simp only [Option.some.injEq, Prod.mk.injEq] at h
                  obtain ⟨-, rfl, rfl⟩ := h
                  exact ⟨_, rfl, h56⟩
                · simp only [Option.some.injEq, Prod.mk.injEq] at h
                  obtain ⟨-, rfl, rfl⟩ := h
                  exact ⟨_, rfl, h56⟩
              · split at h
                · cases h
                · rename_i b7 hw7 hc
                  have h67 := clearIRQStatus_inv extendsLog trivial hc
                  simp only [Option.some.injEq, Prod.mk.injEq] at h
                  obtain ⟨-, rfl, rfl⟩ := h
                  exact ⟨_, rfl, extendsLog.trans _ _ _ h56 h67⟩
    · subst hp
      exact (readData_buffer hrd).2.1
    · subst hp
      have hsof2' : (0 == (RX_SOF_DET_IRQ_STAT &&& irq2)) = true := by
        rw [Nat.land_comm, hsof2]
        rfl
      unfold issueISO15693Command
      simp only [hsend, hpoll, hne, Bool.false_eq_true, if_false, hrx, rx_length_fits, hrd,
        hpoll2, hclr]
      rw [if_neg (by decide), if_pos hsof2']

/-- C20 witness: an inventory that nothing answers. The command log ends with
the Send-Data frame and the one read of `IRQ_STATUS`. -/
theorem no_card_outcome_witness :
    (issueISO15693Command 300 [0x26, 0x01, 0x00] 3 silentTag).map
        (fun x => (x.1, x.2.1, x.2.2.commands))
      = some (EC_NO_CARD, BufPtr.indeterminate,
          [([0x02, 0x00, 0xF8, 0xFF, 0xFF, 0xFF], 0), ([0x01, 0x00, 0x03, 0x00, 0x00, 0x00], 0),
            ([0x04, 0x1D], 4), ([0x09, 0x00, 0x26, 0x01, 0x00], 0), ([0x04, 0x02], 4)]) := by
  rw [(no_card_outcome 300 [0x26, 0x01, 0x00] 3 silentTag
    ((sendData 300 [0x26, 0x01, 0x00] 3 0 silentTag).getD (false, silentTag)).1
    ((sendData 300 [0x26, 0x01, 0x00] 3 0 silentTag).getD (false, silentTag)).2
    ((getIRQStatus 300
      ((sendData 300 [0x26, 0x01, 0x00] 3 0 silentTag).getD (false, silentTag)).2).getD
        (0, silentTag)).1
    ((getIRQStatus 300
      ((sendData 300 [0x26, 0x01, 0x00] 3 0 silentTag).getD (false, silentTag)).2).getD
        (0, silentTag)).2
    (option_eq_some_getD _ (false, silentTag) (by decide))
    (option_eq_some_getD _ (0, silentTag) (by decide))).1 (by decide)]
  decide

end PN5180ISO15693

namespace PN5180

open PN5180ISO15693

/-! ## Waiting for an IRQ flag -/

/-- The loop returns right after the first poll that reports the flag. -/
theorem irqWaitLoop_of_flagAfter (inner flag : Nat) (n : Nat) :
    ∀ (fuel : Nat) (hw hw' : State), irqFlagAfter inner flag n hw = some hw' → n < fuel →
      irqWaitLoop inner fuel flag hw = some hw' := by
  induction n with
  | zero =>
    intro fuel hw hw' h hn
    obtain ⟨m, rfl⟩ : ∃ m, fuel = m + 1 := ⟨fuel - 1, by omega⟩
    simp only [irqFlagAfter] at h
    simp only [irqWaitLoop]
    cases hp : getIRQStatus inner hw with
    | none => rw [hp] at h; cases h
    | some r =>
      obtain ⟨v, hw1⟩ := r
      rw [hp] at h
      simp only at h ⊢
      split at h
      · cases h
      · rename_i hflag
        rw [if_neg hflag]
        exact h
  | succ k ih =>
    intro fuel hw hw' h hn
    obtain ⟨m, rfl⟩ : ∃ m, fuel = m + 1 := ⟨fuel - 1, by omega⟩
    simp only [irqFlagAfter] at h
    simp only [irqWaitLoop]
    cases hp : getIRQStatus inner hw with
    | none => rw [hp] at h; cases h
    | some r =>
      obtain ⟨v, hw1⟩ := r
      rw [hp] at h
      simp only at h ⊢
      split at h
      · rename_i hflag
        rw [if_pos hflag]
        exact ih m hw1 hw' h (by omega)
      · cases h

/-- The loop returns only after a poll that reports the flag. -/
theorem irqWaitLoop_some (inner flag : Nat) (fuel : Nat) :
    ∀ (hw hw' : State), irqWaitLoop inner fuel flag hw = some hw' →
      ∃ n, n < fuel ∧ irqFlagAfter inner flag n hw = some hw' := by
  induction fuel with
  | zero => intro hw hw' h; simp [irqWaitLoop] at h
  | succ m ih =>
    intro hw hw' h
    simp only [irqWaitLoop] at h
    cases hp : getIRQStatus inner hw with
    | none => rw [hp] at h; cases h
    | some r =>
      obtain ⟨v, hw1⟩ := r
      rw [hp] at h
      simp only at h
      split at h
      · rename_i hflag
        obtain ⟨n, hn, hfa⟩ := ih hw1 hw' h
        refine ⟨n + 1, by omega, ?_⟩
        simp only [irqFlagAfter, hp, hflag, if_true]
        exact hfa
      · rename_i hflag
        refine ⟨0, by omega, ?_⟩
        simp only [irqFlagAfter, hp, hflag]
        exact h

theorem irqWaitLoop_isSome_iff (inner flag fuel : Nat) (hw : State) :
    (irqWaitLoop inner fuel flag hw).isSome = true
      ↔ ∃ n, n < fuel ∧ (irqFlagAfter inner flag n hw).isSome = true := by
  constructor
  · intro h
    obtain ⟨hw', hw'eq⟩ := Option.isSome_iff_exists.mp h
    obtain ⟨n, hn, hfa⟩ := irqWaitLoop_some inner flag fuel hw hw' hw'eq
    exact ⟨n, hn, by rw [hfa]; rfl⟩
  · rintro ⟨n, hn, h⟩
    obtain ⟨hw', hw'eq⟩ := Option.isSome_iff_exists.mp h
    rw [irqWaitLoop_of_flagAfter inner flag n fuel hw hw' hw'eq hn]
    rfl

theorem writeRegister_terminates {fuel : Nat} (hfuel : 2001 ≤ fuel) (reg value : Nat)
    (hw : State) : ∃ b hw', writeRegister fuel reg value hw = some (b, hw') := by
  unfold writeRegister
  simp only
  split
  · rename_i hnone
    exact absurd hnone (transceiveCommand_ne_none hfuel (by decide) (by decide))
  · exact ⟨_, _, rfl⟩

theorem getIRQStatus_terminates {fuel : Nat} (hfuel : 2001 ≤ fuel) (hw : State) :
    ∃ v hw', getIRQStatus fuel hw = some (v, hw') := by
  unfold getIRQStatus
  simp only
  split
  · rename_i hnone
    exact absurd hnone (readRegister_ne_none hfuel)
  · exact ⟨_, _, rfl⟩

/-- `setRF_on` and `setRF_off` return exactly when the wait after their command
does. -/
theorem rf_switch_isSome (fuel : Nat) (hfuel : 2001 ≤ fuel) (op flag : Nat) (hw : State) :
    ((match transceiveCommand fuel [op, 0x00] 2 none 0 hw with
      | none => none
      | some (success, _, hw1) =>
        match irqWaitLoop fuel fuel flag hw1 with
        | none => none
        | some hw2 =>
          match clearIRQStatus fuel flag hw2 with
          | none => none
          | some (_, hw3) => some (success, hw3)) : Option (Bool × State)).isSome = true
      ↔ ∃ n, n < fuel ∧ ((transceiveCommand fuel [op, 0x00] 2 none 0 hw).bind
          (fun r => irqFlagAfter fuel flag n r.2.2)).isSome = true := by
  obtain ⟨s, buf, hw1, h1⟩ := transceiveCommand_terminates hfuel [op, 0x00]
    (by decide : 2 ≤ 255) none (by decide : 0 ≤ 255) hw
  rw [h1]
  simp only [Option.some_bind]
  rw [← irqWaitLoop_isSome_iff]
  cases hl : irqWaitLoop fuel fuel flag hw1 with
  | none => simp
  | some hw2 =>
    obtain ⟨b, hw3, h3⟩ := writeRegister_terminates hfuel IRQ_CLEAR flag hw2
    simp only [clearIRQStatus, h3]
    rfl

/-- C16 (amended): with fuel for the bounded busy waits every single IRQ poll
returns, but the number of polls is not bounded. `setRF_on`, `setRF_off` and
`reset` return exactly when some poll reports the awaited flag (bit 9, bit 8,
bit 2), right after the first poll that does; there is no count of polls and
no timeout result. -/
theorem irq_waits_end_only_with_the_flag (fuel : Nat) (hw : State) (hfuel : 2001 ≤ fuel) :
    (∀ hw0 : State, (getIRQStatus fuel hw0).isSome = true) ∧
      ((setRF_on fuel hw).isSome = true ↔ ∃ n, n < fuel ∧
        ((transceiveCommand fuel [PN5180_RF_ON, 0x00] 2 none 0 hw).bind
          (fun r => irqFlagAfter fuel TX_RFON_IRQ_STAT n r.2.2)).isSome = true) ∧
      ((setRF_off fuel hw).isSome = true ↔ ∃ n, n < fuel ∧
        ((transceiveCommand fuel [PN5180_RF_OFF, 0x00] 2 none 0 hw).bind
          (fun r => irqFlagAfter fuel TX_RFOFF_IRQ_STAT n r.2.2)).isSome = true) ∧
      ((reset fuel hw).isSome = true ↔ ∃ n, n < fuel ∧
        (irqFlagAfter fuel IDLE_IRQ_STAT n (writeReset true (writeReset false hw))).isSome
          = true) := by
  refine ⟨?_, ?_, ?_, ?_⟩
  · intro hw0
    obtain ⟨v, hw', h⟩ := getIRQStatus_terminates hfuel hw0
    rw [h]
    rfl
  · exact rf_switch_isSome fuel hfuel PN5180_RF_ON TX_RFON_IRQ_STAT hw
  · exact rf_switch_isSome fuel hfuel PN5180_RF_OFF TX_RFOFF_IRQ_STAT hw
  · rw [← irqWaitLoop_isSome_iff]
    unfold reset
    simp only
    cases hl : irqWaitLoop fuel fuel IDLE_IRQ_STAT (writeReset true (writeReset false hw)) with
    | none => simp
    | some hw3 =>
      obtain ⟨b, hw4, h4⟩ := writeRegister_terminates hfuel IRQ_CLEAR 0xffffffff hw3
      simp only [clearIRQStatus, h4]
      rfl

end PN5180
namespace PN5180

open PN5180ISO15693

/-- C16 witness: a chip that reports the RF-on flag at the second poll. -/
theorem irq_waits_end_only_with_the_flag_witness :
    (setRF_on 2001 (chipAtRest (List.replicate 11 0 ++ [0x02]) [])).isSome = true :=
  (irq_waits_end_only_with_the_flag 2001 (chipAtRest (List.replicate 11 0 ++ [0x02]) [])
    (by decide)).2.1.mpr ⟨1, by decide, by decide⟩

end PN5180
namespace PN5180

open PN5180ISO15693

/-! ## A chip that never raises a flag -/

/-- No bus action changes the reply stream or the content of fresh locals. -/
theorem keepsOracles :
    StepInv (fun _ => True) (fun a b => b.spiReply = a.spiReply ∧ b.garbage = a.garbage) where
  refl := fun _ => ⟨rfl, rfl⟩
  trans := fun _ _ _ h1 h2 => ⟨h2.1.trans h1.1, h2.2.trans h1.2⟩
  busy := fun _ => ⟨rfl, rfl⟩
  cs := fun _ _ => ⟨rfl, rfl⟩
  spi := fun _ _ => ⟨rfl, rfl⟩
  log := fun _ _ _ => ⟨rfl, rfl⟩
  decl := fun _ => ⟨rfl, rfl⟩

/-- Where the buffer that `transceiveCommand` hands back comes from: it is the
buffer passed in, or what the receive loop made of it in a later state. -/
theorem transceiveCommand_buf {P : List Nat × Nat → Prop} {R : State → State → Prop}
    (hR : StepInv P R) {fuel : Nat} {sb : List Nat} {sl : Nat} {rb : Option (List Nat)}
    {rl : Nat} {hw : State} {b : Bool} {buf : List Nat} {hw' : State}
    (hP : P (sb.take sl, rl))
    (h : transceiveCommand fuel sb sl rb rl hw = some (b, buf, hw')) :
    buf = rb.getD [] ∨
      ∃ hwa hwb, R hw hwa ∧ recvLoop fuel (rb.getD []) rl 0 hwa = some (buf, hwb) := by
  unfold transceiveCommand at h
  simp only at h
  split at h
  · cases h
  · cases h; exact Or.inl rfl
  · rename_i hw1 h1
    have e1 := waitForBusyState_inv hR h1
    have e2 := hR.trans _ _ _ (hR.trans _ _ _ e1 (hR.log hw1 (sb.take sl, rl) hP)) (hR.cs false _)
    split at h
    · cases h
    · rename_i hw3 h3
      have e3 := hR.trans _ _ _ e2 (sendLoop_inv hR _ _ _ _ _ _ h3)
      split at h
      · cases h
      · cases h; exact Or.inl rfl
      · rename_i hw4 h4
        have e5 := hR.trans _ _ _ (hR.trans _ _ _ e3 (waitForBusyState_inv hR h4)) (hR.cs true _)
        split at h
        · cases h
        · cases h; exact Or.inl rfl
        · rename_i hw6 h6
          have e6 := hR.trans _ _ _ e5 (waitForBusyState_inv hR h6)
          split at h
          · cases h; exact Or.inl rfl
          · have e7 := hR.trans _ _ _ e6 (hR.cs false _)
            split at h
            · cases h
            · rename_i buf1 hw8 h8
              have hprov : buf1 = rb.getD [] ∨ ∃ hwa hwb, R hw hwa ∧
                  recvLoop fuel (rb.getD []) rl 0 hwa = some (buf1, hwb) :=
                Or.inr ⟨_, _, e7, h8⟩
              split at h
              · cases h
              · cases h; exact hprov
              · split at h
                · cases h
                · cases h; exact hprov
                · cases h; exact hprov

theorem recvLoop_zero (fuel : Nat) :
    ∀ (rb : List Nat) (rl i : Nat) (hw : State) (rb' : List Nat) (hw' : State),
      (∀ k, hw.spiReply k = 0) → (∀ x ∈ rb, x = 0) →
      recvLoop fuel rb rl i hw = some (rb', hw') → ∀ x ∈ rb', x = 0 := by
  induction fuel with
  | zero => intro rb rl i hw rb' hw' _ _ h; simp [recvLoop] at h
  | succ m ih =>
    intro rb rl i hw rb' hw' hz hrb h
    simp only [recvLoop] at h
    split at h
    · refine ih _ _ _ (spiWrite 0xff hw).2 _ _ (fun k => hz k) ?_ h
      intro x hx
      rcases List.mem_or_eq_of_mem_set hx with hx | hx
      · exact hrb x hx
      · rw [hx]
        simp [spiWrite, hz]
    · simp only [Option.some.injEq, Prod.mk.injEq] at h
      rw [← h.1]
      exact hrb

theorem u32OfBytes_zero (bs : List Nat) (h : ∀ x ∈ bs, x = 0) : u32OfBytes bs = 0 := by
  have hg : ∀ i, bs.getD i 0 = 0 := by
    intro i
    rw [List.getD_eq_getElem?_getD]
    cases hi : bs[i]? with
    | none => rfl
    | some x => exact h x (List.getElem?_mem hi)
  simp only [u32OfBytes, hg]
  rfl

/-- Against a chip that clocks out zeros, with zeros in fresh locals, every
IRQ poll reads 0. -/
theorem getIRQStatus_zero {fuel : Nat} {hw : State} {v : Nat} {hw' : State}
    (hz : ∀ k, hw.spiReply k = 0) (hg : ∀ k, hw.garbage k = 0)
    (h : getIRQStatus fuel hw = some (v, hw')) :
    v = 0 ∧ (∀ k, hw'.spiReply k = 0) ∧ (∀ k, hw'.garbage k = 0) := by
  have hkeep := getIRQStatus_inv keepsOracles trivial h
  refine ⟨?_, fun k => by rw [hkeep.1]; exact hz k, fun k => by rw [hkeep.2]; exact hg k⟩
  unfold getIRQStatus readRegister at h
  simp only at h
  split at h
  · cases h
  · rename_i heq
    split at heq
    · cases heq
    · rename_i ok buf hw1 h1
      simp only [Option.some.injEq, Prod.mk.injEq] at heq
      simp only [Option.some.injEq, Prod.mk.injEq] at h
      rw [← h.1, ← heq.2.1]
      apply u32OfBytes_zero
      have hloc : (declareLocal32 hw).1 = 0 := by simp [declareLocal32, hg]
      rw [hloc] at h1
      rcases transceiveCommand_buf keepsOracles trivial h1 with hb | ⟨hwa, hwb, hR, hrecv⟩
      · rw [hb]
        intro x hx
        simp [bytesOfU32] at hx
        exact hx
      · refine recvLoop_zero fuel _ _ _ hwa _ hwb ?_ ?_ hrecv
        · intro k
          rw [hR.1]
          exact hz k
        · intro x hx
          simp [bytesOfU32] at hx
          exact hx

theorem irqWaitLoop_zero (inner flag : Nat) (fuel : Nat) :
    ∀ hw : State, (∀ k, hw.spiReply k = 0) → (∀ k, hw.garbage k = 0) →
      irqWaitLoop inner fuel flag hw = none := by
  induction fuel with
  | zero => intro hw _ _; rfl
  | succ m ih =>
    intro hw hz hg
    simp only [irqWaitLoop]
    cases hp : getIRQStatus inner hw with
    | none => rfl
    | some r =>
      obtain ⟨v, hw1⟩ := r
      obtain ⟨rfl, hz1, hg1⟩ := getIRQStatus_zero hz hg hp
      simp only [Nat.and_zero, beq_self_eq_true, if_true]
      exact ih hw1 hz1 hg1

/-- Against a chip whose IRQ status always reads 0 the three IRQ waits run out
of any fuel. -/
theorem irq_waits_poll_forever (fuel : Nat) :
    setRF_on fuel (chipAtRest [] []) = none ∧ setRF_off fuel (chipAtRest [] []) = none ∧
      reset fuel (chipAtRest [] []) = none := by
  have hz : ∀ k, (chipAtRest [] []).spiReply k = 0 := fun k => by simp [chipAtRest]
  have hg : ∀ k, (chipAtRest [] []).garbage k = 0 := fun k => rfl
  refine ⟨?_, ?_, ?_⟩
  · unfold setRF_on
    simp only
    cases h1 : transceiveCommand fuel [PN5180_RF_ON, 0x00] 2 none 0 (chipAtRest [] []) with
    | none => rfl
    | some r =>
      obtain ⟨s, buf, hw1⟩ := r
      have hk := transceiveCommand_inv keepsOracles trivial h1
      simp only
      rw [irqWaitLoop_zero fuel TX_RFON_IRQ_STAT fuel hw1 (fun k => by rw [hk.1]; exact hz k)
        (fun k => by rw [hk.2]; exact hg k)]
  · unfold setRF_off
    simp only
    cases h1 : transceiveCommand fuel [PN5180_RF_OFF, 0x00] 2 none 0 (chipAtRest [] []) with
    | none => rfl
    | some r =>
      obtain ⟨s, buf, hw1⟩ := r
      have hk := transceiveCommand_inv keepsOracles trivial h1
      simp only
      rw [irqWaitLoop_zero fuel TX_RFOFF_IRQ_STAT fuel hw1 (fun k => by rw [hk.1]; exact hz k)
        (fun k => by rw [hk.2]; exact hg k)]
  · unfold reset
    simp only
    rw [irqWaitLoop_zero fuel IDLE_IRQ_STAT fuel
      (writeReset true (writeReset false (chipAtRest [] []))) (fun k => hz k) (fun k => hg k)]

/-- C16 (as stated) fails: against a chip that never sets a flag `setRF_on`,
`setRF_off` and `reset` return for no amount of fuel; they poll for ever and
report no timeout. -/
theorem irq_waits_never_time_out :
    (fun fuel => setRF_on fuel (chipAtRest [] [])) = (fun _ => none) ∧
      (fun fuel => setRF_off fuel (chipAtRest [] [])) = (fun _ => none) ∧
      (fun fuel => reset fuel (chipAtRest [] [])) = (fun _ => none) :=
  ⟨funext fun fuel => (irq_waits_poll_forever fuel).1,
    funext fun fuel => (irq_waits_poll_forever fuel).2.1,
    funext fun fuel => (irq_waits_poll_forever fuel).2.2⟩

end PN5180

namespace PN5180

open PN5180ISO15693

/-! ## A register read that never reaches the bus -/

theorem polled_eq (n : Nat) (hw : State) :
    polled n hw = { hw with busyReads := hw.busyReads + n
                            trace := hw.trace ++ pollEvents hw.busyLine n hw.busyReads } := by
  have hf := polled_fields n hw
  have hb := polled_busyReads n hw
  have ht := polled_trace n hw
  obtain ⟨h1, h2, h3, h4, h5, h6, h7, h8, h9, h10, h11⟩ := hf
  cases hp : polled n hw
  rw [hp] at h1 h2 h3 h4 h5 h6 h7 h8 h9 h10 h11 hb ht
  simp only at h1 h2 h3 h4 h5 h6 h7 h8 h9 h10 h11 hb ht
  subst h1 h2 h3 h4 h5 h6 h7 h8 h9 h10 h11 hb ht
  rfl

/-- A register read on a BUSY line that stays high for 2001 samples: the
first wait gives up, nothing goes over the bus, the result is `false` and
`value` is what it was. -/
theorem readRegister_busy_timeout {fuel : Nat} (hfuel : 2001 ≤ fuel) (reg value : Nat)
    (hw : State) (hv : value < 2 ^ 32)
    (hstuck : ∀ j, j < 2001 → hw.busyLine (hw.busyReads + j) = true) :
    readRegister fuel reg value hw = some (false, value, polled 2001 hw) := by
  have hwait := waitForBusyState_exact hfuel LOW hw 2001 (by decide) (by decide)
    (fun j hj => by rw [hstuck j (by omega)]; decide) (Or.inr rfl)
  rw [hstuck 2000 (by decide)] at hwait
  unfold readRegister transceiveCommand
  simp only [hwait]
  have : decide (true = LOW) = false := by decide
  simp only [this, Option.getD_some, u32OfBytes_bytesOfU32 value hv]

theorem getIRQStatus_of_readRegister {fuel : Nat} {hw : State} {ok : Bool} {v : Nat}
    {hw' : State}
    (h : readRegister fuel IRQ_STATUS (declareLocal32 hw).1 (declareLocal32 hw).2
      = some (ok, v, hw')) :
    getIRQStatus fuel hw = some (v, hw') := by
  unfold getIRQStatus
  simp only [h]

end PN5180
namespace PN5180ISO15693

open PN5180

/-- The transmit step on `lostPollChip` succeeds after 17 samples of BUSY. -/
theorem lostPoll_sendData :
    sendData 2001 [0x26, 0x01, 0x00] 3 0 lostPollChip = some (true, lostPollSent) :=
  option_eq_some_getD _ (false, lostPollChip) (by decide)

/-- The first read of `IRQ_STATUS` on `lostPollChip` fails after 2001 samples
of BUSY and leaves `0x4000` in the uninitialised local. -/
theorem lostPoll_readRegister :
    readRegister 2001 IRQ_STATUS (declareLocal32 lostPollSent).1 (declareLocal32 lostPollSent).2
      = some (false, 0x4000, polled 2001 (declareLocal32 lostPollSent).2) := by
  have hline : (declareLocal32 lostPollSent).2.busyLine = lostPollChip.busyLine := rfl
  have hreads : (declareLocal32 lostPollSent).2.busyReads = 17 := by decide
  have hval : (declareLocal32 lostPollSent).1 = 0x4000 := by decide
  rw [hval]
  refine readRegister_busy_timeout (le_refl 2001) IRQ_STATUS 0x4000 _ (by decide) ?_
  intro j hj
  rw [hline, hreads]
  have h1 : 17 ≤ 17 + j ∧ 17 + j ≤ 2017 := ⟨by omega, by omega⟩
  simp only [lostPollChip, h1, and_self, if_true]

/-- The failed read is not noticed: the inventory on `lostPollChip` goes on to
read `RX_STATUS` and the two announced bytes and returns `ISO15693_EC_OK`. The
command log has no read of `IRQ_STATUS` between Send-Data and the read of
`RX_STATUS`. -/
theorem lostPoll_issue :
    (issueISO15693Command 2001 [0x26, 0x01, 0x00] 3 lostPollChip).map
        (fun x => (x.1, x.2.2.commands))
      = some (ISO15693_EC_OK,
          [([0x02, 0x00, 0xF8, 0xFF, 0xFF, 0xFF], 0), ([0x01, 0x00, 0x03, 0x00, 0x00, 0x00], 0),
            ([0x04, 0x1D], 4), ([0x09, 0x00, 0x26, 0x01, 0x00], 0), ([0x04, 0x13], 4),
            ([0x0A, 0x00], 2), ([0x04, 0x02], 4), ([0x00, 0x03, 0x07, 0x40, 0x00, 0x00], 0)]) := by
  have hpoll : getIRQStatus 2001 lostPollSent
      = some (0x4000, { (declareLocal32 lostPollSent).2 with
          busyReads := (declareLocal32 lostPollSent).2.busyReads + 2001
          trace := (declareLocal32 lostPollSent).2.trace
            ++ pollEvents (declareLocal32 lostPollSent).2.busyLine 2001
                (declareLocal32 lostPollSent).2.busyReads }) := by
    rw [← polled_eq]
    exact getIRQStatus_of_readRegister lostPoll_readRegister
  unfold issueISO15693Command
  rw [lostPoll_sendData]
  simp only []
  rw [hpoll]
  decide

/-- C11 (code at two failing inputs). First, the transceiver reports `Idle`, so
`sendData` returns `false` without sending the command, while the IRQ status
still shows start of frame: `issueISO15693Command` goes on to read `RX_STATUS`,
issues Read-Data and returns `ISO15693_EC_OK`, and so does `getInventory`.
Second, on `lostPollChip` the transmit step succeeds and the register read
inside the first `getIRQStatus` fails on the BUSY wait, leaving the local at
`0x4000`: `issueISO15693Command` again reads `RX_STATUS`, issues Read-Data and
returns `ISO15693_EC_OK`. -/
theorem issueISO15693Command_ignores_transport_failures :
    ((sendData 300 [0x26, 0x01, 0x00] 3 0
          (chipAtRest staleFrameReplies (List.replicate 508 0))).map (fun x => x.1)
          = some false ∧
        (issueISO15693Command 300 [0x26, 0x01, 0x00] 3
            (chipAtRest staleFrameReplies (List.replicate 508 0))).map
            (fun x => (x.1, x.2.2.commands))
          = some (ISO15693_EC_OK,
              [([0x02, 0x00, 0xF8, 0xFF, 0xFF, 0xFF], 0),
                ([0x01, 0x00, 0x03, 0x00, 0x00, 0x00], 0), ([0x04, 0x1D], 4), ([0x04, 0x02], 4),
                ([0x04, 0x13], 4), ([0x0A, 0x00], 2), ([0x04, 0x02], 4),
                ([0x00, 0x03, 0x07, 0x40, 0x00, 0x00], 0)]) ∧
        (getInventory 300 [0, 0, 0, 0, 0, 0, 0, 0]
            (chipAtRest staleFrameReplies (List.replicate 508 0))).map (fun x => x.1)
          = some ISO15693_EC_OK) ∧
      (sendData 2001 [0x26, 0x01, 0x00] 3 0 lostPollChip = some (true, lostPollSent) ∧
        (readRegister 2001 IRQ_STATUS (declareLocal32 lostPollSent).1
            (declareLocal32 lostPollSent).2).map (fun r => (r.1, r.2.1))
          = some (false, 0x4000) ∧
        (issueISO15693Command 2001 [0x26, 0x01, 0x00] 3 lostPollChip).map
            (fun x => (x.1, x.2.2.commands))
          = some (ISO15693_EC_OK,
              [([0x02, 0x00, 0xF8, 0xFF, 0xFF, 0xFF], 0),
                ([0x01, 0x00, 0x03, 0x00, 0x00, 0x00], 0), ([0x04, 0x1D], 4),
                ([0x09, 0x00, 0x26, 0x01, 0x00], 0), ([0x04, 0x13], 4), ([0x0A, 0x00], 2),
                ([0x04, 0x02], 4), ([0x00, 0x03, 0x07, 0x40, 0x00, 0x00], 0)])) := by
  refine ⟨by decide, lostPoll_sendData, ?_, lostPoll_issue⟩
  rw [lostPoll_readRegister]
  rfl

end PN5180ISO15693

namespace PN5180

open PN5180ISO15693

/-! ## What one host command adds to the log -/

/-- Every return of `transceiveCommand`: either the first wait for BUSY low
timed out after 2001 samples and nothing else happened, or the first
chip-select window was opened and the command is the one entry added to the
log. -/
theorem transceiveCommand_exits {fuel : Nat} {sb : List Nat} {sl : Nat}
    {rb : Option (List Nat)} {rl : Nat} {hw : State} {b : Bool} {buf : List Nat} {hw' : State}
    (h : transceiveCommand fuel sb sl rb rl hw = some (b, buf, hw')) :
    (b = false ∧ buf = rb.getD [] ∧ hw' = polled 2001 hw) ∨
      hw'.commands = hw.commands ++ [(sb.take sl, rl)] := by
  have hk : ∀ {a c : State}, a.commands = hw.commands ++ [(sb.take sl, rl)] →
      (∃ rest, c.commands = a.commands ++ rest ∧ ∀ x ∈ rest, False) →
      c.commands = hw.commands ++ [(sb.take sl, rl)] := by
    intro a c ha hc
    obtain ⟨rest, e, hnone⟩ := hc
    have : rest = [] := List.eq_nil_iff_forall_not_mem.mpr (fun x hx => hnone x hx)
    rw [e, this, List.append_nil, ha]
  have inv := logsOnly (fun _ => False)
  unfold transceiveCommand at h
  simp only at h
  split at h
  · cases h
  · rename_i hw1 h1
    simp only [Option.some.injEq, Prod.mk.injEq] at h
    obtain ⟨rfl, rfl, rfl⟩ := h
    obtain ⟨n, -, hn, hpol, -, -, hfail⟩ := waitForBusyState_polled h1
    have hn' := hfail rfl
    subst hn'
    exact Or.inl ⟨rfl, rfl, hpol⟩
  · rename_i hw1 h1
    right
    obtain ⟨n, -, -, hpol, -⟩ := waitForBusyState_polled h1
    have e1 : hw1.commands = hw.commands := by
      rw [hpol]
      exact (polled_fields n hw).2.2.2.2.2.2.2.2.2.2
    have e2 : (writeCs false
        { hw1 with commands := hw1.commands ++ [(sb.take sl, rl)] }).commands
          = hw.commands ++ [(sb.take sl, rl)] := by
      simp only [writeCs, e1]
    split at h
    · cases h
    · rename_i hw3 h3
      have e3 := hk e2 (sendLoop_inv inv _ _ _ _ _ _ h3)
      split at h
      · cases h
      · rename_i hw4 h4
        cases h
        exact hk e3 (waitForBusyState_inv inv h4)
      · rename_i hw4 h4
        have e4 := hk e3 (waitForBusyState_inv inv h4)
        have e5 : (writeCs true hw4).commands = hw.commands ++ [(sb.take sl, rl)] := e4
        split at h
        · cases h
        · rename_i hw6 h6
          cases h
          exact hk e5 (waitForBusyState_inv inv h6)
        · rename_i hw6 h6
          have e6 := hk e5 (waitForBusyState_inv inv h6)
          split at h
          · cases h
            exact e6
          · have e7 : (writeCs false hw6).commands = hw.commands ++ [(sb.take sl, rl)] := e6
            split at h
            · cases h
            · rename_i buf1 hw8 h8
              have e8 := hk e7 (recvLoop_inv inv _ _ _ _ _ _ _ h8)
              split at h
              · cases h
              · rename_i hw9 h9
                cases h
                exact hk e8 (waitForBusyState_inv inv h9)
              · rename_i hw9 h9
                have e9 := hk e8 (waitForBusyState_inv inv h9)
                have e10 : (writeCs true hw9).commands = hw.commands ++ [(sb.take sl, rl)] := e9
                split at h
                · cases h
                · rename_i hw11 h11
                  cases h
                  exact hk e10 (waitForBusyState_inv inv h11)
                · rename_i hw11 h11
                  cases h
                  exact hk e10 (waitForBusyState_inv inv h11)

end PN5180
namespace PN5180

open PN5180ISO15693

/-! ## The order of the commands of `sendData` -/

/-- Copying `len` bytes out of an array of `len` bytes gives the array. -/
theorem range_map_rd8 (data : List Nat) (hbytes : ∀ x ∈ data, x < 256) :
    (List.range data.length).map (fun i => rd8 data i) = data := by
  apply List.ext_getElem
  · simp
  · intro i h1 h2
    have hx : data[i] < 256 := hbytes _ (List.getElem_mem h2)
    simp [rd8, List.getD_eq_getElem?_getD, List.getElem?_eq_getElem h2, Nat.mod_eq_of_lt hx]

/-- What a write-only host command leaves in the log. -/
theorem writeOnly_log {fuel : Nat} (sb : List Nat) {hw : State} {r : Bool × List Nat × State}
    (hsb : sb.length = 6) (h : transceiveCommand fuel sb 6 none 0 hw = some r) :
    ∃ L, r.2.2.commands = hw.commands ++ L ∧ L.Sublist [(sb, 0)] := by
  obtain ⟨b, buf, hw'⟩ := r
  rcases transceiveCommand_exits h with ⟨-, -, hpol⟩ | hlog
  · refine ⟨[], ?_, List.nil_sublist _⟩
    simp only [hpol, List.append_nil]
    exact (polled_fields 2001 hw).2.2.2.2.2.2.2.2.2.2
  · refine ⟨[(sb, 0)], ?_, List.Sublist.refl _⟩
    rw [hlog, List.take_of_length_le (by omega)]

/-- What the read of the transceive state leaves in the log: the read of
`RF_STATUS`, or nothing when the read timed out, and then the state is
`PN5180_TS_Idle`. -/
theorem getTransceiveState_log {fuel : Nat} {hw : State} {s : Nat} {hw' : State}
    (h : getTransceiveState fuel hw = some (s, hw')) :
    (s = PN5180_TS_Idle ∧ hw'.commands = hw.commands) ∨
      hw'.commands = hw.commands ++ [([0x04, 0x1D], 4)] := by
  unfold getTransceiveState at h
  simp only at h
  unfold readRegister at h
  simp only at h
  cases ht : transceiveCommand fuel [PN5180_READ_REGISTER, RF_STATUS] 2
      (some (bytesOfU32 (declareLocal32 hw).1)) 4 (declareLocal32 hw).2 with
  | none => rw [ht] at h; cases h
  | some r =>
    obtain ⟨b, buf, hw1⟩ := r
    rw [ht] at h
    rcases transceiveCommand_exits ht with ⟨hb, -, hpol⟩ | hlog
    · subst hb
      simp only [Option.some.injEq, Prod.mk.injEq] at h
      obtain ⟨rfl, rfl⟩ := h
      left
      refine ⟨rfl, ?_⟩
      rw [hpol]
      exact (polled_fields 2001 _).2.2.2.2.2.2.2.2.2.2
    · right
      have hw1' : hw'.commands = hw1.commands := by
        cases b with
        | false =>
          simp only [Option.some.injEq, Prod.mk.injEq] at h
          rw [← h.2]
        | true =>
          simp only [Option.some.injEq, Prod.mk.injEq] at h
          rw [← h.2]
      rw [hw1', hlog]
      rfl

end PN5180
namespace PN5180

open PN5180ISO15693

theorem sendData_andMask_eq (fuel : Nat) (hw : State) :
    writeRegisterWithAndMask fuel SYSTEM_CONFIG 0xfffffff8 hw
      = (transceiveCommand fuel [0x02, 0x00, 0xF8, 0xFF, 0xFF, 0xFF] 6 none 0 hw).map
          (fun r => (r.1, r.2.2)) := by
  unfold writeRegisterWithAndMask
  show (match transceiveCommand fuel [0x02, 0x00, 0xF8, 0xFF, 0xFF, 0xFF] 6 none 0 hw with
    | none => none
    | some (success, _, hw1) => some (success, hw1)) = _
  cases transceiveCommand fuel [0x02, 0x00, 0xF8, 0xFF, 0xFF, 0xFF] 6 none 0 hw with
  | none => rfl
  | some r => rfl

theorem sendData_orMask_eq (fuel : Nat) (hw : State) :
    writeRegisterWithOrMask fuel SYSTEM_CONFIG 0x00000003 hw
      = (transceiveCommand fuel [0x01, 0x00, 0x03, 0x00, 0x00, 0x00] 6 none 0 hw).map
          (fun r => (r.1, r.2.2)) := by
  unfold writeRegisterWithOrMask
  show (match transceiveCommand fuel [0x01, 0x00, 0x03, 0x00, 0x00, 0x00] 6 none 0 hw with
    | none => none
    | some (success, _, hw1) => some (success, hw1)) = _
  cases transceiveCommand fuel [0x01, 0x00, 0x03, 0x00, 0x00, 0x00] 6 none 0 hw with
  | none => rfl
  | some r => rfl

/-- The order of the steps of `sendData`: the AND-mask write of `SYSTEM_CONFIG`
with 0xFFFFFFF8, then the OR-mask write with 3, then the read of the
transceive state, and then, only when that state is `PN5180_TS_WaitTransmit`,
one host command with the frame `[0x09, validBits, payload]`; in any other
state it returns `false` in the state the read left. On every return the
commands logged by the first three steps are, in this order, among the
AND-mask frame, the OR-mask frame and the read of `RF_STATUS` (a step whose
first BUSY wait timed out logs nothing); in `WaitTransmit` the read is logged
and the call adds the Send-Data frame once, or nothing when its first BUSY
wait timed out. -/
theorem sendData_order (fuel : Nat) (data : List Nat) (len validBits : Nat) (hw : State)
    (hlen : data.length = len) (hbytes : ∀ x ∈ data, x < 256) :
    sendData fuel data len validBits hw
        = (transceiveCommand fuel [0x02, 0x00, 0xF8, 0xFF, 0xFF, 0xFF] 6 none 0 hw).bind
            (fun a =>
              (transceiveCommand fuel [0x01, 0x00, 0x03, 0x00, 0x00, 0x00] 6 none 0 a.2.2).bind
                (fun o => (getTransceiveState fuel o.2.2).bind (fun s =>
                  if s.1 = PN5180_TS_WaitTransmit then
                    (transceiveCommand fuel (0x09 :: validBits :: data) (len + 2) none 0
                      s.2).map (fun r => (r.1, r.2.2))
                  else some (false, s.2)))) ∧
      ∀ b hw', sendData fuel data len validBits hw = some (b, hw') →
        ∃ s hw3 L, sendDataPrelude fuel hw = some (s, hw3) ∧
          hw3.commands = hw.commands ++ L ∧
          L.Sublist [([0x02, 0x00, 0xF8, 0xFF, 0xFF, 0xFF], 0),
            ([0x01, 0x00, 0x03, 0x00, 0x00, 0x00], 0), ([0x04, 0x1D], 4)] ∧
          (s ≠ PN5180_TS_WaitTransmit → b = false ∧ hw' = hw3) ∧
          (s = PN5180_TS_WaitTransmit →
            ([0x04, 0x1D], 4) ∈ L ∧
            (hw'.commands = hw3.commands ++ [(0x09 :: validBits :: data, 0)] ∨
              (b = false ∧ hw'.commands = hw3.commands))) := by
  have hframe : [PN5180_SEND_DATA, validBits] ++ (List.range len).map (fun i => rd8 data i)
      = 0x09 :: validBits :: data := by
    rw [← hlen, range_map_rd8 data hbytes]
    rfl
  have heq := sendData_eq fuel data len validBits hw
  rw [hframe] at heq
  constructor
  · rw [heq]
    unfold sendDataPrelude
    rw [sendData_andMask_eq]
    cases transceiveCommand fuel [0x02, 0x00, 0xF8, 0xFF, 0xFF, 0xFF] 6 none 0 hw with
    | none => rfl
    | some a =>
      simp only [Option.map_some', Option.some_bind]
      rw [sendData_orMask_eq]
      cases transceiveCommand fuel [0x01, 0x00, 0x03, 0x00, 0x00, 0x00] 6 none 0 a.2.2 with
      | none => rfl
      | some o =>
        simp only [Option.map_some', Option.some_bind]
        cases getTransceiveState fuel o.2.2 with
        | none => rfl
        | some s =>
          simp only [Option.some_bind]
          by_cases hs : s.1 = PN5180_TS_WaitTransmit
          · rw [if_pos hs, if_neg (by simp [hs])]
          · rw [if_neg hs, if_pos (by simpa using Ne.symm hs)]
  · intro b hw' h
    rw [heq] at h
    cases hp : sendDataPrelude fuel hw with
    | none => rw [hp] at h; cases h
    | some p =>
      obtain ⟨s, hw3⟩ := p
      rw [hp] at h
      simp only [Option.some_bind] at h
      unfold sendDataPrelude at hp
      rw [sendData_andMask_eq] at hp
      cases ha : transceiveCommand fuel [0x02, 0x00, 0xF8, 0xFF, 0xFF, 0xFF] 6 none 0 hw with
      | none => rw [ha] at hp; cases hp
      | some a =>
        rw [ha] at hp
        simp only [Option.map_some', Option.some_bind] at hp
        rw [sendData_orMask_eq] at hp
        cases ho : transceiveCommand fuel [0x01, 0x00, 0x03, 0x00, 0x00, 0x00] 6 none 0
            a.2.2 with
        | none => rw [ho] at hp; cases hp
        | some o =>
          rw [ho] at hp
          simp only [Option.map_some', Option.some_bind] at hp
          obtain ⟨La, ea, sa⟩ := writeOnly_log [0x02, 0x00, 0xF8, 0xFF, 0xFF, 0xFF] rfl ha
          obtain ⟨Lo, eo, so⟩ := writeOnly_log [0x01, 0x00, 0x03, 0x00, 0x00, 0x00] rfl ho
          have hread := getTransceiveState_log hp
          have hL : ∃ Lr, hw3.commands = o.2.2.commands ++ Lr ∧
              Lr.Sublist [([0x04, 0x1D], 4)] ∧
              (s = PN5180_TS_WaitTransmit → Lr = [([0x04, 0x1D], 4)]) := by
            rcases hread with ⟨hs, e⟩ | e
            · exact ⟨[], by simp [e], List.nil_sublist _, fun hc => by
                rw [hs] at hc; cases hc⟩
            · exact ⟨_, e, List.Sublist.refl _, fun _ => rfl⟩
          obtain ⟨Lr, er, sr, hr⟩ := hL
          refine ⟨s, hw3, La ++ (Lo ++ Lr), rfl, ?_, ?_, ?_, ?_⟩
          · rw [er, eo, ea, List.append_assoc, List.append_assoc]
          · exact List.Sublist.append sa (List.Sublist.append so sr)
          · intro hs
            rw [if_pos (by simpa using Ne.symm hs)] at h
            simp only [Option.some.injEq, Prod.mk.injEq] at h
            exact ⟨h.1.symm, h.2.symm⟩
          · intro hs
            refine ⟨by rw [hr hs]; simp, ?_⟩
            rw [if_neg (by simp [hs])] at h
            cases hsd : transceiveCommand fuel (0x09 :: validBits :: data) (len + 2) none 0
                hw3 with
            | none => rw [hsd] at h; cases h
            | some r =>
              obtain ⟨b1, buf, hw4⟩ := r
              rw [hsd] at h
              simp only [Option.map_some', Option.some.injEq, Prod.mk.injEq] at h
              obtain ⟨rfl, rfl⟩ := h
              rcases transceiveCommand_exits hsd with ⟨hb, -, hpol⟩ | hlog
              · right
                refine ⟨hb, ?_⟩
                rw [hpol]
                exact (polled_fields 2001 _).2.2.2.2.2.2.2.2.2.2
              · left
                rw [hlog, List.take_of_length_le (by simp; omega)]

/-- A three-byte inventory request sent to a chip that reports `WaitTransmit`:
the four commands appear in the log in the stated order. -/
theorem sendData_order_example :
    (sendData 300 [0x26, 0x01, 0x00] 3 0 (chipAtRest (List.replicate 17 0 ++ [1]) [])).map
        (fun r => (r.1, r.2.commands))
        = some (true, [([0x02, 0x00, 0xF8, 0xFF, 0xFF, 0xFF], 0),
            ([0x01, 0x00, 0x03, 0x00, 0x00, 0x00], 0), ([0x04, 0x1D], 4),
            ([0x09, 0x00, 0x26, 0x01, 0x00], 0)]) ∧
      sendData 300 [0x26, 0x01, 0x00] 3 0 (chipAtRest (List.replicate 17 0 ++ [1]) [])
        = (transceiveCommand 300 [0x02, 0x00, 0xF8, 0xFF, 0xFF, 0xFF] 6 none 0
            (chipAtRest (List.replicate 17 0 ++ [1]) [])).bind
            (fun a =>
              (transceiveCommand 300 [0x01, 0x00, 0x03, 0x00, 0x00, 0x00] 6 none 0 a.2.2).bind
                (fun o => (getTransceiveState 300 o.2.2).bind (fun s =>
                  if s.1 = PN5180_TS_WaitTransmit then
                    (transceiveCommand 300 (0x09 :: 0 :: [0x26, 0x01, 0x00]) (3 + 2) none 0
                      s.2).map (fun r => (r.1, r.2.2))
                  else some (false, s.2)))) :=
  ⟨by decide, (sendData_order 300 [0x26, 0x01, 0x00] 3 0
    (chipAtRest (List.replicate 17 0 ++ [1]) []) rfl (by decide)).1⟩

end PN5180

namespace PN5180ISO15693

open PN5180

/-! ## The request frames of the addressed commands -/

/-- The frame of `readSingleBlock` for an 8-byte UID. -/
theorem readSingleBlockFrame_eq (uid : List Nat) (blockNo : Nat) (h : uid.length = 8)
    (hbytes : ∀ x ∈ uid, x < 256) :
    readSingleBlockFrame uid blockNo = [0x22, 0x20] ++ uid ++ [blockNo] := by
  rcases uid with
    _ | ⟨a, _ | ⟨b, _ | ⟨c, _ | ⟨d, _ | ⟨e, _ | ⟨x, _ | ⟨y, _ | ⟨z, _ | ⟨w, t⟩⟩⟩⟩⟩⟩⟩⟩⟩ <;>
    simp at h
  simp only [List.mem_cons, List.mem_singleton, forall_eq_or_imp, forall_eq, List.not_mem_nil,
    false_implies, implies_true, and_true] at hbytes
  obtain ⟨ha, hb, hc, hd, he, hx, hy, hz⟩ := hbytes
  have e : readSingleBlockFrame [a, b, c, d, e, x, y, z] blockNo
      = [0x22, 0x20, a % 256, b % 256, c % 256, d % 256, e % 256, x % 256, y % 256, z % 256,
          blockNo] := rfl
  rw [e, Nat.mod_eq_of_lt ha, Nat.mod_eq_of_lt hb, Nat.mod_eq_of_lt hc, Nat.mod_eq_of_lt hd,
    Nat.mod_eq_of_lt he, Nat.mod_eq_of_lt hx, Nat.mod_eq_of_lt hy, Nat.mod_eq_of_lt hz]
  rfl

/-- The frame of `getSystemInfo` for an 8-byte UID. -/
theorem sysInfoFrame_eq (uid : List Nat) (h : uid.length = 8) (hbytes : ∀ x ∈ uid, x < 256) :
    sysInfoFrame uid = [0x22, 0x2b] ++ uid := by
  rcases uid with
    _ | ⟨a, _ | ⟨b, _ | ⟨c, _ | ⟨d, _ | ⟨e, _ | ⟨x, _ | ⟨y, _ | ⟨z, _ | ⟨w, t⟩⟩⟩⟩⟩⟩⟩⟩⟩ <;>
    simp at h
  simp only [List.mem_cons, List.mem_singleton, forall_eq_or_imp, forall_eq, List.not_mem_nil,
    false_implies, implies_true, and_true] at hbytes
  obtain ⟨ha, hb, hc, hd, he, hx, hy, hz⟩ := hbytes
  have e : sysInfoFrame [a, b, c, d, e, x, y, z]
      = [0x22, 0x2b, a % 256, b % 256, c % 256, d % 256, e % 256, x % 256, y % 256, z % 256] :=
    rfl
  rw [e, Nat.mod_eq_of_lt ha, Nat.mod_eq_of_lt hb, Nat.mod_eq_of_lt hc, Nat.mod_eq_of_lt hd,
    Nat.mod_eq_of_lt he, Nat.mod_eq_of_lt hx, Nat.mod_eq_of_lt hy, Nat.mod_eq_of_lt hz]
  rfl

theorem heapStore_eq (block : List Nat) (pos : Nat) (over : Bool) (v : Nat) :
    heapStore (block, pos, over) v
      = (block.set pos v, (pos + 1) % 256, over || decide (block.length ≤ pos)) := rfl

/-- Stores never change the size of the block, `pos` counts them modulo 256,
and a store outside the block is never forgotten. -/
theorem heapStore_foldl_fields (vs : List Nat) :
    ∀ st : List Nat × Nat × Bool, (vs.foldl heapStore st).1.length = st.1.length ∧
      (st.2.1 < 256 → (vs.foldl heapStore st).2.1 = (st.2.1 + vs.length) % 256) ∧
      (st.2.2 = true → (vs.foldl heapStore st).2.2 = true) := by
  induction vs with
  | nil =>
    intro st
    exact ⟨rfl, fun h => (Nat.mod_eq_of_lt h).symm, fun h => h⟩
  | cons v vs ih =>
    intro st
    obtain ⟨block, pos, over⟩ := st
    rw [List.foldl_cons, heapStore_eq]
    obtain ⟨h1, h2, h3⟩ :=
      ih (block.set pos v, (pos + 1) % 256, over || decide (block.length ≤ pos))
    refine ⟨by simpa using h1, fun _ => ?_, fun ho => h3 (by simp at ho; simp [ho])⟩
    rw [h2 (Nat.mod_lt _ (by decide))]
    simp only [List.length_cons]
    omega

/-- Stores that fit: writing `vs` behind `pre` into a block with room for
them. -/
theorem heapStore_foldl_fits (vs : List Nat) :
    ∀ (pre : List Nat) (n : Nat) (over : Bool),
      pre.length + vs.length ≤ 255 → vs.length ≤ n →
      vs.foldl heapStore (pre ++ List.replicate n 0, pre.length, over)
        = (pre ++ vs ++ List.replicate (n - vs.length) 0, pre.length + vs.length, over) := by
  induction vs with
  | nil => intro pre n over _ _; simp
  | cons v vs ih =>
    intro pre n over h1 h2
    simp only [List.length_cons] at h1 h2
    obtain ⟨m, rfl⟩ : ∃ m, n = m + 1 := ⟨n - 1, by omega⟩
    rw [List.foldl_cons, heapStore_eq]
    have hset : (pre ++ List.replicate (m + 1) 0).set pre.length v
        = (pre ++ [v]) ++ List.replicate m 0 := by
      rw [List.set_append_right _ _ (le_refl _)]
      simp [List.replicate_succ]
    have hpos : (pre.length + 1) % 256 = pre.length + 1 := Nat.mod_eq_of_lt (by omega)
    have hover :
        (over || decide ((pre ++ List.replicate (m + 1) 0).length ≤ pre.length)) = over := by
      simp
    have hrec := ih (pre ++ [v]) m over (by simp; omega) (by omega)
    simp only [List.length_append, List.length_singleton] at hrec
    rw [hset, hpos, hover, hrec]
    simp only [List.length_cons, List.append_assoc, List.singleton_append,
      Nat.add_sub_add_right, Prod.mk.injEq, true_and, and_true]
    omega

end PN5180ISO15693
namespace PN5180ISO15693

open PN5180

/-- The stores of `writeSingleBlock` in one row. -/
theorem writeCmdFrame_foldl (uid : List Nat) (blockNo : Nat) (blockData : List Nat)
    (blockSize : Nat) :
    writeCmdFrame uid blockNo blockData blockSize
      = (([0x22, 0x21] ++ (List.range 8).map (fun i => rd8 uid i)) ++ ([blockNo]
          ++ (List.range blockSize).map (fun i => rd8 blockData i))).foldl heapStore
          (List.replicate (writeCmdSize blockSize) 0, 0, false) := by
  unfold writeCmdFrame
  simp only [List.foldl_append, List.foldl_cons, List.foldl_nil]
  rfl

/-- The frame of `writeSingleBlock` for an 8-byte UID and a block of at most
244 bytes: flags, command code, UID, block number and the data, every store
inside the block of `11 + blockSize` bytes. -/
theorem writeCmdFrame_fits (uid : List Nat) (blockNo : Nat) (blockData : List Nat)
    (blockSize : Nat) (hsize : blockSize ≤ 244) (huid : uid.length = 8)
    (hubytes : ∀ x ∈ uid, x < 256) (hdata : blockData.length = blockSize)
    (hdbytes : ∀ x ∈ blockData, x < 256) :
    writeCmdSize blockSize = 11 + blockSize ∧
      writeCmdFrame uid blockNo blockData blockSize
        = ([0x22, 0x21] ++ uid ++ [blockNo] ++ blockData, 11 + blockSize, false) := by
  have hsz : writeCmdSize blockSize = 11 + blockSize := Nat.mod_eq_of_lt (by omega)
  refine ⟨hsz, ?_⟩
  have hu : (List.range 8).map (fun i => rd8 uid i) = uid := by
    rw [← huid]
    exact range_map_rd8 uid hubytes
  have hd : (List.range blockSize).map (fun i => rd8 blockData i) = blockData := by
    rw [← hdata]
    exact range_map_rd8 blockData hdbytes
  rw [writeCmdFrame_foldl, hu, hd, hsz]
  have hfit := heapStore_foldl_fits (([0x22, 0x21] ++ uid) ++ ([blockNo] ++ blockData)) []
    (11 + blockSize) false (by simp [huid, hdata]; omega) (by simp [huid, hdata]; omega)
  simp only [List.nil_append, List.length_nil] at hfit
  rw [hfit]
  simp [huid, hdata]
  omega

/-- For a block of 245 bytes or more `writeCmdSize` has wrapped: the block
that is allocated has `blockSize - 245` bytes, fewer than the 11 bytes of the
header, and the store of the block number falls outside it. -/
theorem writeCmdFrame_overflows (uid : List Nat) (blockNo : Nat) (blockData : List Nat)
    (blockSize : Nat) (hlo : 245 ≤ blockSize) (hhi : blockSize ≤ 255) :
    writeCmdSize blockSize = blockSize - 245 ∧
      (writeCmdFrame uid blockNo blockData blockSize).1.length = blockSize - 245 ∧
      (writeCmdFrame uid blockNo blockData blockSize).2.2 = true := by
  have hsz : writeCmdSize blockSize = blockSize - 245 := by
    unfold writeCmdSize
    omega
  refine ⟨hsz, ?_, ?_⟩
  · rw [writeCmdFrame_foldl, (heapStore_foldl_fields _ _).1, List.length_replicate, hsz]
  · rw [writeCmdFrame_foldl, List.foldl_append, List.foldl_append]
    refine (heapStore_foldl_fields _ _).2.2 ?_
    obtain ⟨h1, h2, -⟩ :=
      heapStore_foldl_fields ([0x22, 0x21] ++ (List.range 8).map (fun i => rd8 uid i))
        (List.replicate (writeCmdSize blockSize) 0, 0, false)
    have h2' := h2 (show (0 : Nat) < 256 by omega)
    generalize ([0x22, 0x21] ++ (List.range 8).map (fun i => rd8 uid i)).foldl heapStore
      (List.replicate (writeCmdSize blockSize) 0, 0, false) = w at h1 h2' ⊢
    obtain ⟨block, pos, over⟩ := w
    simp only [List.length_replicate, List.length_append, List.length_cons, List.length_nil,
      List.length_map, List.length_range, hsz] at h1 h2'
    simp only [List.foldl_cons, List.foldl_nil, heapStore_eq, Bool.or_eq_true,
      decide_eq_true_eq]
    right
    omega

end PN5180ISO15693
namespace PN5180ISO15693

open PN5180

/-- C22 (code at the failing inputs): for a block of 245 to 255 bytes the
`uint8_t` sum `writeCmdSize` has wrapped to `blockSize - 245`. The block
`writeCmd` is allocated with that many bytes, fewer than the 11 bytes of the
header alone, a store falls outside it, and `issueISO15693Command` is handed
that block with the length `blockSize - 245` instead of `11 + blockSize`. -/
theorem writeSingleBlock_frame_wraps (fuel : Nat) (uid : List Nat) (blockNo : Nat)
    (blockData : List Nat) (blockSize : Nat) (hw : State)
    (hlo : 245 ≤ blockSize) (hhi : blockSize ≤ 255) :
    writeCmdSize blockSize = blockSize - 245 ∧
      (writeCmdFrame uid blockNo blockData blockSize).1.length = blockSize - 245 ∧
      (writeCmdFrame uid blockNo blockData blockSize).2.2 = true ∧
      writeSingleBlock fuel uid blockNo blockData blockSize hw
        = (issueISO15693Command fuel (writeCmdFrame uid blockNo blockData blockSize).1
            (blockSize - 245) { hw with heapOverflow := true }).map (fun r => (r.1, r.2.2)) := by
  obtain ⟨hsz, hlen, hover⟩ := writeCmdFrame_overflows uid blockNo blockData blockSize hlo hhi
  refine ⟨hsz, hlen, hover, ?_⟩
  unfold writeSingleBlock
  simp only [hsz, hover, Bool.or_true]
  cases issueISO15693Command fuel (writeCmdFrame uid blockNo blockData blockSize).1
      (blockSize - 245) { hw with heapOverflow := true } with
  | none => rfl
  | some r =>
    obtain ⟨rc, p, hw1⟩ := r
    simp only [Option.map_some']
    by_cases hrc : rc = ISO15693_EC_OK
    · rw [if_neg (by simp [hrc]), hrc]
    · rw [if_pos (by simpa using Ne.symm hrc)]

set_option maxRecDepth 20000 in
/-- C22 witness: a block of 250 bytes `0, 1, …, 249`. The allocated block has
5 bytes and ends up holding the last five data bytes, written after `pos`
wrapped; these five bytes are what is sent to the tag. -/
theorem writeSingleBlock_frame_wraps_witness :
    writeCmdFrame [1, 2, 3, 4, 5, 6, 7, 8] 5 (List.range 250) 250
        = ([245, 246, 247, 248, 249], 5, true) ∧
      (writeSingleBlock 300 [1, 2, 3, 4, 5, 6, 7, 8] 5 (List.range 250) 250
          (chipAtRest (tagReplies 5 [0x00]) (List.replicate 508 0))).map
          (fun x => (x.1, x.2.heapOverflow, x.2.commands.getD 3 ([], 0)))
        = some (ISO15693_EC_OK, true, ([0x09, 0x00, 245, 246, 247, 248, 249], 0)) ∧
      writeCmdSize 250 = 250 - 245 ∧
      (writeCmdFrame [1, 2, 3, 4, 5, 6, 7, 8] 5 (List.range 250) 250).1.length = 250 - 245 ∧
      (writeCmdFrame [1, 2, 3, 4, 5, 6, 7, 8] 5 (List.range 250) 250).2.2 = true ∧
      writeSingleBlock 300 [1, 2, 3, 4, 5, 6, 7, 8] 5 (List.range 250) 250
          (chipAtRest (tagReplies 5 [0x00]) (List.replicate 508 0))
        = (issueISO15693Command 300
            (writeCmdFrame [1, 2, 3, 4, 5, 6, 7, 8] 5 (List.range 250) 250).1 (250 - 245)
            { chipAtRest (tagReplies 5 [0x00]) (List.replicate 508 0) with
              heapOverflow := true }).map (fun r => (r.1, r.2.2)) :=
  ⟨by decide, by decide,
    writeSingleBlock_frame_wraps 300 [1, 2, 3, 4, 5, 6, 7, 8] 5 (List.range 250) 250
      (chipAtRest (tagReplies 5 [0x00]) (List.replicate 508 0)) (by decide) (by decide)⟩

end PN5180ISO15693

namespace PN5180

open PN5180ISO15693

/-! ## Which bytes of `readBuffer` a response is read from -/

theorem sendData_inv {P : List Nat × Nat → Prop} {R : State → State → Prop}
    (hR : StepInv P R) (hP : ∀ c, P c) {fuel : Nat} {data : List Nat} {len validBits : Nat}
    {hw : State} {b : Bool} {hw' : State}
    (h : sendData fuel data len validBits hw = some (b, hw')) : R hw hw' := by
  unfold sendData at h
  simp only at h
  split at h
  · cases h
  · rename_i b1 hw1 h1
    have e1 := writeRegisterWithAndMask_inv hR (hP _) h1
    split at h
    · cases h
    · rename_i b2 hw2 h2
      have e2 := hR.trans _ _ _ e1 (writeRegisterWithOrMask_inv hR (hP _) h2)
      split at h
      · cases h
      · rename_i s hw3 h3
        have e3 := hR.trans _ _ _ e2 (getTransceiveState_inv hR (hP _) h3)
        split at h
        · cases h
          exact e3
        · split at h
          · cases h
          · rename_i ok buf hw4 h4
            cases h
            exact hR.trans _ _ _ e3 (transceiveCommand_inv hR (hP _) h4)

end PN5180

namespace PN5180ISO15693

open PN5180

/-- Every return of `issueISO15693Command` with the address of `readBuffer`:
`readData` was called with `len = rxStatus & 0x1FF`, at most 255, and
`readBuffer` is what it was before the call with the `len` replies stored from
index 0 on. The entries from `len` on are the stale ones; the return value is
computed from entries 0 and 1 whatever `len` is. -/
theorem issueISO15693Command_buffer {fuel : Nat} {cmd : List Nat} {cmdLen : Nat} {hw : State}
    {b : Bool} {hw1 : State} {irq : Nat} {hw2 : State} {ok : Bool} {rxStatus : Nat}
    {hw4 : State} {rc : ISO15693ErrorCode} {hw' : State}
    (hsend : sendData fuel cmd cmdLen 0 hw = some (b, hw1))
    (hpoll : getIRQStatus fuel hw1 = some (irq, hw2))
    (hrx : readRegister fuel RX_STATUS (declareLocal32 hw2).1 (declareLocal32 hw2).2
      = some (ok, rxStatus, hw4))
    (h : issueISO15693Command fuel cmd cmdLen hw = some (rc, BufPtr.toReadBuffer, hw')) :
    rxStatus &&& 0x1FF ≤ 255 ∧
      hw'.readBuffer
        = recvStores hw4.spiReply (rxStatus &&& 0x1FF) 0 (hw4.spiWrites + 2) hw.readBuffer ∧
      (rc = EC_NO_CARD ∨ rc = responseCode (rd8 hw'.readBuffer 0) (rd8 hw'.readBuffer 1)) := by
  have hcases : rc = EC_NO_CARD ∨
      rc = responseCode (rd8 hw'.readBuffer 0) (rd8 hw'.readBuffer 1) := by
    rcases issueISO15693Command_cases h with h1 | ⟨-, h2⟩ | ⟨-, h3⟩
    · exact Or.inl h1
    · cases h2
    · exact Or.inr h3
  have hb1 : hw1.readBuffer = hw.readBuffer :=
    sendData_inv keepsReadBuffer (fun _ => trivial) hsend
  have hb2 : hw2.readBuffer = hw1.readBuffer := getIRQStatus_inv keepsReadBuffer trivial hpoll
  have hb4 : hw4.readBuffer = (declareLocal32 hw2).2.readBuffer :=
    readRegister_inv keepsReadBuffer trivial hrx
  have hb : hw4.readBuffer = hw.readBuffer := by rw [hb4, ← hb1, ← hb2]; rfl
  unfold issueISO15693Command at h
  simp only [hsend, hpoll] at h
  split at h
  · cases h
  · simp only [hrx, rx_length_fits] at h
    cases hrd : readData fuel (rxStatus &&& 0x1FF) hw4 with
    | none => rw [hrd] at h; cases h
    | some d =>
      obtain ⟨q, hw5⟩ := d
      rw [hrd] at h
      simp only at h
      split at h
      · rename_i hnull
        simp only [Option.some.injEq, Prod.mk.injEq] at h
        obtain ⟨-, rfl, -⟩ := h
        simp at hnull
      · have hq : q = BufPtr.toReadBuffer := by
          cases hg : getIRQStatus fuel hw5 with
          | none => rw [hg] at h; cases h
          | some g =>
            rw [hg] at h
            simp only at h
            split at h
            · split at h
              · cases h
              · simp only [Option.some.injEq, Prod.mk.injEq] at h
                exact h.2.1
            · split at h
              · split at h
                · simp only [Option.some.injEq, Prod.mk.injEq] at h
                  exact h.2.1
                · simp only [Option.some.injEq, Prod.mk.injEq] at h
                  exact h.2.1
              · split at h
                · cases h
                · simp only [Option.some.injEq, Prod.mk.injEq] at h
                  exact h.2.1
        subst hq
        obtain ⟨hlen, -, -, -, hbuf⟩ := readData_buffer hrd
        have hfinal : hw'.readBuffer = hw5.readBuffer := by
          cases hg : getIRQStatus fuel hw5 with
          | none => rw [hg] at h; cases h
          | some g =>
            obtain ⟨irq2, hw6⟩ := g
            have h56 : hw6.readBuffer = hw5.readBuffer :=
              getIRQStatus_inv keepsReadBuffer trivial hg
            rw [hg] at h
            simp only at h
            split at h
            · split at h
              · cases h
              · rename_i b7 hw7 hc
                have h67 : hw7.readBuffer = hw6.readBuffer :=
                  clearIRQStatus_inv keepsReadBuffer trivial hc
                simp only [Option.some.injEq, Prod.mk.injEq] at h
                rw [← h.2.2, h67, h56]
            · split at h
              · split at h
                · simp only [Option.some.injEq, Prod.mk.injEq] at h
                  rw [← h.2.2, h56]
                · simp only [Option.some.injEq, Prod.mk.injEq] at h
                  rw [← h.2.2, h56]
              · split at h
                · cases h
                · rename_i b7 hw7 hc
                  have h67 : hw7.readBuffer = hw6.readBuffer :=
                    clearIRQStatus_inv keepsReadBuffer trivial hc
                  simp only [Option.some.injEq, Prod.mk.injEq] at h
                  rw [← h.2.2, h67, h56]
        exact ⟨hlen, by rw [hfinal, hbuf, hb], hcases⟩

end PN5180ISO15693
namespace PN5180ISO15693

open PN5180

/-- A call that returns `ISO15693_EC_OK` hands back the address of
`readBuffer`. -/
theorem issueISO15693Command_ok_ptr {fuel : Nat} {cmd : List Nat} {cmdLen : Nat} {hw : State}
    {p : BufPtr} {hw' : State}
    (h : issueISO15693Command fuel cmd cmdLen hw = some (ISO15693_EC_OK, p, hw')) :
    p = BufPtr.toReadBuffer := by
  rcases issueISO15693Command_cases h with h1 | ⟨h2, -⟩ | ⟨h3, -⟩
  · exact absurd h1 (by decide)
  · exact absurd h2 (by decide)
  · exact h3

/-- On success `getInventory` copies entries 2 to 9 of `readBuffer`. -/
theorem getInventory_reads {fuel : Nat} {uid : List Nat} {hw : State} {uid' : List Nat}
    {hw' : State} (huid : uid.length = 8)
    (h : getInventory fuel uid hw = some (ISO15693_EC_OK, uid', hw')) :
    uid' = (List.range 8).map (fun i => rd8 hw'.readBuffer (2 + i)) := by
  unfold getInventory at h
  simp only at h
  split at h
  · cases h
  · rename_i rc p hw1 hi
    split at h
    · rename_i hrc
      simp only [Option.some.injEq, Prod.mk.injEq] at h
      rw [h.1] at hrc
      simp at hrc
    · rename_i hrc
      have hok : rc = ISO15693_EC_OK := (show ISO15693_EC_OK = rc by simpa using hrc).symm
      subst hok
      have hp := issueISO15693Command_ok_ptr hi
      subst hp
      simp only [Option.some.injEq, Prod.mk.injEq, true_and] at h
      obtain ⟨rfl, rfl⟩ := h
      rw [storeLoop_eight _ _ (by rw [storeLoop_length]; exact huid)]
      rfl

/-- On success `getSystemInfo` copies entries 2 to 9 of `readBuffer`, takes
the info flags from entry 1 and, when bit 2 is set, the memory size from the
two entries at `p`, where `p` is 10, 11 or 12; when bit 2 is clear the two
outputs keep their values. -/
theorem getSystemInfo_reads {fuel : Nat} {uid : List Nat} {blockSize numBlocks : Nat}
    {hw : State} {info : SystemInfo} (huid : uid.length = 8)
    (h : getSystemInfo fuel uid blockSize numBlocks hw = some info)
    (hok : info.rc = ISO15693_EC_OK) :
    info.uid = (List.range 8).map (fun i => rd8 info.hw.readBuffer (2 + i)) ∧
      (rd8 info.hw.readBuffer 1 &&& 0x04 = 0 →
        info.blockSize = blockSize ∧ info.numBlocks = numBlocks) ∧
      (rd8 info.hw.readBuffer 1 &&& 0x04 ≠ 0 → ∃ p, 10 ≤ p ∧ p ≤ 12 ∧
        info.numBlocks = (rd8 info.hw.readBuffer p + 1) % 256 ∧
        info.blockSize = ((rd8 info.hw.readBuffer (p + 1) &&& 0x1f) + 1) % 256) := by
  unfold getSystemInfo at h
  split at h
  · cases h
  · rename_i rc p hw1 hi
    split at h
    · rename_i hrc
      simp only [Option.some.injEq] at h
      rw [← h] at hok
      simp only at hok
      rw [hok] at hrc
      simp at hrc
    · rename_i hrc
      have hrc' : rc = ISO15693_EC_OK := (show ISO15693_EC_OK = rc by simpa using hrc).symm
      subst hrc'
      have hp := issueISO15693Command_ok_ptr hi
      subst hp
      simp only [BufPtr.deref] at h
      have huid' : storeLoop 8 uid 0 (fun i => rd8 hw1.readBuffer (2 + i))
          = (List.range 8).map (fun i => rd8 hw1.readBuffer (2 + i)) := storeLoop_eight _ _ huid
      split at h
      · rename_i hbit
        simp only [Option.some.injEq] at h
        subst h
        refine ⟨huid', fun hz => ?_, fun _ => ?_⟩
        · simp only at hz
          simp [hz] at hbit
        · simp only
          by_cases h1 : (rd8 hw1.readBuffer 1 &&& 0x01 != 0) = true <;>
            by_cases h2 : (rd8 hw1.readBuffer 1 &&& 0x02 != 0) = true
          · exact ⟨12, by omega, by omega, by simp only [if_pos h1, if_pos h2],
              by simp only [if_pos h1, if_pos h2]⟩
          · exact ⟨11, by omega, by omega, by simp only [if_pos h1, if_neg h2],
              by simp only [if_pos h1, if_neg h2]⟩
          · exact ⟨11, by omega, by omega, by simp only [if_neg h1, if_pos h2],
              by simp only [if_neg h1, if_pos h2]⟩
          · exact ⟨10, by omega, by omega, by simp only [if_neg h1, if_neg h2],
              by simp only [if_neg h1, if_neg h2]⟩
      · rename_i hbit
        simp only [Option.some.injEq] at h
        subst h
        refine ⟨huid', fun _ => ⟨rfl, rfl⟩, fun hnz => ?_⟩
        simp only at hnz
        exact absurd (by simpa using hnz) hbit

end PN5180ISO15693
namespace PN5180ISO15693

open PN5180

/-- What `responseCode` is when the error code is not 0. -/
theorem responseCode_cases (flags e : Nat) :
    (flags &&& 1 = 0 ∧ responseCode flags e = ISO15693_EC_OK) ∨
      (flags &&& 1 ≠ 0 ∧ (0xA0 ≤ e → responseCode flags e = ISO15693_EC_CUSTOM_CMD_ERROR) ∧
        (e < 0xA0 → responseCode flags e = (e : Int))) := by
  unfold responseCode
  by_cases hf : flags &&& 1 = 0
  · left
    refine ⟨hf, ?_⟩
    rw [if_neg (by simp [hf])]
  · right
    refine ⟨hf, fun he => ?_, fun he => ?_⟩
    · rw [if_pos (by simpa using hf), if_pos he]
    · rw [if_pos (by simpa using hf), if_neg (by omega)]

/-- The entries `getSystemInfo` reads, with the two memory-size values written
without their 8-bit reduction where it does nothing. -/
theorem getSystemInfo_reads_guarded {fuel : Nat} {uid : List Nat} {blockSize numBlocks : Nat}
    {hw : State} {info : SystemInfo} (huid : uid.length = 8)
    (h : getSystemInfo fuel uid blockSize numBlocks hw = some info)
    (hok : info.rc = ISO15693_EC_OK) :
    info.uid = (List.range 8).map (fun i => rd8 info.hw.readBuffer (2 + i)) ∧
      (rd8 info.hw.readBuffer 1 &&& 0x04 ≠ 0 → ∃ p, 10 ≤ p ∧ p ≤ 12 ∧
        (rd8 info.hw.readBuffer p < 255 → info.numBlocks = rd8 info.hw.readBuffer p + 1) ∧
        info.blockSize = (rd8 info.hw.readBuffer (p + 1) &&& 0x1f) + 1) := by
  obtain ⟨h1, -, h3⟩ := getSystemInfo_reads huid h hok
  refine ⟨h1, fun hbit => ?_⟩
  obtain ⟨p, hp1, hp2, hn, hb⟩ := h3 hbit
  refine ⟨p, hp1, hp2, fun hlt => ?_, ?_⟩
  · rw [hn, Nat.mod_eq_of_lt (by omega)]
  · have hle : rd8 info.hw.readBuffer (p + 1) &&& 0x1f ≤ 0x1f := Nat.and_le_right
    rw [hb, Nat.mod_eq_of_lt (by omega)]

/-- C23 (amended): the response is read at fixed indices of `readBuffer` and
no index is compared with the received length `len = rxStatus & 0x1FF`. After
a call of `issueISO15693Command` that hands back `readBuffer`, entry `i < len`
is the `i`-th byte replied to Read-Data and every entry from `len` on is what
the buffer held before the call; unless the result is `EC_NO_CARD` the flags
are taken from entry 0 and, with the error bit set, the error code from entry
1. On success `getInventory` takes the UID from entries 2 to 9, and
`getSystemInfo` the UID from entries 2 to 9, the info flags from entry 1 and
the memory size from two entries between 10 and 13. -/
theorem response_read_at_fixed_indices (fuel : Nat) (hw : State) :
    (∀ cmd cmdLen b hw1 irq hw2 ok rxStatus hw4 rc hw',
        sendData fuel cmd cmdLen 0 hw = some (b, hw1) →
        getIRQStatus fuel hw1 = some (irq, hw2) →
        readRegister fuel RX_STATUS (declareLocal32 hw2).1 (declareLocal32 hw2).2
          = some (ok, rxStatus, hw4) →
        issueISO15693Command fuel cmd cmdLen hw = some (rc, BufPtr.toReadBuffer, hw') →
        (∀ i, i < rxStatus &&& 0x1FF → i < hw.readBuffer.length →
            hw'.readBuffer.getD i 0 = hw4.spiReply (hw4.spiWrites + 2 + i) % 256) ∧
          (∀ i, rxStatus &&& 0x1FF ≤ i → hw'.readBuffer.getD i 0 = hw.readBuffer.getD i 0) ∧
          (rc = EC_NO_CARD ∨
            (rd8 hw'.readBuffer 0 &&& 1 = 0 ∧ rc = ISO15693_EC_OK) ∨
            (rd8 hw'.readBuffer 0 &&& 1 ≠ 0 ∧
              (0xA0 ≤ rd8 hw'.readBuffer 1 → rc = ISO15693_EC_CUSTOM_CMD_ERROR) ∧
              (1 ≤ rd8 hw'.readBuffer 1 → rd8 hw'.readBuffer 1 < 0xA0 →
                rc = (rd8 hw'.readBuffer 1 : Int))))) ∧
      (∀ uid uid' hw', uid.length = 8 →
        getInventory fuel uid hw = some (ISO15693_EC_OK, uid', hw') →
        uid' = (List.range 8).map (fun i => rd8 hw'.readBuffer (2 + i))) ∧
      (∀ uid blockSize numBlocks info, uid.length = 8 →
        getSystemInfo fuel uid blockSize numBlocks hw = some info →
        info.rc = ISO15693_EC_OK →
        info.uid = (List.range 8).map (fun i => rd8 info.hw.readBuffer (2 + i)) ∧
          (rd8 info.hw.readBuffer 1 &&& 0x04 ≠ 0 → ∃ p, 10 ≤ p ∧ p ≤ 12 ∧
            (rd8 info.hw.readBuffer p < 255 →
              info.numBlocks = rd8 info.hw.readBuffer p + 1) ∧
            info.blockSize = (rd8 info.hw.readBuffer (p + 1) &&& 0x1f) + 1)) := by
  refine ⟨?_, fun uid uid' hw' huid h => getInventory_reads huid h,
    fun uid blockSize numBlocks info huid h hok => getSystemInfo_reads_guarded huid h hok⟩
  intro cmd cmdLen b hw1 irq hw2 ok rxStatus hw4 rc hw' hsend hpoll hrx h
  obtain ⟨hlen, hbuf, hrc⟩ := issueISO15693Command_buffer hsend hpoll hrx h
  refine ⟨fun i hi hil => ?_, fun i hi => ?_, ?_⟩
  · rw [hbuf, recvStores_getD, if_pos ⟨by omega, by omega, hil⟩]
    simp
  · rw [hbuf, recvStores_getD, if_neg (by omega)]
  · rcases hrc with hrc | hrc
    · exact Or.inl hrc
    · right
      rcases responseCode_cases (rd8 hw'.readBuffer 0) (rd8 hw'.readBuffer 1) with
        ⟨hf, hv⟩ | ⟨hf, hc, hp⟩
      · exact Or.inl ⟨hf, hrc.trans hv⟩
      · exact Or.inr ⟨hf, fun he => hrc.trans (hc he), fun _ he => hrc.trans (hp he)⟩

/-- C23 witness. An inventory answered with the one byte `0x08` while
`readBuffer` holds an earlier inventory response: entry 0 is the byte
received, every entry from 1 on is the earlier one, and the result is taken
from entry 0. An inventory answered with a response of length 0: the UID
handed out is entries 2 to 9 of the buffer, the UID of the earlier response.
A system-info request answered with the two bytes `0x00 0x04` while
`readBuffer` holds an earlier system-info response: the UID and the memory
size come from the entries of the earlier response. -/
theorem response_read_at_fixed_indices_witness :
    ((∀ i, i < 1 &&& 0x1FF → i < shortResponse.readBuffer.length →
          shortDone.readBuffer.getD i 0
            = shortMeasured.spiReply (shortMeasured.spiWrites + 2 + i) % 256) ∧
        (∀ i, 1 &&& 0x1FF ≤ i →
          shortDone.readBuffer.getD i 0 = shortResponse.readBuffer.getD i 0) ∧
        (ISO15693_EC_OK = EC_NO_CARD ∨
          (rd8 shortDone.readBuffer 0 &&& 1 = 0 ∧ ISO15693_EC_OK = ISO15693_EC_OK) ∨
          (rd8 shortDone.readBuffer 0 &&& 1 ≠ 0 ∧
            (0xA0 ≤ rd8 shortDone.readBuffer 1 →
              ISO15693_EC_OK = ISO15693_EC_CUSTOM_CMD_ERROR) ∧
            (1 ≤ rd8 shortDone.readBuffer 1 → rd8 shortDone.readBuffer 1 < 0xA0 →
              ISO15693_EC_OK = (rd8 shortDone.readBuffer 1 : Int))))) ∧
      shortDone.readBuffer.take 10
        = [0x08, 0x00, 0xA1, 0xA2, 0xA3, 0xA4, 0xA5, 0xA6, 0xA7, 0xA8] ∧
      emptyInventoryDone.2.1
        = (List.range 8).map (fun i => rd8 emptyInventoryDone.2.2.readBuffer (2 + i)) ∧
      emptyInventoryDone.2.1 = [0xA1, 0xA2, 0xA3, 0xA4, 0xA5, 0xA6, 0xA7, 0xA8] ∧
      (shortSystemInfoDone.uid
          = (List.range 8).map (fun i => rd8 shortSystemInfoDone.hw.readBuffer (2 + i)) ∧
        (rd8 shortSystemInfoDone.hw.readBuffer 1 &&& 0x04 ≠ 0 → ∃ p, 10 ≤ p ∧ p ≤ 12 ∧
          (rd8 shortSystemInfoDone.hw.readBuffer p < 255 →
            shortSystemInfoDone.numBlocks = rd8 shortSystemInfoDone.hw.readBuffer p + 1) ∧
          shortSystemInfoDone.blockSize
            = (rd8 shortSystemInfoDone.hw.readBuffer (p + 1) &&& 0x1f) + 1)) ∧
      (shortSystemInfoDone.uid, shortSystemInfoDone.numBlocks, shortSystemInfoDone.blockSize)
        = ([0xB1, 0xB2, 0xB3, 0xB4, 0xB5, 0xB6, 0xB7, 0xB8], 8, 4) :=
  ⟨(response_read_at_fixed_indices 300 shortResponse).1 [0x26, 0x01, 0x00] 3 true shortSent
      0x4000 shortPolled true 1 shortMeasured ISO15693_EC_OK shortDone
      (option_eq_some_pair _ _ (false, shortResponse) (by decide))
      (option_eq_some_pair _ _ (0, shortResponse) (by decide))
      (option_eq_some_triple _ _ _ (false, 0, shortResponse) (by decide))
      (option_eq_some_triple _ _ _ (0, BufPtr.null, shortResponse) (by decide)),
    by decide,
    (response_read_at_fixed_indices 300 (emptyResponse staleInventory)).2.1
      (List.replicate 8 0) _ _ rfl
      (option_eq_some_getD _ (0, [], emptyResponse staleInventory) (by decide)),
    by decide,
    (response_read_at_fixed_indices 300 shortSystemInfo).2.2 [1, 2, 3, 4, 5, 6, 7, 8] 0 0 _
      rfl (option_eq_some_getD _ ⟨0, [], 0, 0, none, shortSystemInfo⟩ (by decide)) (by decide),
    by decide⟩

/-- C23 (as stated) fails: the chip announces a response of length 0, so no
index is below `len`, and Read-Data asks for 0 bytes. With an earlier
inventory response in `readBuffer` the call returns `ISO15693_EC_OK` and hands
out the stale UID; with an earlier error response in `readBuffer` the same
answers of the chip give the error code 0x0F. -/
theorem stale_bytes_decide_the_result :
    (getInventory 300 (List.replicate 8 0) (emptyResponse staleInventory)).map
        (fun x => (x.1, x.2.1, x.2.2.commands.getD 6 ([], 0)))
        = some (ISO15693_EC_OK, [0xA1, 0xA2, 0xA3, 0xA4, 0xA5, 0xA6, 0xA7, 0xA8],
            ([0x0A, 0x00], 0)) ∧
      (getInventory 300 (List.replicate 8 0) (emptyResponse staleError)).map
        (fun x => (x.1, x.2.1, x.2.2.commands.getD 6 ([], 0)))
        = some (ISO15693_EC_UNKNOWN_ERROR, [0, 0, 0, 0, 0, 0, 0, 0], ([0x0A, 0x00], 0)) := by
  decide

end PN5180ISO15693

namespace PN5180

open PN5180ISO15693

/-! ## Chip-select at the returns of a host command -/

/-- A successful host command leaves chip-select high. -/
theorem transceiveCommand_true_cs {fuel : Nat} {sb : List Nat} {sl : Nat}
    {rb : Option (List Nat)} {rl : Nat} {hw : State} {buf : List Nat} {hw' : State}
    (h : transceiveCommand fuel sb sl rb rl hw = some (true, buf, hw')) : hw'.cs = true := by
  obtain ⟨-, n1, n2, n3, -, -, -, hsend, hrecv⟩ := transceiveCommand_true h
  by_cases hstop : (rb.isNone || rl == 0) = true
  · rw [(hsend hstop).2]
    exact (afterCommandFrame_fields sb sl rl n1 n2 n3 hw).2.2.2.1
  · obtain ⟨-, n4, n5, -, -, hpair⟩ := hrecv (Bool.eq_false_iff.mpr hstop)
    have hst := congrArg Prod.snd hpair
    simp only at hst
    rw [hst]
    simp [afterResponseFrame, polled_fields, writeCs]

/-- A host command whose first wait for BUSY low times out returns `false`
after sampling BUSY and nothing else: chip-select is not touched and no byte
is exchanged. -/
theorem transceiveCommand_first_wait_timeout {fuel : Nat} (sb : List Nat) (sl : Nat)
    (rb : Option (List Nat)) (rl : Nat) {hw hw1 : State}
    (h : waitForBusyState fuel LOW hw = some (false, hw1)) :
    transceiveCommand fuel sb sl rb rl hw = some (false, rb.getD [], hw1) ∧
      hw1 = polled 2001 hw ∧ hw1.cs = hw.cs ∧ hw1.spiWrites = hw.spiWrites ∧
      hw1.commands = hw.commands ∧
      hw1.trace = hw.trace ++ pollEvents hw.busyLine 2001 hw.busyReads := by
  obtain ⟨n, -, -, hpol, -, -, hfail⟩ := waitForBusyState_polled h
  have hn := hfail rfl
  subst hn
  have hf := polled_fields 2001 hw
  refine ⟨?_, hpol, by rw [hpol]; exact hf.2.2.2.1, by rw [hpol]; exact hf.2.2.1,
    by rw [hpol]; exact hf.2.2.2.2.2.2.2.2.2.2, by rw [hpol]; exact polled_trace 2001 hw⟩
  unfold transceiveCommand
  simp only [h]

/-- A frame sent on a BUSY line that is low and stays low: the wait for BUSY
high gives up after 2001 samples and `transceiveCommand` returns `false` from
there, before chip-select is set high again. -/
theorem transceiveCommand_busy_never_high (fuel : Nat) (sb : List Nat) (sl : Nat)
    (rb : Option (List Nat)) (rl : Nat) (hw : State) (hsl : sl ≤ 255) (hfuel : 2001 ≤ fuel)
    (h0 : hw.busyLine hw.busyReads = LOW)
    (hlow : ∀ j, j < 2001 → hw.busyLine (hw.busyReads + 1 + j) = LOW) :
    ∃ hw', transceiveCommand fuel sb sl rb rl hw = some (false, rb.getD [], hw') ∧
      hw'.cs = false ∧ hw'.spiWrites = hw.spiWrites + sl ∧
      hw'.busyReads = hw.busyReads + 2002 ∧
      hw'.commands = hw.commands ++ [(sb.take sl, rl)] := by
  obtain ⟨m, rfl⟩ : ∃ m, fuel = m + 1 := ⟨fuel - 1, by omega⟩
  have hwait : waitForBusyState (m + 1) HIGH (sent sb sl 0 (writeCs false
      { polled 1 hw with commands := (polled 1 hw).commands ++ [(sb.take sl, rl)] }))
      = some (false, polled 2001 (sent sb sl 0 (writeCs false
          { polled 1 hw with commands := (polled 1 hw).commands ++ [(sb.take sl, rl)] }))) := by
    have hline : ∀ j, j < 2001 → (sent sb sl 0 (writeCs false
        { polled 1 hw with commands := (polled 1 hw).commands ++ [(sb.take sl, rl)] })).busyLine
        ((sent sb sl 0 (writeCs false { polled 1 hw with
          commands := (polled 1 hw).commands ++ [(sb.take sl, rl)] })).busyReads + j) = LOW := by
      intro j hj
      simpa [sent_fields, writeCs, polled_fields, polled_busyReads] using hlow j hj
    have hex := waitForBusyState_exact hfuel HIGH _ 2001 (by decide) (by decide)
      (fun j hj => by rw [hline j (by omega)]; decide) (Or.inr rfl)
    rw [hex, hline 2000 (by decide)]
    rfl
  refine ⟨polled 2001 (sent sb sl 0 (writeCs false
    { polled 1 hw with commands := (polled 1 hw).commands ++ [(sb.take sl, rl)] })),
    ?_, ?_, ?_, ?_, ?_⟩
  · unfold transceiveCommand
    simp only
    rw [waitForBusyState_immediate m LOW hw h0]
    simp only
    rw [sendLoop_eq sb sl hsl (m + 1) 0 _ (by omega), if_pos (by omega)]
    simp only [Nat.sub_zero]
    rw [hwait]
  · simp [sent_fields, writeCs, polled_fields]
  · simp [sent_fields, writeCs, polled_fields]
  · simp [sent_fields, writeCs, polled_fields, polled_busyReads]
  · simp [sent_fields, writeCs, polled_fields]

/-- C24 (code at the failing input): the RF-on command sent to a chip whose
BUSY line stays low. The two bytes go out with chip-select low, the wait for
BUSY high gives up after 2001 samples, and `transceiveCommand` returns `false`
with chip-select still low. -/
theorem transceiveCommand_timeout_leaves_chip_selected :
    quietBusy.cs = true ∧
      (transceiveCommand 2001 [PN5180_RF_ON, 0x00] 2 none 0 quietBusy).map
        (fun r => (r.1, r.2.2.cs, r.2.2.spiWrites, r.2.2.busyReads))
        = some (false, false, 2, 2002) := by
  refine ⟨rfl, ?_⟩
  obtain ⟨hw', h, hcs, hspi, hbusy, -⟩ := transceiveCommand_busy_never_high 2001
    [PN5180_RF_ON, 0x00] 2 none 0 quietBusy (by decide) (le_refl _) rfl (fun _ _ => rfl)
  rw [h]
  simp only [Option.map_some', hcs, hspi, hbusy]
  rfl

end PN5180
namespace PN5180ISO15693

open PN5180

/-! ## What the outputs hold when nothing was read -/

theorem storeLoop_eight_zero (uid : List Nat) (h : uid.length = 8) :
    storeLoop 8 uid 0 (fun _ => 0) = List.replicate 8 0 := by
  rw [storeLoop_eight uid _ h]
  rfl

/-- C25: whenever `getInventory` returns a value other than `ISO15693_EC_OK`,
the 8-byte `uid` array holds eight zeros, whatever it held before the call;
and whenever `getSystemInfo` returns `ISO15693_EC_OK` on a response whose info
flags (entry 1 of `readBuffer`) have bit 2 clear, `*blockSize` and
`*numBlocks` are what they were before the call. -/
theorem outputs_on_failure (fuel : Nat) (hw : State) :
    (∀ uid rc uid' hw', uid.length = 8 →
        getInventory fuel uid hw = some (rc, uid', hw') → rc ≠ ISO15693_EC_OK →
        uid' = List.replicate 8 0) ∧
      (∀ uid blockSize numBlocks info,
        getSystemInfo fuel uid blockSize numBlocks hw = some info →
        info.rc = ISO15693_EC_OK → rd8 info.hw.readBuffer 1 &&& 0x04 = 0 →
        info.blockSize = blockSize ∧ info.numBlocks = numBlocks) := by
  constructor
  · intro uid rc uid' hw' huid h hrc
    unfold getInventory at h
    simp only at h
    split at h
    · cases h
    · rename_i rc1 p hw1 hi
      split at h
      · simp only [Option.some.injEq, Prod.mk.injEq] at h
        rw [← h.2.1]
        exact storeLoop_eight_zero uid huid
      · simp only [Option.some.injEq, Prod.mk.injEq] at h
        exact absurd h.1.symm hrc
  · intro uid blockSize numBlocks info h hok hbit
    unfold getSystemInfo at h
    split at h
    · cases h
    · rename_i rc p hw1 hi
      split at h
      · rename_i hrc
        simp only [Option.some.injEq] at h
        subst h
        exact ⟨rfl, rfl⟩
      · rename_i hrc
        have hrc' : rc = ISO15693_EC_OK := (show ISO15693_EC_OK = rc by simpa using hrc).symm
        subst hrc'
        have hp := issueISO15693Command_ok_ptr hi
        subst hp
        simp only [BufPtr.deref] at h
        split at h
        · rename_i hset
          simp only [Option.some.injEq] at h
          subst h
          simp only at hbit
          simp [hbit] at hset
        · simp only [Option.some.injEq] at h
          subst h
          exact ⟨rfl, rfl⟩

/-- C25 witness: an inventory that nothing answers, started with a `uid` array
that holds `1, …, 8`: the result is `EC_NO_CARD` and the array holds zeros. And
a system-info response with info flags 0x00, asked for with `*blockSize = 7`
and `*numBlocks = 9`: both keep their values. -/
theorem outputs_on_failure_witness :
    (getInventory 300 [1, 2, 3, 4, 5, 6, 7, 8] silentTag).map (fun x => x.1) = some EC_NO_CARD ∧
      ((getInventory 300 [1, 2, 3, 4, 5, 6, 7, 8] silentTag).getD (0, [], silentTag)).2.1
        = List.replicate 8 0 ∧
      (getSystemInfo 300 [1, 2, 3, 4, 5, 6, 7, 8] 7 9
          (chipAtRest (tagReplies 10 [0x00, 0x00, 1, 2, 3, 4, 5, 6, 7, 8])
            (List.replicate 508 0xEE))).map (fun s => (s.rc, s.blockSize, s.numBlocks))
        = some (ISO15693_EC_OK, 7, 9) :=
  ⟨by decide, (outputs_on_failure 300 silentTag).1 [1, 2, 3, 4, 5, 6, 7, 8] _ _ _ rfl
    (option_eq_some_getD _ (0, [], silentTag) (by decide)) (by decide), by decide⟩

end PN5180ISO15693

namespace PN5180

open PN5180ISO15693

/-! ## The Send-Data frame of a long payload -/

/-- Over a length of 256 or more the send loop gets through `n` rounds like a
loop that does not wrap, as long as the counter stays within 8 bits; after
round 256 the counter is 0 again. -/
theorem sendLoop_rounds (sb : List Nat) (sl : Nat) (hsl : 256 ≤ sl) (n : Nat) :
    ∀ (fuel i : Nat) (hw : State), i < 256 → i + n ≤ 256 →
      sendLoop (fuel + n) sb sl i hw = sendLoop fuel sb sl ((i + n) % 256) (sent sb n i hw) := by
  induction n with
  | zero =>
    intro fuel i hw hi _
    rw [Nat.add_zero, Nat.add_zero, Nat.mod_eq_of_lt hi]
    rfl
  | succ m ih =>
    intro fuel i hw hi hin
    rw [show fuel + (m + 1) = (fuel + m) + 1 by omega]
    simp only [sendLoop, sent]
    rw [if_pos (by omega)]
    by_cases hlast : i + 1 < 256
    · rw [Nat.mod_eq_of_lt hlast, ih fuel (i + 1) _ hlast (by omega)]
      congr 2
      omega
    · have hm : m = 0 := by omega
      subst hm
      have hi' : i = 255 := by omega
      subst hi'
      rfl

/-- C21 (code at the failing input): `sendData` with a payload of 254 or 255
bytes in a state where the three steps before the Send-Data frame have found
the transceiver in `PN5180_TS_WaitTransmit`. The only way the call returns is
`false` after the first BUSY wait of the Send-Data command timed out, with
nothing of the frame on the bus; when BUSY goes low for that command the
call does not return, whatever the fuel. In the send loop, once 256 bytes have gone out
the counter is 0 again and the loop goes on from the first byte of the frame
with chip-select still low. -/
theorem sendData_frame_never_completes (fuel : Nat) (data : List Nat) (len validBits : Nat)
    (hw hw3 : State) (hlen : 254 ≤ len) (hlen' : len ≤ 255)
    (hpre : sendDataPrelude fuel hw = some (PN5180_TS_WaitTransmit, hw3)) :
    (∀ b hw', sendData fuel data len validBits hw = some (b, hw') →
        b = false ∧ hw' = polled 2001 hw3) ∧
      ((waitForBusyState fuel LOW hw3).map (fun w => w.1) = some true →
        sendData fuel data len validBits hw = none) ∧
      (∀ k hw0,
        sendLoop (k + 256)
            ([PN5180_SEND_DATA, validBits] ++ (List.range len).map (fun i => rd8 data i))
            (len + 2) 0 hw0
          = sendLoop k
              ([PN5180_SEND_DATA, validBits] ++ (List.range len).map (fun i => rd8 data i))
              (len + 2) 0
              (sent ([PN5180_SEND_DATA, validBits] ++ (List.range len).map (fun i => rd8 data i))
                256 0 hw0)) := by
  have heq := sendData_eq fuel data len validBits hw
  rw [hpre] at heq
  simp only [Option.some_bind] at heq
  rw [if_neg (by decide),
    transceiveCommand_long_frame fuel _ (len + 2) (by omega) none 0 hw3] at heq
  refine ⟨fun b hw' h => ?_, fun hbusy => ?_, fun k hw0 => ?_⟩
  · rw [heq] at h
    cases hwait : waitForBusyState fuel LOW hw3 with
    | none => rw [hwait] at h; cases h
    | some w =>
      obtain ⟨ok, hw4⟩ := w
      rw [hwait] at h
      cases ok with
      | true => simp at h
      | false =>
        simp only [Option.some_bind, Bool.false_eq_true, if_false, Option.map_some',
          Option.some.injEq, Prod.mk.injEq] at h
        obtain ⟨rfl, rfl⟩ := h
        obtain ⟨n, -, -, hpol, -, -, hfail⟩ := waitForBusyState_polled hwait
        have hn := hfail rfl
        subst hn
        exact ⟨rfl, hpol⟩
  · rw [heq]
    cases hwait : waitForBusyState fuel LOW hw3 with
    | none => rfl
    | some w =>
      rw [hwait] at hbusy
      simp only [Option.map_some', Option.some.injEq] at hbusy
      simp only [Option.some_bind, hbusy, if_true]
      rfl
  · have h := sendLoop_rounds
      ([PN5180_SEND_DATA, validBits] ++ (List.range len).map (fun i => rd8 data i)) (len + 2)
      (by omega) 256 k 0 hw0 (by decide) (by decide)
    simpa using h

/-- C21 witness: a payload of 255 bytes handed to a chip at rest that reports
`WaitTransmit`. The two mask writes and the read of `RF_STATUS` go through in
this order, and the call does not return. -/
theorem sendData_frame_never_completes_witness :
    (sendDataPrelude 300 (chipAtRest (List.replicate 17 0 ++ [1]) [])).map
        (fun s => (s.1, s.2.commands))
        = some (PN5180_TS_WaitTransmit, [([0x02, 0x00, 0xF8, 0xFF, 0xFF, 0xFF], 0),
            ([0x01, 0x00, 0x03, 0x00, 0x00, 0x00], 0), ([0x04, 0x1D], 4)]) ∧
      sendData 300 (List.replicate 255 0x5A) 255 0 (chipAtRest (List.replicate 17 0 ++ [1]) [])
        = none :=
  ⟨by decide,
    (sendData_frame_never_completes 300 (List.replicate 255 0x5A) 255 0
      (chipAtRest (List.replicate 17 0 ++ [1]) [])
      ((sendDataPrelude 300 (chipAtRest (List.replicate 17 0 ++ [1]) [])).getD
        (0, chipAtRest (List.replicate 17 0 ++ [1]) [])).2
      (by decide) (by decide)
      (option_eq_some_pair _ _ (0, chipAtRest (List.replicate 17 0 ++ [1]) []) (by decide))).2.1
      (by decide)⟩

end PN5180
